import Mathlib

/-!
# Yolov10-rknn-CPP-RK3588: letterbox preprocessing, accelerator resize, ordering queue, model context, pipeline driver

A shallow embedding of `src/image_utils.c`, `src/rga_func.c`, `src/rkYolov10.cc`,
`src/main.cc` and of the ordering queue described in section 4.4 of the
specification, followed by the theorems that settle the claims about them.

Conventions of the embedding

* a C `int` is an `Int` (image sizes stay far below the 32 bit range, so no
  wrap-around is modelled);
* a C `float` is a rational number computed exactly, so `scale` is the exact
  quotient of the two dimensions; the quotient by a zero source dimension
  (`inf`/`NaN` in C) is outside the model, which is why the geometric theorems
  ask for positive source dimensions; the letterbox conversion is embedded a
  second time with the single-precision arithmetic of the code (the
  definitions whose names end in `_float`), where every conversion, quotient
  and product is rounded to the nearest binary32 value;
* a pointer argument is an `Option` (`none` is `NULL`), and a function that
  writes through a pointer returns the updated pointee;
* a byte buffer (`virt_addr`) is a function from the byte offset to the byte
  stored there; source and destination buffers do not overlap;
* an external library (accelerator, model runtime, OpenCV) is a structure of
  functions passed as a parameter, each function returning the status of the
  call together with what the call writes; a function of the program that
  calls such a library also returns the list of the calls it issued, in order;
* a C string is a `List Char`.
-/

namespace Yolov10

/-! ## Data model (`common.h`, `image_utils.h`) -/

/-- Modelled from the spec: the pixel formats of `common.h`, which is not among
the sources (section 6: RGB888, RGBA8888, GRAY8 and the two YUV420 semi-planar
variants). `IMAGE_FORMAT_UNKNOWN` stands for any other integer stored in the C
enumeration, the `default:` branch of the `switch` statements. -/
inductive image_format_t where
  | IMAGE_FORMAT_GRAY8
  | IMAGE_FORMAT_RGB888
  | IMAGE_FORMAT_RGBA8888
  | IMAGE_FORMAT_YUV420SP_NV21
  | IMAGE_FORMAT_YUV420SP_NV12
  | IMAGE_FORMAT_UNKNOWN (code : Int)
  deriving DecidableEq, Repr

open image_format_t

/-- Modelled from the spec: `image_rect_t` of `common.h` (absent), a rectangle
given by its left, top, right and bottom edges, in the order in which
`convert_image_with_letterbox` initialises it. -/
structure image_rect_t where
  left : Int
  top : Int
  right : Int
  bottom : Int
  deriving DecidableEq, Repr

/-- Modelled from the spec: `image_buffer_t` of `common.h` (absent), with the
fields that `rkYolov10::convert_mat_to_image_buffer` fills in. -/
structure image_buffer_t where
  width : Int
  height : Int
  width_stride : Int
  height_stride : Int
  format : image_format_t
  virt_addr : Int → Int
  size : Int
  fd : Int

/-- Modelled from the spec: `letterbox_t` of `image_utils.h` (absent), the
transform (scale, x-pad, y-pad) of section 3. -/
structure letterbox_t where
  x_pad : Int
  y_pad : Int
  scale : ℚ
  deriving DecidableEq

/-! ## The accelerator library (external) -/

/-- Pixel formats of the accelerator library that `rga_resize` uses. -/
inductive RgaSURF_FORMAT where
  | RK_FORMAT_RGBA_8888
  | RK_FORMAT_RGB_888
  deriving DecidableEq, Repr

open RgaSURF_FORMAT

/-- Buffer descriptor handed to the accelerator: address (here the bytes found
there), width, height and format. It has no rectangle. -/
structure rga_buffer_t where
  vir_addr : Int → Int
  width : Int
  height : Int
  format : RgaSURF_FORMAT

/-- What `wrapbuffer_virtualaddr` builds from its four arguments. -/
def wrapbuffer_virtualaddr (vir_addr : Int → Int) (width height : Int)
    (format : RgaSURF_FORMAT) : rga_buffer_t :=
  { vir_addr := vir_addr, width := width, height := height, format := format }

/-- The external accelerator library: the success status and the two-argument
resize primitive, which returns its status and the bytes of the destination
buffer after the call. -/
structure im2d where
  IM_STATUS_SUCCESS : Int
  imresize : rga_buffer_t → rga_buffer_t → Int × (Int → Int)

/-! ## `rga_func.c` -/

/-- The two `switch` statements of `rga_resize`: the accelerator format of an
image format, `none` for the `default:` branch. -/
def rga_format_of : image_format_t → Option RgaSURF_FORMAT
  | IMAGE_FORMAT_RGB888 => some RK_FORMAT_RGB_888
  | IMAGE_FORMAT_RGBA8888 => some RK_FORMAT_RGBA_8888
  | _ => none

/-- The request that `rga_resize` issues to the accelerator: the pair of buffer
descriptors passed to `imresize`, `none` when it returns before the call. -/
def rga_request (src_image dst_image : Option image_buffer_t)
    (_src_rect _dst_rect : Option image_rect_t) : Option (rga_buffer_t × rga_buffer_t) :=
  match src_image, dst_image with
  | some src, some dst =>
    match rga_format_of src.format, rga_format_of dst.format with
    | some src_format, some dst_format =>
      some (wrapbuffer_virtualaddr src.virt_addr src.width src.height src_format,
            wrapbuffer_virtualaddr dst.virt_addr dst.width dst.height dst_format)
    | _, _ => none
  | _, _ => none

/-- `rga_resize` of `rga_func.c`. `RK3588` tells whether the macro of that name
is defined: without it the stub returns -1. The result is the return value and
the destination image after the call. -/
def rga_resize (RK3588 : Bool) (hw : im2d) (src_image dst_image : Option image_buffer_t)
    (src_rect dst_rect : Option image_rect_t) : Int × Option image_buffer_t :=
  if RK3588 then
    match dst_image, rga_request src_image dst_image src_rect dst_rect with
    | some dst, some (src_buf, dst_buf) =>
      let r := hw.imresize src_buf dst_buf
      if r.1 ≠ hw.IM_STATUS_SUCCESS then (-1, some { dst with virt_addr := r.2 })
      else (0, some { dst with virt_addr := r.2 })
    | _, _ => (-1, dst_image)
  else (-1, dst_image)

/-! ## `image_utils.c` -/

/-- The conversion `(int)f` of a float: truncation towards zero. -/
def float_to_int (f : ℚ) : Int := if 0 ≤ f then ⌊f⌋ else ⌈f⌉

/-- `memset(p, c, n)` for `n >= 0`: the first `n` bytes become `c` converted to
a byte. -/
def memset (p : Int → Int) (c : Int) (n : Int) : Int → Int :=
  fun i => if 0 ≤ i ∧ i < n then c % 256 else p i

/-- The assignment `p[i] = v`. -/
def store (p : Int → Int) (i v : Int) : Int → Int :=
  fun j => if j = i then v else p j

/-- The float `scale` of `convert_image_with_letterbox` (lines 54 to 58), with
the C type `float` taken as an exact rational; `letterbox_scale_float` is the
value that single precision gives. -/
def letterbox_scale (src_image dst_image : image_buffer_t) : ℚ :=
  let scale_w : ℚ := (dst_image.width : ℚ) / (src_image.width : ℚ)
  let scale_h : ℚ := (dst_image.height : ℚ) / (src_image.height : ℚ)
  if scale_w < scale_h then scale_w else scale_h

/-- The local `scaled_width` (line 62). -/
def letterbox_scaled_width (src_image dst_image : image_buffer_t) : Int :=
  float_to_int ((src_image.width : ℚ) * letterbox_scale src_image dst_image)

/-- The local `scaled_height` (line 63). -/
def letterbox_scaled_height (src_image dst_image : image_buffer_t) : Int :=
  float_to_int ((src_image.height : ℚ) * letterbox_scale src_image dst_image)

/-- The transform stored through `letter_box` (lines 59, 66 and 67); `/` on C
integers truncates towards zero. -/
def letterbox_transform (src_image dst_image : image_buffer_t) : letterbox_t :=
  { scale := letterbox_scale src_image dst_image
    x_pad := Int.tdiv (dst_image.width - letterbox_scaled_width src_image dst_image) 2
    y_pad := Int.tdiv (dst_image.height - letterbox_scaled_height src_image dst_image) 2 }

/-- The local `src_rect` (line 80). -/
def letterbox_src_rect (src_image : image_buffer_t) : image_rect_t :=
  { left := 0, top := 0, right := src_image.width, bottom := src_image.height }

/-- The local `dst_rect` (lines 81 to 86). -/
def letterbox_dst_rect (src_image dst_image : image_buffer_t) : image_rect_t :=
  let letter_box := letterbox_transform src_image dst_image
  { left := letter_box.x_pad
    top := letter_box.y_pad
    right := letter_box.x_pad + letterbox_scaled_width src_image dst_image
    bottom := letter_box.y_pad + letterbox_scaled_height src_image dst_image }

/-- The source column (or row) that the software path reads for destination
column (or row) `x`: `(int)(x / scale)` (lines 103 and 104), with the quotient
taken exactly; `cpu_src_coord_float` is the value that single precision gives. -/
def cpu_src_coord (scale : ℚ) (x : Int) : Int := float_to_int ((x : ℚ) / scale)

/-- Index of the first byte of source pixel `(src_x, src_y)` (line 107). -/
def cpu_src_idx (src_image : image_buffer_t) (src_y src_x : Int) : Int :=
  (src_y * src_image.width + src_x) * 3

/-- Index of the first byte of the destination pixel written for `(x, y)`
(line 110). -/
def cpu_dst_idx (dst_image : image_buffer_t) (letter_box : letterbox_t) (y x : Int) : Int :=
  ((y + letter_box.y_pad) * dst_image.width + (x + letter_box.x_pad)) * 3

/-- Body of the inner loop of the software path (lines 102 to 115): the three
bytes of one pixel are copied. -/
def cpu_copy_pixel (src_image dst_image : image_buffer_t) (letter_box : letterbox_t)
    (y x : Int) (mem : Int → Int) : Int → Int :=
  let src_x := cpu_src_coord letter_box.scale x
  let src_y := cpu_src_coord letter_box.scale y
  let src_idx := cpu_src_idx src_image src_y src_x
  let dst_idx := cpu_dst_idx dst_image letter_box y x
  store (store (store mem dst_idx (src_image.virt_addr src_idx))
    (dst_idx + 1) (src_image.virt_addr (src_idx + 1)))
    (dst_idx + 2) (src_image.virt_addr (src_idx + 2))

/-- The inner loop `for (x = 0; x < scaled_width; x++)`. -/
def cpu_copy_row (src_image dst_image : image_buffer_t) (letter_box : letterbox_t)
    (scaled_width : Int) (y : Int) (mem : Int → Int) : Int → Int :=
  (List.range scaled_width.toNat).foldl
    (fun (m : Int → Int) (x : Nat) => cpu_copy_pixel src_image dst_image letter_box y (x : Int) m)
    mem

/-- The outer loop `for (y = 0; y < scaled_height; y++)`: the software
nearest-neighbour resize (lines 100 to 117). -/
def cpu_resize (src_image dst_image : image_buffer_t) (letter_box : letterbox_t)
    (scaled_width scaled_height : Int) (mem : Int → Int) : Int → Int :=
  (List.range scaled_height.toNat).foldl
    (fun (m : Int → Int) (y : Nat) =>
      cpu_copy_row src_image dst_image letter_box scaled_width (y : Int) m)
    mem

/-- `convert_image_with_letterbox` of `image_utils.c`. The result is the return
value, the destination image and the transform after the call. -/
def convert_image_with_letterbox (RK3588 : Bool) (hw : im2d)
    (src_image dst_image : Option image_buffer_t) (letter_box : Option letterbox_t)
    (color : Int) : Int × Option image_buffer_t × Option letterbox_t :=
  match src_image, dst_image, letter_box with
  | some src, some dst, some _ =>
    let lb := letterbox_transform src dst
    let scaled_width := letterbox_scaled_width src dst
    let scaled_height := letterbox_scaled_height src dst
    let filled : image_buffer_t := { dst with virt_addr := memset dst.virt_addr color dst.size }
    let src_rect := letterbox_src_rect src
    let dst_rect := letterbox_dst_rect src dst
    let r := rga_resize RK3588 hw (some src) (some filled) (some src_rect) (some dst_rect)
    let after_rga := r.2.getD filled
    if r.1 = 0 then (0, some after_rga, some lb)
    else if src.format = IMAGE_FORMAT_RGB888 ∧ dst.format = IMAGE_FORMAT_RGB888 then
      (0, some { after_rga with
                 virt_addr := cpu_resize src after_rga lb scaled_width scaled_height
                                after_rga.virt_addr },
          some lb)
    else (-1, some after_rga, some lb)
  | _, _, _ => (-1, dst_image, letter_box)

/-! ### The same lines in single-precision arithmetic

The definitions above take the C type `float` as an exact rational. Those
below follow the same lines of `image_utils.c` with the arithmetic of the
machine: a `float` is an IEEE 754 binary32 value, and every conversion of an
`int`, every quotient and every product is rounded to the nearest such value,
ties to even, each operation on its own (as on the AArch64 target). A finite
float is kept as the rational it denotes. Infinities and NaN have no
counterpart: in these lines they arise only from a source dimension of 0, and
no value with `int` operands exceeds the largest float. -/

/-- The integer nearest to a rational, the even one of the two when it lies
half way. -/
def round_half_even (q : ℚ) : Int :=
  if q - (⌊q⌋ : ℚ) < 1 / 2 then ⌊q⌋
  else if 1 / 2 < q - (⌊q⌋ : ℚ) then ⌊q⌋ + 1
  else if ⌊q⌋ % 2 = 0 then ⌊q⌋ else ⌊q⌋ + 1

/-- The binary exponent at which a rational is represented in binary32: `e`
with `2^e <= |q| < 2^(e+1)`, and -126 for what lies below the normal range. -/
def float_exponent (q : ℚ) : Int := max (Int.log 2 |q|) (-126)

/-- The binary32 value nearest to a rational (round to nearest, ties to even):
a multiple of `2^(e-23)`, the spacing of the floats with exponent `e`. -/
def float_round (q : ℚ) : ℚ :=
  (round_half_even (q / (2 : ℚ) ^ (float_exponent q - 23)) : ℚ)
    * (2 : ℚ) ^ (float_exponent q - 23)

/-- The conversion of an `int` to `float`. -/
def int_to_float (n : Int) : ℚ := float_round (n : ℚ)

/-- The quotient of two floats, as a float, for a divisor other than 0 (the
quotient by 0 is an infinity or NaN in C and is 0 here). -/
def float_div (a b : ℚ) : ℚ := float_round (a / b)

/-- The product of two floats, as a float. -/
def float_mul (a b : ℚ) : ℚ := float_round (a * b)

/-- The float `scale` of `convert_image_with_letterbox` (lines 54 to 58) in
single precision. -/
def letterbox_scale_float (src_image dst_image : image_buffer_t) : ℚ :=
  let scale_w : ℚ := float_div (int_to_float dst_image.width) (int_to_float src_image.width)
  let scale_h : ℚ := float_div (int_to_float dst_image.height) (int_to_float src_image.height)
  if scale_w < scale_h then scale_w else scale_h

/-- The local `scaled_width` (line 62) in single precision. -/
def letterbox_scaled_width_float (src_image dst_image : image_buffer_t) : Int :=
  float_to_int (float_mul (int_to_float src_image.width)
    (letterbox_scale_float src_image dst_image))

/-- The local `scaled_height` (line 63) in single precision. -/
def letterbox_scaled_height_float (src_image dst_image : image_buffer_t) : Int :=
  float_to_int (float_mul (int_to_float src_image.height)
    (letterbox_scale_float src_image dst_image))

/-- The transform stored through `letter_box` (lines 59, 66 and 67) in single
precision. -/
def letterbox_transform_float (src_image dst_image : image_buffer_t) : letterbox_t :=
  { scale := letterbox_scale_float src_image dst_image
    x_pad := Int.tdiv (dst_image.width - letterbox_scaled_width_float src_image dst_image) 2
    y_pad := Int.tdiv (dst_image.height - letterbox_scaled_height_float src_image dst_image) 2 }

/-- The local `dst_rect` (lines 81 to 86) in single precision. -/
def letterbox_dst_rect_float (src_image dst_image : image_buffer_t) : image_rect_t :=
  let letter_box := letterbox_transform_float src_image dst_image
  { left := letter_box.x_pad
    top := letter_box.y_pad
    right := letter_box.x_pad + letterbox_scaled_width_float src_image dst_image
    bottom := letter_box.y_pad + letterbox_scaled_height_float src_image dst_image }

/-- The source column (or row) `(int)(x / scale)` (lines 103 and 104) in single
precision: `x` is converted to `float` and the quotient is rounded before it is
truncated. -/
def cpu_src_coord_float (scale : ℚ) (x : Int) : Int :=
  float_to_int (float_div (int_to_float x) scale)

/-- Body of the inner loop of the software path (lines 102 to 115) in single
precision. -/
def cpu_copy_pixel_float (src_image dst_image : image_buffer_t) (letter_box : letterbox_t)
    (y x : Int) (mem : Int → Int) : Int → Int :=
  let src_x := cpu_src_coord_float letter_box.scale x
  let src_y := cpu_src_coord_float letter_box.scale y
  let src_idx := cpu_src_idx src_image src_y src_x
  let dst_idx := cpu_dst_idx dst_image letter_box y x
  store (store (store mem dst_idx (src_image.virt_addr src_idx))
    (dst_idx + 1) (src_image.virt_addr (src_idx + 1)))
    (dst_idx + 2) (src_image.virt_addr (src_idx + 2))

/-- The inner loop `for (x = 0; x < scaled_width; x++)` in single precision. -/
def cpu_copy_row_float (src_image dst_image : image_buffer_t) (letter_box : letterbox_t)
    (scaled_width : Int) (y : Int) (mem : Int → Int) : Int → Int :=
  (List.range scaled_width.toNat).foldl
    (fun (m : Int → Int) (x : Nat) =>
      cpu_copy_pixel_float src_image dst_image letter_box y (x : Int) m)
    mem

/-- The outer loop `for (y = 0; y < scaled_height; y++)` in single precision
(lines 100 to 117). -/
def cpu_resize_float (src_image dst_image : image_buffer_t) (letter_box : letterbox_t)
    (scaled_width scaled_height : Int) (mem : Int → Int) : Int → Int :=
  (List.range scaled_height.toNat).foldl
    (fun (m : Int → Int) (y : Nat) =>
      cpu_copy_row_float src_image dst_image letter_box scaled_width (y : Int) m)
    mem

/-- `convert_image_with_letterbox` of `image_utils.c` in single precision. The
result is the return value, the destination image and the transform after the
call. -/
def convert_image_with_letterbox_float (RK3588 : Bool) (hw : im2d)
    (src_image dst_image : Option image_buffer_t) (letter_box : Option letterbox_t)
    (color : Int) : Int × Option image_buffer_t × Option letterbox_t :=
  match src_image, dst_image, letter_box with
  | some src, some dst, some _ =>
    let lb := letterbox_transform_float src dst
    let scaled_width := letterbox_scaled_width_float src dst
    let scaled_height := letterbox_scaled_height_float src dst
    let filled : image_buffer_t := { dst with virt_addr := memset dst.virt_addr color dst.size }
    let src_rect := letterbox_src_rect src
    let dst_rect := letterbox_dst_rect_float src dst
    let r := rga_resize RK3588 hw (some src) (some filled) (some src_rect) (some dst_rect)
    let after_rga := r.2.getD filled
    if r.1 = 0 then (0, some after_rga, some lb)
    else if src.format = IMAGE_FORMAT_RGB888 ∧ dst.format = IMAGE_FORMAT_RGB888 then
      (0, some { after_rga with
                 virt_addr := cpu_resize_float src after_rga lb scaled_width scaled_height
                                after_rga.virt_addr },
          some lb)
    else (-1, some after_rga, some lb)
  | _, _, _ => (-1, dst_image, letter_box)

/-- `get_image_size` of `image_utils.c`; the `default:` branch leaves `size` at
0. -/
def get_image_size (image : Option image_buffer_t) : Int :=
  match image with
  | none => 0
  | some img =>
    match img.format with
    | IMAGE_FORMAT_RGB888 => img.width * img.height * 3
    | IMAGE_FORMAT_RGBA8888 => img.width * img.height * 4
    | IMAGE_FORMAT_GRAY8 => img.width * img.height
    | IMAGE_FORMAT_YUV420SP_NV12 => Int.tdiv (img.width * img.height * 3) 2
    | IMAGE_FORMAT_YUV420SP_NV21 => Int.tdiv (img.width * img.height * 3) 2
    | IMAGE_FORMAT_UNKNOWN _ => 0

/-! ## The ordering queue of the worker pool (`rknnPool.hpp`) -/

/-- Modelled from the spec: `PendingResult` of section 3, the entry kept for an
outstanding ticket: an in-flight marker or the completed frame. The pool
template `rknnPool.hpp` is not among the sources. -/
inductive PendingResult (β : Type) where
  | in_flight
  | completed (frame : β)
  deriving DecidableEq, Repr

/-- Modelled from the spec: the state of the pool's ordering queue (sections 4.3
and 4.4; `rknnPool.hpp` is not among the sources): the configured queue depth,
the ticket the next submission gets, the next expected ticket of retrieval, and
the mapping from ticket to pending result. -/
structure rknnPool (β : Type) where
  depth : Nat
  next_ticket : Nat
  cursor : Nat
  pending : Nat → Option (PendingResult β)

namespace rknnPool

variable {β : Type}

/-- Modelled from the spec: the queue of a freshly constructed pool; tickets
start at 0 (section 4.4; `rknnPool.hpp` is absent). -/
def init (depth : Nat) : rknnPool β :=
  { depth := depth, next_ticket := 0, cursor := 0, pending := fun _ => none }

/-- Modelled from the spec: `put` (`submit`, sections 4.3 and 4.4;
`rknnPool.hpp` is absent). The frame goes to a worker, which reports back
through `complete`; the submission gets the next ticket and an in-flight entry.
When the number of outstanding tickets has reached the depth the submission is
refused (`none`, "queue full") and the queue is left as it was. -/
def put (q : rknnPool β) : Option Nat × rknnPool β :=
  if q.depth ≤ q.next_ticket - q.cursor then (none, q)
  else
    (some q.next_ticket,
     { q with
       next_ticket := q.next_ticket + 1
       pending := fun t => if t = q.next_ticket then some PendingResult.in_flight
                           else q.pending t })

/-- Modelled from the spec: completion of a ticket by its worker (section 4.4;
`rknnPool.hpp` is absent): the result is stored under the ticket, which must be
in flight. -/
def complete (q : rknnPool β) (ticket : Nat) (result : β) : rknnPool β :=
  match q.pending ticket with
  | some PendingResult.in_flight =>
    { q with
      pending := fun t => if t = ticket then some (PendingResult.completed result)
                          else q.pending t }
  | _ => q

/-- Modelled from the spec: `get` (`retrieve`, section 4.4; `rknnPool.hpp` is
absent). The result of the next expected ticket is returned once present, the
entry is evicted and the cursor advances by one; otherwise "not yet available"
(`none`) is reported and nothing changes. -/
def get (q : rknnPool β) : Option (Nat × β) × rknnPool β :=
  match q.pending q.cursor with
  | some (PendingResult.completed frame) =>
    (some (q.cursor, frame),
     { q with
       cursor := q.cursor + 1
       pending := fun t => if t = q.cursor then none else q.pending t })
  | _ => (none, q)

end rknnPool

/-- Modelled from the spec: the events of a run of the pool (section 5): a
submission by the driver, a completion by a worker, or a retrieval by the
driver. -/
inductive PoolEvent (β : Type) where
  | put
  | complete (ticket : Nat) (result : β)
  | get
  deriving DecidableEq, Repr

/-- Modelled from the spec: a run of the pool as its caller sees it: the queue,
the tickets handed out by `put` and the results handed out by `get`, oldest
first. -/
structure PoolRun (β : Type) where
  queue : rknnPool β
  issued : List Nat
  delivered : List (Nat × β)

namespace PoolRun

variable {β : Type}

/-- Modelled from the spec: the run of a freshly constructed pool. -/
def start (depth : Nat) : PoolRun β :=
  { queue := rknnPool.init depth, issued := [], delivered := [] }

/-- Modelled from the spec: effect of one event on a run; what `put` and `get`
return is appended to what the caller has seen. -/
def step (s : PoolRun β) : PoolEvent β → PoolRun β
  | PoolEvent.put =>
    match s.queue.put with
    | (some ticket, q) => { s with queue := q, issued := s.issued ++ [ticket] }
    | (none, q) => { s with queue := q }
  | PoolEvent.complete ticket result => { s with queue := s.queue.complete ticket result }
  | PoolEvent.get =>
    match s.queue.get with
    | (some out, q) => { s with queue := q, delivered := s.delivered ++ [out] }
    | (none, q) => { s with queue := q }

/-- Modelled from the spec: effect of a sequence of events, in order. -/
def run (s : PoolRun β) (events : List (PoolEvent β)) : PoolRun β :=
  events.foldl step s

/-- Modelled from the spec: the ordering invariant of section 4.4 on what the
caller has seen so far: the tickets issued are 0, 1, ... up to the
next ticket, and the tickets delivered are 0, 1, ... up to the cursor. -/
def ordered (s : PoolRun β) : Prop :=
  s.issued = List.range s.queue.next_ticket ∧
    s.delivered.map Prod.fst = List.range s.queue.cursor

end PoolRun

/-! ## `rkYolov10.cc`: frames handed to the preprocessor -/

/-- The fields of an OpenCV `cv::Mat` that `convert_mat_to_image_buffer` reads. -/
structure Mat where
  cols : Int
  rows : Int
  data : Int → Int

/-- `rkYolov10::convert_mat_to_image_buffer` of `rkYolov10.cc`. -/
def convert_mat_to_image_buffer (img : Mat) : image_buffer_t :=
  { width := img.cols
    height := img.rows
    width_stride := img.cols
    height_stride := img.rows
    format := image_format_t.IMAGE_FORMAT_RGB888
    virt_addr := img.data
    size := img.cols * img.rows * 3
    fd := -1 }

/-! ## The model runtime (external) and `rkYolov10.cc`: the model context -/

/-- A runtime handle, `rknn_context` of the SDK: an unsigned integer, 0 when
there is no handle. -/
abbrev rknn_context := Nat

/-- Tensor layouts of the SDK. -/
inductive rknn_tensor_format where
  | RKNN_TENSOR_NCHW
  | RKNN_TENSOR_NHWC
  | RKNN_TENSOR_NC1HWC2
  | RKNN_TENSOR_UNDEFINED
  deriving DecidableEq, Repr

/-- Element types of the SDK; `RKNN_TENSOR_OTHER_TYPE` stands for the types the
adapter never names. -/
inductive rknn_tensor_type where
  | RKNN_TENSOR_FLOAT32
  | RKNN_TENSOR_FLOAT16
  | RKNN_TENSOR_INT8
  | RKNN_TENSOR_UINT8
  | RKNN_TENSOR_OTHER_TYPE (code : Nat)
  deriving DecidableEq, Repr

/-- Quantization types of the SDK. -/
inductive rknn_tensor_qnt_type where
  | RKNN_TENSOR_QNT_NONE
  | RKNN_TENSOR_QNT_DFP
  | RKNN_TENSOR_QNT_AFFINE_ASYMMETRIC
  deriving DecidableEq, Repr

/-- The fields of `rknn_tensor_attr` that the adapter reads; `dims[i]` is
`dims.getD i 0`. -/
structure rknn_tensor_attr where
  index : Nat
  dims : List Int
  fmt : rknn_tensor_format
  type : rknn_tensor_type
  qnt_type : rknn_tensor_qnt_type
  deriving DecidableEq, Repr

/-- The structure `rknn_input_output_num` of the SDK. -/
structure rknn_input_output_num where
  n_input : Nat
  n_output : Nat
  deriving DecidableEq, Repr

/-- Modelled from the spec: `rknn_app_context_t` of `yolov10.h` (absent): the
runtime handle and the tensor metadata derived from it (section 3). The two
attribute arrays are lists; a null array is the empty list. -/
structure rknn_app_context_t where
  rknn_ctx : rknn_context
  io_num : rknn_input_output_num
  input_attrs : List rknn_tensor_attr
  output_attrs : List rknn_tensor_attr
  model_channel : Int
  model_width : Int
  model_height : Int
  is_quant : Bool
  deriving DecidableEq, Repr

/-- Modelled from the spec: one detection of `postprocess.h` (absent): class
id, confidence and box (section 4.2). -/
structure object_detect_result where
  box : image_rect_t
  prop : ℚ
  cls_id : Int
  deriving DecidableEq

/-- Modelled from the spec: the bounded list of detections of `postprocess.h`
(absent): `count` entries of the array `results` are valid. -/
structure object_detect_result_list where
  count : Int
  results : List object_detect_result
  deriving DecidableEq

/-- The calls that a model context issues to the runtime, to the model code of
`yolov10.h` and to the postprocessing code, in the order in which they are
issued. -/
inductive RknnCall where
  | rknn_dup_context (context_in : rknn_context)
  | rknn_query_in_out_num (ctx : rknn_context)
  | rknn_query_input_attr (ctx : rknn_context) (index : Nat)
  | rknn_query_output_attr (ctx : rknn_context) (index : Nat)
  | rknn_destroy (ctx : rknn_context)
  | init_yolov10_model (model_path : List Char)
  | inference_yolov10_model (ctx : rknn_context)
  | init_post_process
  | deinit_post_process
  deriving DecidableEq, Repr

/-- The external model runtime and the external model code, as the adapter
sees them: every call returns its status together with what it writes through
its output pointer. `inference_yolov10_model` reads the context and does not
change it. -/
structure rknn_runtime where
  rknn_dup_context : rknn_context → Int × rknn_context
  rknn_query_in_out_num : rknn_context → Int × rknn_input_output_num
  rknn_query_input_attr : rknn_context → Nat → Int × rknn_tensor_attr
  rknn_query_output_attr : rknn_context → Nat → Int × rknn_tensor_attr
  init_yolov10_model : List Char → rknn_app_context_t → Int × rknn_app_context_t
  inference_yolov10_model : rknn_app_context_t → image_buffer_t → Int × object_detect_result_list

/-- Status that the runtime returns for a duplication or query call of the
context (0 for the other calls). -/
def rknn_runtime.status (rt : rknn_runtime) : RknnCall → Int
  | RknnCall.rknn_dup_context p => (rt.rknn_dup_context p).1
  | RknnCall.rknn_query_in_out_num c => (rt.rknn_query_in_out_num c).1
  | RknnCall.rknn_query_input_attr c i => (rt.rknn_query_input_attr c i).1
  | RknnCall.rknn_query_output_attr c i => (rt.rknn_query_output_attr c i).1
  | _ => 0

/-- Colour conversions of OpenCV that the program asks for. -/
inductive ColorConversionCodes where
  | COLOR_GRAY2BGR
  | COLOR_BGRA2BGR
  | COLOR_BGR2RGB
  deriving DecidableEq, Repr

/-- The OpenCV operations on frames that the program uses (external): each one
returns the frame it produces. `type_is_CV_8UC3 m` is `m.type() == CV_8UC3`;
`rectangle` and `putText` are called with the fixed colour, font and thickness
of `rkYolov10::infer`. -/
structure OpenCV where
  empty : Mat → Bool
  type_is_CV_8UC3 : Mat → Bool
  channels : Mat → Int
  clone : Mat → Mat
  convertTo_CV_8UC3 : Mat → Mat
  cvtColor : Mat → ColorConversionCodes → Mat
  resize : Mat → Int → Int → Mat
  rectangle : Mat → Int → Int → Int → Int → Mat
  putText : Mat → object_detect_result → Int → Int → Mat

/-- The members of a `rkYolov10` object (`rkYolov10.hpp`); the mutex has no
content in a sequential run. -/
structure rkYolov10 where
  ret : Int
  model_path : List Char
  app_ctx : rknn_app_context_t
  nms_threshold : ℚ
  box_conf_threshold : ℚ
  deriving DecidableEq

/-- The zeroed context that the constructor allocates (`memset` to 0). -/
def zeroed_app_context : rknn_app_context_t :=
  { rknn_ctx := 0
    io_num := { n_input := 0, n_output := 0 }
    input_attrs := []
    output_attrs := []
    model_channel := 0
    model_width := 0
    model_height := 0
    is_quant := false }

/-- The constructor `rkYolov10::rkYolov10(model_path)`. The two thresholds are
the macros `NMS_THRESH` and `BOX_THRESH` of `postprocess.h` (absent), and `ret`
is whatever the uninitialised member holds. -/
def rkYolov10.construct (NMS_THRESH BOX_THRESH : ℚ) (ret : Int) (model_path : List Char) :
    rkYolov10 :=
  { ret := ret
    model_path := model_path
    app_ctx := zeroed_app_context
    nms_threshold := NMS_THRESH
    box_conf_threshold := BOX_THRESH }

/-- Outcome of one of the two query loops of `rkYolov10::init`: whether a query
failed, the member `ret` afterwards, the attributes written and the calls
issued. -/
structure QueryLoop where
  failed : Bool
  ret : Int
  attrs : List rknn_tensor_attr
  calls : List RknnCall

/-- The loop `for (i = 0; i < n; i++) { ret = rknn_query(...); if (ret < 0) return -1; }`
of `rkYolov10::init`, run over the indices still to be queried, from the
current value of `ret`. -/
def query_attrs (query : Nat → Int × rknn_tensor_attr) (call : Nat → RknnCall) :
    List Nat → Int → QueryLoop
  | [], ret => { failed := false, ret := ret, attrs := [], calls := [] }
  | i :: rest, _ =>
    if (query i).1 < 0 then
      { failed := true, ret := (query i).1, attrs := [(query i).2], calls := [call i] }
    else
      let later := query_attrs query call rest (query i).1
      { failed := later.failed
        ret := later.ret
        attrs := (query i).2 :: later.attrs
        calls := call i :: later.calls }

/-- The assignments "Set model dimensions" of `rkYolov10::init` (lines 85 to
93); `input_attrs[0]` of an empty array reads a zeroed attribute. -/
def set_model_dimensions (app_ctx : rknn_app_context_t) : rknn_app_context_t :=
  let attr0 := app_ctx.input_attrs.getD 0
    { index := 0, dims := [], fmt := rknn_tensor_format.RKNN_TENSOR_NCHW,
      type := rknn_tensor_type.RKNN_TENSOR_FLOAT32,
      qnt_type := rknn_tensor_qnt_type.RKNN_TENSOR_QNT_NONE }
  if attr0.fmt = rknn_tensor_format.RKNN_TENSOR_NCHW then
    { app_ctx with
      model_channel := attr0.dims.getD 1 0
      model_height := attr0.dims.getD 2 0
      model_width := attr0.dims.getD 3 0 }
  else
    { app_ctx with
      model_height := attr0.dims.getD 1 0
      model_width := attr0.dims.getD 2 0
      model_channel := attr0.dims.getD 3 0 }

/-- The assignment "Set quantization flag" of `rkYolov10::init` (lines 96 to
101); `output_attrs[0]` of an empty array reads a zeroed attribute. -/
def set_quantization_flag (app_ctx : rknn_app_context_t) : rknn_app_context_t :=
  let attr0 := app_ctx.output_attrs.getD 0
    { index := 0, dims := [], fmt := rknn_tensor_format.RKNN_TENSOR_NCHW,
      type := rknn_tensor_type.RKNN_TENSOR_FLOAT32,
      qnt_type := rknn_tensor_qnt_type.RKNN_TENSOR_QNT_NONE }
  if attr0.qnt_type = rknn_tensor_qnt_type.RKNN_TENSOR_QNT_AFFINE_ASYMMETRIC ∧
      attr0.type = rknn_tensor_type.RKNN_TENSOR_UINT8 then
    { app_ctx with is_quant := true }
  else
    { app_ctx with is_quant := false }

/-- Result of a member function of the context: its return value, the object
afterwards and the calls it issued, in order. -/
structure ContextResult where
  value : Int
  self : rkYolov10
  calls : List RknnCall

/-- `rkYolov10::init(ctx_in, isChild)` of `rkYolov10.cc`. `ctx_in` is the
pointer to the parent's handle, `none` when null. In the duplicate branch the
handle field is first set to 0 and then holds what `rknn_dup_context` writes
there (0 when a failing duplication writes nothing). -/
def rkYolov10.init (rt : rknn_runtime) (self : rkYolov10) (ctx_in : Option rknn_context)
    (isChild : Bool) : ContextResult :=
  match isChild, ctx_in with
  | true, some parent =>
    let dup := rt.rknn_dup_context parent
    let ctx1 : rknn_app_context_t := { self.app_ctx with rknn_ctx := dup.2 }
    let calls1 := [RknnCall.rknn_dup_context parent]
    if dup.1 < 0 then
      { value := -1, self := { self with ret := dup.1, app_ctx := ctx1 }, calls := calls1 }
    else
      let num := rt.rknn_query_in_out_num ctx1.rknn_ctx
      let ctx2 : rknn_app_context_t := { ctx1 with io_num := num.2 }
      let calls2 := calls1 ++ [RknnCall.rknn_query_in_out_num ctx1.rknn_ctx]
      if num.1 < 0 then
        { value := -1, self := { self with ret := num.1, app_ctx := ctx2 }, calls := calls2 }
      else
        let ins := query_attrs (rt.rknn_query_input_attr ctx2.rknn_ctx)
          (RknnCall.rknn_query_input_attr ctx2.rknn_ctx) (List.range ctx2.io_num.n_input) num.1
        let ctx3 : rknn_app_context_t := { ctx2 with input_attrs := ins.attrs }
        let calls3 := calls2 ++ ins.calls
        if ins.failed then
          { value := -1, self := { self with ret := ins.ret, app_ctx := ctx3 }, calls := calls3 }
        else
          let outs := query_attrs (rt.rknn_query_output_attr ctx3.rknn_ctx)
            (RknnCall.rknn_query_output_attr ctx3.rknn_ctx) (List.range ctx3.io_num.n_output)
            ins.ret
          let ctx4 : rknn_app_context_t := { ctx3 with output_attrs := outs.attrs }
          let calls4 := calls3 ++ outs.calls
          if outs.failed then
            { value := -1, self := { self with ret := outs.ret, app_ctx := ctx4 }, calls := calls4 }
          else
            { value := 0
              self :=
                { self with
                  ret := outs.ret
                  app_ctx := set_quantization_flag (set_model_dimensions ctx4) }
              calls := calls4 ++ [RknnCall.init_post_process] }
  | _, _ =>
    let r := rt.init_yolov10_model self.model_path self.app_ctx
    let calls1 := [RknnCall.init_yolov10_model self.model_path]
    if r.1 < 0 then
      { value := -1, self := { self with ret := r.1, app_ctx := r.2 }, calls := calls1 }
    else
      { value := 0
        self := { self with ret := r.1, app_ctx := r.2 }
        calls := calls1 ++ [RknnCall.init_post_process] }

/-- `rkYolov10::get_pctx()`: the address of the context's handle, here the
handle found there. -/
def rkYolov10.get_pctx (self : rkYolov10) : Option rknn_context :=
  some self.app_ctx.rknn_ctx

/-- The drawing loop of `rkYolov10::infer` (lines 152 to 168) over the
detections still to be drawn: a box and a label per detection, drawn on the
caller's frame. -/
def draw_detections (cv : OpenCV) : List object_detect_result → Mat → Mat
  | [], img => img
  | det :: rest, img =>
    let x1 := det.box.left
    let y1 := det.box.top
    let x2 := det.box.right
    let y2 := det.box.bottom
    draw_detections cv rest (cv.putText (cv.rectangle img x1 y1 x2 y2) det x1 (y1 - 5))

/-- Result of `rkYolov10::infer`: the frame returned, which is the caller's
frame `orig_img` itself (drawn on in place), the object afterwards and the
calls issued. -/
structure InferResult where
  frame : Mat
  self : rkYolov10
  calls : List RknnCall

/-- The image that `rkYolov10::infer` hands to the model (lines 127 to 138): a
converted or cloned copy of the caller's frame, turned from BGR to RGB and
wrapped in a buffer descriptor. -/
def inference_input (cv : OpenCV) (orig_img : Mat) : image_buffer_t :=
  let img :=
    if cv.channels orig_img = 3 ∧ cv.type_is_CV_8UC3 orig_img = false then
      cv.convertTo_CV_8UC3 orig_img
    else cv.clone orig_img
  let img := cv.cvtColor img ColorConversionCodes.COLOR_BGR2RGB
  convert_mat_to_image_buffer img

/-- `rkYolov10::infer(orig_img)` of `rkYolov10.cc`. -/
def rkYolov10.infer (rt : rknn_runtime) (cv : OpenCV) (self : rkYolov10) (orig_img : Mat) :
    InferResult :=
  let image := inference_input cv orig_img
  let r := rt.inference_yolov10_model self.app_ctx image
  let calls := [RknnCall.inference_yolov10_model self.app_ctx.rknn_ctx]
  if r.1 < 0 then
    { frame := orig_img, self := { self with ret := r.1 }, calls := calls }
  else
    { frame := draw_detections cv (r.2.results.take r.2.count.toNat) orig_img
      self := { self with ret := r.1 }
      calls := calls }

/-- Modelled from the spec: `release_yolov10_model` of `yolov10.h` (absent),
the release of the runtime handle at teardown (section 4.2): a handle is
released through the runtime and the field is reset to 0; an invalid handle
(0) is not released again. -/
def release_yolov10_model (app_ctx : rknn_app_context_t) :
    rknn_app_context_t × List RknnCall :=
  if app_ctx.rknn_ctx ≠ 0 then
    ({ app_ctx with rknn_ctx := 0 }, [RknnCall.rknn_destroy app_ctx.rknn_ctx])
  else (app_ctx, [])

/-- The destructor `rkYolov10::~rkYolov10()` of `rkYolov10.cc`: the calls it
issues, in order. -/
def rkYolov10.destructor (self : rkYolov10) : List RknnCall :=
  [RknnCall.deinit_post_process] ++ (release_yolov10_model self.app_ctx).2

/-! ## `main.cc` -/

/-- `calculateOptimalThreads(total_instances)` of `main.cc`; `total_cores` is
what `std::thread::hardware_concurrency()` returns. -/
def calculateOptimalThreads (total_cores total_instances : Int) : Int :=
  let reserved_cores := max 2 (Int.tdiv total_cores 4)
  let available_cores := total_cores - reserved_cores
  let threads_per_instance := max 1 (Int.tdiv available_cores total_instances)
  let max_threads_per_npu := 6
  min threads_per_instance max_threads_per_npu

/-- The white space that `strtol` skips (`isspace` in the C locale). -/
def isspace (c : Char) : Bool :=
  c = ' ' || (9 ≤ c.toNat && c.toNat ≤ 13)

/-- Value of a run of decimal digits, most significant first, on top of `acc`. -/
def digits_value : List Char → Int → Int
  | [], acc => acc
  | c :: rest, acc => digits_value rest (acc * 10 + ((c.toNat : Int) - 48))

/-- The conversion that `atoi` and `std::stoi` share (`strtol` in base 10):
white space is skipped, an optional sign is read, then the longest run of
digits; whatever follows the digits is ignored. `none` when there is no digit
to convert. -/
def strtol_decimal (s : List Char) : Option Int :=
  let body := s.dropWhile isspace
  let negative := body.head? = some '-'
  let unsigned := if body.head? = some '-' ∨ body.head? = some '+' then body.tail else body
  let digits := unsigned.takeWhile Char.isDigit
  if digits = [] then none
  else some (if negative then - digits_value digits 0 else digits_value digits 0)

/-- `atoi(s)`: 0 when nothing can be converted (a value outside the range of
`int` is undefined in C and kept as it is here). -/
def atoi (s : List Char) : Int := (strtol_decimal s).getD 0

/-- `std::stoi(s)`: `none` when it throws, `std::invalid_argument` if nothing
can be converted and `std::out_of_range` if the value does not fit an `int`. -/
def stoi (s : List Char) : Option Int :=
  match strtol_decimal s with
  | none => none
  | some v => if v < -2147483648 ∨ 2147483647 < v then none else some v

/-- The characters of the literal `webcam:`. -/
def webcam_tag : List Char := ['w', 'e', 'b', 'c', 'a', 'm', ':']

/-- What the argument handling of `main` (lines 41 to 87) leaves in its local
variables when it does not return. -/
structure CommandLine where
  model_name : List Char
  input_source : List Char
  is_webcam : Bool
  webcam_id : Int
  total_instances : Int
  deriving DecidableEq, Repr

/-- Lines 41 to 87 of `main`: the handling of `argc` and `argv`. `none` is the
`return -1` of a rejected command line. -/
def parse_command_line (argv : List (List Char)) : Option CommandLine :=
  if argv.length < 3 ∨ argv.length > 4 then none
  else
    let model_name := argv.getD 1 []
    let input_source := argv.getD 2 []
    let total_instances := if argv.length = 4 then atoi (argv.getD 3 []) else 1
    if argv.length = 4 ∧ total_instances ≤ 0 then none
    else if webcam_tag.isPrefixOf input_source then
      match stoi (input_source.drop 7) with
      | none => none
      | some webcam_id =>
        some { model_name := model_name, input_source := input_source, is_webcam := true,
               webcam_id := webcam_id, total_instances := total_instances }
    else
      some { model_name := model_name, input_source := input_source, is_webcam := false,
             webcam_id := 0, total_instances := total_instances }

/-- What `main` does to the pool, the capture device and the display, in the
order of the calls. Printing, the reading of the clock and the setting and
reading of capture and window properties are left out. -/
inductive MainAction where
  | pool_create (model_name : List Char) (threadNum : Int)
  | pool_init
  | capture_open_webcam (webcam_id : Int)
  | capture_open_file (path : List Char)
  | named_window
  | capture_read
  | put (img : Mat)
  | get
  | imshow (img : Mat)
  | wait_key (delay : Int)
  | capture_release
  | destroy_all_windows

/-- What one iteration of the main loop meets: the frame read (`none` when
`capture.read` fails), the values returned by `put` and by `get`, the frame
that `get` hands back, and the key returned by `waitKey(1)`. An iteration
ignores the fields of the calls it does not make. -/
structure LoopInput where
  read : Option Mat
  put_status : Int
  get_status : Int
  get_result : Mat
  key : Int

/-- What one iteration of the drain loop meets: the value returned by `get`,
the frame it hands back and the key returned by `waitKey(1)`. -/
structure DrainInput where
  get_status : Int
  get_result : Mat
  key : Int

/-- The surroundings of one run of `main`: the machine, the environment
variable, the pool and the video source. `loop` lists what the successive
iterations of the main loop meet; after the last entry the source delivers no
further frame. `drain i` is what the drain loop meets when `remaining_frames`
is `i`. -/
structure MainEnv where
  hardware_concurrency : Int
  RKNN_THREADS : Option (List Char)
  pool_init : Int
  capture_open : Bool
  capture_isOpened : Bool
  first_frame : Option Mat
  loop : List LoopInput
  drain : Nat → DrainInput

/-- Outcome of one iteration of the main loop: whether the loop is left
(`break`), the counter `frames` afterwards and the actions of the iteration. -/
structure LoopStep where
  leave : Bool
  frames : Int
  actions : List MainAction

/-- Lines 261 to 270 of `main`: a frame that is not 8-bit BGR is converted and
a frame larger than 1920x1080 is shrunk before it is submitted. -/
def prepare_frame (cv : OpenCV) (img0 : Mat) : Mat :=
  let img1 :=
    if cv.type_is_CV_8UC3 img0 = false then
      cv.cvtColor img0 (if cv.channels img0 = 1 then ColorConversionCodes.COLOR_GRAY2BGR
                        else ColorConversionCodes.COLOR_BGRA2BGR)
    else img0
  if img1.cols > 1920 ∨ img1.rows > 1080 then
    cv.resize img1 (min img1.cols 1920) (min img1.rows 1080)
  else img1

/-- One iteration of the main loop of `main` (lines 241 to 328). The overlay of
lines 302 to 327 is drawn on the local frame after it was shown and is left
out. -/
def main_loop_body (cv : OpenCV) (is_webcam : Bool) (threadNum : Int) (frames : Int)
    (inp : LoopInput) : LoopStep :=
  match inp.read with
  | none =>
    if is_webcam then
      { leave := false, frames := frames,
        actions := [MainAction.capture_read, MainAction.wait_key 30] }
    else { leave := true, frames := frames, actions := [MainAction.capture_read] }
  | some img0 =>
    if cv.empty img0 then
      { leave := false, frames := frames, actions := [MainAction.capture_read] }
    else
      let img2 := prepare_frame cv img0
      if inp.put_status ≠ 0 then
        { leave := false, frames := frames,
          actions := [MainAction.capture_read, MainAction.put img2, MainAction.wait_key 10] }
      else
        let shown :=
          if frames ≥ threadNum then
            if inp.get_status ≠ 0 then img2
            else if cv.empty inp.get_result = false then inp.get_result
            else img2
          else img2
        let actions :=
          [MainAction.capture_read, MainAction.put img2]
            ++ (if frames ≥ threadNum then [MainAction.get] else [])
            ++ [MainAction.imshow shown, MainAction.wait_key 1]
        if inp.key = 113 ∨ inp.key = 27 then
          { leave := true, frames := frames, actions := actions }
        else { leave := false, frames := frames + 1, actions := actions }

/-- Outcome of a loop of `main`: whether the loop was left, the counter
`frames` afterwards and the actions issued. -/
structure LoopRun where
  finished : Bool
  frames : Int
  actions : List MainAction

/-- The main loop `while (true)` of `main` over what its iterations meet. Once
the list is used up the source delivers nothing more: `capture.read` fails, a
video file ends the loop and a webcam is retried for ever (`finished` is
false). -/
def main_loop (cv : OpenCV) (is_webcam : Bool) (threadNum : Int) :
    List LoopInput → Int → LoopRun
  | [], frames =>
    if is_webcam then { finished := false, frames := frames, actions := [] }
    else { finished := true, frames := frames, actions := [MainAction.capture_read] }
  | inp :: rest, frames =>
    let s := main_loop_body cv is_webcam threadNum frames inp
    if s.leave then { finished := true, frames := s.frames, actions := s.actions }
    else
      let later := main_loop cv is_webcam threadNum rest s.frames
      { finished := later.finished, frames := later.frames,
        actions := s.actions ++ later.actions }

/-- The drain loop `while (remaining_frames < threadNum)` of `main` (lines 334
to 353), with `fuel` iterations still possible. -/
def drain_loop (cv : OpenCV) (drain : Nat → DrainInput) :
    Nat → Nat → Int → LoopRun
  | 0, _, frames => { finished := true, frames := frames, actions := [] }
  | fuel + 1, remaining_frames, frames =>
    let inp := drain remaining_frames
    if inp.get_status ≠ 0 then
      let later := drain_loop cv drain fuel (remaining_frames + 1) frames
      { finished := true, frames := later.frames, actions := MainAction.get :: later.actions }
    else if cv.empty inp.get_result = false then
      if inp.key = 113 then
        { finished := true, frames := frames,
          actions := [MainAction.get, MainAction.imshow inp.get_result, MainAction.wait_key 1] }
      else
        let later := drain_loop cv drain fuel (remaining_frames + 1) (frames + 1)
        { finished := true, frames := later.frames,
          actions := [MainAction.get, MainAction.imshow inp.get_result, MainAction.wait_key 1]
            ++ later.actions }
    else
      let later := drain_loop cv drain fuel (remaining_frames + 1) frames
      { finished := true, frames := later.frames, actions := MainAction.get :: later.actions }

/-- Result of a run of `main`: the value returned (`none` when `main` does not
return, a webcam being retried for ever) and the actions issued. -/
structure MainRun where
  value : Option Int
  actions : List MainAction

/-- The thread count that `main` passes to the pool (lines 89 to 97): the
computed one unless the environment variable `RKNN_THREADS` is set. -/
def main_threadNum (env : MainEnv) (total_instances : Int) : Int :=
  match env.RKNN_THREADS with
  | some thread_override => atoi thread_override
  | none => calculateOptimalThreads env.hardware_concurrency total_instances

/-- `main(argc, argv)` of `main.cc`. The conversion of the test frame and the
rewinding of a video file (lines 219 to 238) act on no frame that is submitted
or shown and are left out. -/
def main (env : MainEnv) (cv : OpenCV) (argv : List (List Char)) : MainRun :=
  match parse_command_line argv with
  | none => { value := some (-1), actions := [] }
  | some cmd =>
    let threadNum := main_threadNum env cmd.total_instances
    let actions1 := [MainAction.pool_create cmd.model_name threadNum, MainAction.pool_init]
    if env.pool_init ≠ 0 then { value := some (-1), actions := actions1 }
    else
      let actions2 := actions1 ++
        [if cmd.is_webcam then MainAction.capture_open_webcam cmd.webcam_id
         else MainAction.capture_open_file cmd.input_source]
      if env.capture_open = false then { value := some (-1), actions := actions2 }
      else if env.capture_isOpened = false then { value := some (-1), actions := actions2 }
      else
        let actions3 := actions2 ++ [MainAction.named_window, MainAction.capture_read]
        match env.first_frame with
        | none => { value := some (-1), actions := actions3 }
        | some test_frame =>
          if cv.empty test_frame then { value := some (-1), actions := actions3 }
          else
            let run := main_loop cv cmd.is_webcam threadNum env.loop 0
            if run.finished = false then
              { value := none, actions := actions3 ++ run.actions }
            else
              let rest := drain_loop cv env.drain threadNum.toNat 0 run.frames
              { value := some 0
                actions := actions3 ++ run.actions ++ rest.actions
                  ++ [MainAction.capture_release, MainAction.destroy_all_windows] }

/-- Whether an action of `main` is a call of `testPool.get`. -/
def MainAction.is_get : MainAction → Bool
  | MainAction.get => true
  | _ => false

/-- Number of calls of `testPool.get` among the actions of a run. -/
def count_gets (actions : List MainAction) : Nat :=
  actions.countP MainAction.is_get

/-- Number of frames that the main loop of `main` submits with success over a
video file: the iterations, up to the first failing read, in which a non-empty
frame is read and `put` returns 0. -/
def successful_puts (cv : OpenCV) : List LoopInput → Nat
  | [] => 0
  | inp :: rest =>
    match inp.read with
    | none => 0
    | some img =>
      if cv.empty img = false ∧ inp.put_status = 0 then successful_puts cv rest + 1
      else successful_puts cv rest

/-! ## Concrete inputs used in the examples -/

/-- A frame of the given size whose bytes all equal `value`. -/
def uniform_frame (cols rows value : Int) : Mat :=
  { cols := cols, rows := rows, data := fun _ => value }

/-- An accelerator whose `imresize(src, dst)` does what the library documents
for the two-argument call: it scales the whole source buffer onto the whole
destination buffer (three bytes per pixel, nearest neighbour) and reports
success. -/
def whole_buffer_rga : im2d :=
  { IM_STATUS_SUCCESS := 1
    imresize := fun src dst =>
      (1, fun i =>
        if 0 ≤ i ∧ i < dst.width * dst.height * 3 then
          src.vir_addr ((((i / 3) / dst.width) * src.height / dst.height * src.width
            + ((i / 3) % dst.width) * src.width / dst.width) * 3 + i % 3)
        else dst.vir_addr i) }

/-- An accelerator that always reports the failure status -1 and leaves the
destination as it is. -/
def failing_rga : im2d :=
  { IM_STATUS_SUCCESS := 1
    imresize := fun _ dst => (-1, dst.vir_addr) }

/-- A runtime for the examples. The duplication yields the handle after the
parent's (0 when it fails), the counts are `n_input` and `n_output`, the
queries of the input with index `bad_input` and of the output with index
`bad_output` fail with -1, and every inference returns `inference_status` and
finds nothing. -/
def scripted_runtime (dup_status num_status : Int) (n_input n_output : Nat)
    (bad_input bad_output : Option Nat) (inference_status : Int) : rknn_runtime :=
  { rknn_dup_context := fun parent => (dup_status, if dup_status < 0 then 0 else parent + 1)
    rknn_query_in_out_num := fun _ => (num_status, { n_input := n_input, n_output := n_output })
    rknn_query_input_attr := fun _ i =>
      (if bad_input = some i then -1 else 0,
       { index := i, dims := [1, 640, 480, 3], fmt := rknn_tensor_format.RKNN_TENSOR_NHWC,
         type := rknn_tensor_type.RKNN_TENSOR_INT8,
         qnt_type := rknn_tensor_qnt_type.RKNN_TENSOR_QNT_AFFINE_ASYMMETRIC })
    rknn_query_output_attr := fun _ i =>
      (if bad_output = some i then -1 else 0,
       { index := i, dims := [1, 84, 8400], fmt := rknn_tensor_format.RKNN_TENSOR_UNDEFINED,
         type := rknn_tensor_type.RKNN_TENSOR_INT8,
         qnt_type := rknn_tensor_qnt_type.RKNN_TENSOR_QNT_AFFINE_ASYMMETRIC })
    init_yolov10_model := fun _ app_ctx => (0, { app_ctx with rknn_ctx := 1 })
    inference_yolov10_model := fun _ _ => (inference_status, { count := 0, results := [] }) }

/-- OpenCV operations for the examples: a frame is empty when it has no column
or no row, every frame is 8-bit BGR, and the operations hand back the frame
they are given. -/
def plain_opencv : OpenCV :=
  { empty := fun m => decide (m.cols = 0 ∨ m.rows = 0)
    type_is_CV_8UC3 := fun _ => true
    channels := fun _ => 3
    clone := fun m => m
    convertTo_CV_8UC3 := fun m => m
    cvtColor := fun m _ => m
    resize := fun m _ _ => m
    rectangle := fun m _ _ _ _ => m
    putText := fun m _ _ _ => m }

/-- A context object for the examples, as its constructor leaves it. -/
def fresh_context : rkYolov10 :=
  rkYolov10.construct (9 / 20) (1 / 4) 0 ['m', '.', 'r', 'k', 'n', 'n']

/-- Surroundings of `main` for the examples: eight cores, no `RKNN_THREADS`, a
pool whose `init` returns `pool_init`, a source that opens and then delivers
the frames of `loop`, and a drain loop that gets nothing. -/
def scripted_env (pool_init : Int) (loop : List LoopInput) : MainEnv :=
  { hardware_concurrency := 8
    RKNN_THREADS := none
    pool_init := pool_init
    capture_open := true
    capture_isOpened := true
    first_frame := some (uniform_frame 640 480 0)
    loop := loop
    drain := fun _ => { get_status := 1, get_result := uniform_frame 0 0 0, key := 0 } }

/-- A frame in which the three bytes of every pixel hold the column of the
pixel (modulo 256). -/
def column_frame (cols rows : Int) : Mat :=
  { cols := cols, rows := rows, data := fun i => (i / 3) % cols % 256 }

/-- An accelerator that writes 7 into every byte of the destination and then
reports the failure status -1. -/
def scribbling_rga : im2d :=
  { IM_STATUS_SUCCESS := 1
    imresize := fun _ _ => (-1, fun _ => 7) }

/-! ## Lemmas on the letterbox geometry -/

section Geometry

open image_format_t

theorem float_to_int_le {f : ℚ} {n : Int} (h : f ≤ (n : ℚ)) : float_to_int f ≤ n := by
  unfold float_to_int
  split_ifs
  · exact_mod_cast (Int.floor_le f).trans h
  · exact Int.ceil_le.mpr h

theorem float_to_int_nonneg {f : ℚ} (h : 0 ≤ f) : 0 ≤ float_to_int f := by
  unfold float_to_int
  rw [if_pos h]
  exact Int.floor_nonneg.mpr h

theorem float_to_int_intCast (n : Int) : float_to_int (n : ℚ) = n := by
  unfold float_to_int
  split_ifs <;> simp

theorem letterbox_scale_eq_min (src dst : image_buffer_t) :
    letterbox_scale src dst
      = min ((dst.width : ℚ) / (src.width : ℚ)) ((dst.height : ℚ) / (src.height : ℚ)) := by
  unfold letterbox_scale
  simp only []
  split_ifs with h
  · exact (min_eq_left h.le).symm
  · exact (min_eq_right (not_lt.mp h)).symm

theorem width_mul_scale_le (src dst : image_buffer_t) (hw : 0 < src.width) :
    (src.width : ℚ) * letterbox_scale src dst ≤ (dst.width : ℚ) := by
  have hpos : (0 : ℚ) < (src.width : ℚ) := by exact_mod_cast hw
  have h1 : letterbox_scale src dst ≤ (dst.width : ℚ) / (src.width : ℚ) := by
    rw [letterbox_scale_eq_min]; exact min_le_left _ _
  calc (src.width : ℚ) * letterbox_scale src dst
      ≤ (src.width : ℚ) * ((dst.width : ℚ) / (src.width : ℚ)) :=
        mul_le_mul_of_nonneg_left h1 hpos.le
    _ = (dst.width : ℚ) := by field_simp

theorem height_mul_scale_le (src dst : image_buffer_t) (hh : 0 < src.height) :
    (src.height : ℚ) * letterbox_scale src dst ≤ (dst.height : ℚ) := by
  have hpos : (0 : ℚ) < (src.height : ℚ) := by exact_mod_cast hh
  have h1 : letterbox_scale src dst ≤ (dst.height : ℚ) / (src.height : ℚ) := by
    rw [letterbox_scale_eq_min]; exact min_le_right _ _
  calc (src.height : ℚ) * letterbox_scale src dst
      ≤ (src.height : ℚ) * ((dst.height : ℚ) / (src.height : ℚ)) :=
        mul_le_mul_of_nonneg_left h1 hpos.le
    _ = (dst.height : ℚ) := by field_simp

theorem scaled_width_le (src dst : image_buffer_t) (hw : 0 < src.width) :
    letterbox_scaled_width src dst ≤ dst.width :=
  float_to_int_le (width_mul_scale_le src dst hw)

theorem scaled_height_le (src dst : image_buffer_t) (hh : 0 < src.height) :
    letterbox_scaled_height src dst ≤ dst.height :=
  float_to_int_le (height_mul_scale_le src dst hh)

theorem letterbox_scale_nonneg (src dst : image_buffer_t) (hsw : 0 < src.width)
    (hsh : 0 < src.height) (hdw : 0 ≤ dst.width) (hdh : 0 ≤ dst.height) :
    0 ≤ letterbox_scale src dst := by
  rw [letterbox_scale_eq_min]
  have h1 : (0 : ℚ) < (src.width : ℚ) := by exact_mod_cast hsw
  have h2 : (0 : ℚ) < (src.height : ℚ) := by exact_mod_cast hsh
  have h3 : (0 : ℚ) ≤ (dst.width : ℚ) := by exact_mod_cast hdw
  have h4 : (0 : ℚ) ≤ (dst.height : ℚ) := by exact_mod_cast hdh
  exact le_min (div_nonneg h3 h1.le) (div_nonneg h4 h2.le)

/-- Truncating division by two of a non-negative integer. -/
theorem tdiv_two_spec (d : Int) (hd : 0 ≤ d) :
    0 ≤ Int.tdiv d 2 ∧ (d - Int.tdiv d 2 = Int.tdiv d 2 ∨ d - Int.tdiv d 2 = Int.tdiv d 2 + 1) := by
  have h : Int.tdiv d 2 = d / 2 := Int.tdiv_eq_ediv hd (by norm_num)
  rw [h]
  omega

/-- The destination keeps its descriptor through `rga_resize`: only the bytes
of its buffer may change. -/
theorem rga_resize_dst (RK3588 : Bool) (hw : im2d) (src_image : Option image_buffer_t)
    (dst : image_buffer_t) (src_rect dst_rect : Option image_rect_t) :
    ∃ mem, (rga_resize RK3588 hw src_image (some dst) src_rect dst_rect).2
      = some { dst with virt_addr := mem } := by
  unfold rga_resize
  split_ifs
  · split
    · rename_i d sb db hd hreq
      cases hd
      simp only []
      split_ifs <;> exact ⟨_, rfl⟩
    · exact ⟨dst.virt_addr, rfl⟩
  · exact ⟨dst.virt_addr, rfl⟩

/-- With its three pointers present, `convert_image_with_letterbox` stores the
transform computed from the two geometries, on every path. -/
theorem convert_transform (RK3588 : Bool) (hw : im2d) (src dst : image_buffer_t)
    (lb0 : letterbox_t) (color : Int) :
    (convert_image_with_letterbox RK3588 hw (some src) (some dst) (some lb0) color).2.2
      = some (letterbox_transform src dst) := by
  unfold convert_image_with_letterbox
  simp only []
  split_ifs <;> rfl

/-- With its three pointers present, `convert_image_with_letterbox` leaves the
descriptor of the destination as it was: only the bytes of its buffer change. -/
theorem convert_dst (RK3588 : Bool) (hw : im2d) (src dst : image_buffer_t)
    (lb0 : letterbox_t) (color : Int) :
    ∃ mem, (convert_image_with_letterbox RK3588 hw (some src) (some dst) (some lb0) color).2.1
      = some { dst with virt_addr := mem } := by
  unfold convert_image_with_letterbox
  simp only []
  obtain ⟨mem, hmem⟩ := rga_resize_dst RK3588 hw (some src)
    { dst with virt_addr := memset dst.virt_addr color dst.size }
    (some (letterbox_src_rect src)) (some (letterbox_dst_rect src dst))
  rw [hmem]
  split_ifs <;> exact ⟨_, rfl⟩

end Geometry

/-! ## Lemmas on the software resize loop -/

section Loop

/-- A byte that no step of a loop writes keeps its value. -/
theorem foldl_untouched {α : Type} (step : (Int → Int) → α → (Int → Int)) (j : Int)
    (l : List α) (m : Int → Int)
    (h : ∀ a ∈ l, ∀ m', step m' a j = m' j) : l.foldl step m j = m j := by
  induction l generalizing m with
  | nil => rfl
  | cons a t ih =>
    rw [List.foldl_cons, ih (step m a) (fun b hb => h b (List.mem_cons_of_mem a hb))]
    exact h a (List.mem_cons_self a t) m

/-- A byte that exactly one step of a loop writes holds what that step wrote. -/
theorem foldl_written {α : Type} (step : (Int → Int) → α → (Int → Int)) (j v : Int)
    (a0 : α) (l : List α) (m : Int → Int) (hmem : a0 ∈ l)
    (hv : ∀ m', step m' a0 j = v)
    (hother : ∀ a ∈ l, a ≠ a0 → ∀ m', step m' a j = m' j) : l.foldl step m j = v := by
  induction l generalizing m with
  | nil => cases hmem
  | cons a t ih =>
    rw [List.foldl_cons]
    by_cases ht : a0 ∈ t
    · exact ih (step m a) ht (fun b hb => hother b (List.mem_cons_of_mem a hb))
    · have ha : a0 = a := by
        rcases List.mem_cons.mp hmem with h | h
        · exact h
        · exact absurd h ht
      subst ha
      rw [foldl_untouched step j t (step m a0)]
      · exact hv m
      · intro b hb hne
        apply hother b (List.mem_cons_of_mem a0 hb)
        intro hba
        exact ht (hba ▸ hb)

theorem cpu_copy_pixel_written (src dst : image_buffer_t) (lb : letterbox_t) (y x : Int)
    (m : Int → Int) (c : Int) (hc0 : 0 ≤ c) (hc3 : c < 3) :
    cpu_copy_pixel src dst lb y x m (cpu_dst_idx dst lb y x + c)
      = src.virt_addr (cpu_src_idx src (cpu_src_coord lb.scale y) (cpu_src_coord lb.scale x) + c) := by
  unfold cpu_copy_pixel store
  have hc : c = 0 ∨ c = 1 ∨ c = 2 := by omega
  rcases hc with h | h | h <;> subst h <;> simp

theorem cpu_copy_pixel_untouched (src dst : image_buffer_t) (lb : letterbox_t) (y x : Int)
    (m : Int → Int) (j : Int)
    (hj : j < cpu_dst_idx dst lb y x ∨ cpu_dst_idx dst lb y x + 3 ≤ j) :
    cpu_copy_pixel src dst lb y x m j = m j := by
  unfold cpu_copy_pixel store
  have h0 : j ≠ cpu_dst_idx dst lb y x := by omega
  have h1 : j ≠ cpu_dst_idx dst lb y x + 1 := by omega
  have h2 : j ≠ cpu_dst_idx dst lb y x + 2 := by omega
  simp [h0, h1, h2]

/-- Two destination pixels of the same row that share a byte are equal. -/
theorem cpu_dst_idx_row_inj (dst : image_buffer_t) (lb : letterbox_t) (y x x0 c : Int)
    (hc0 : 0 ≤ c) (hc3 : c < 3) (hne : x ≠ x0) :
    cpu_dst_idx dst lb y x0 + c < cpu_dst_idx dst lb y x ∨
      cpu_dst_idx dst lb y x + 3 ≤ cpu_dst_idx dst lb y x0 + c := by
  unfold cpu_dst_idx
  omega

/-- Pixels of different rows do not share a byte when every column written,
`x + x_pad`, lies inside the destination width. -/
theorem cpu_dst_idx_col_inj (dst : image_buffer_t) (lb : letterbox_t) (y y0 x x0 c : Int)
    (hc0 : 0 ≤ c) (hc3 : c < 3) (hne : y ≠ y0)
    (hx : 0 ≤ x + lb.x_pad ∧ x + lb.x_pad < dst.width)
    (hx0 : 0 ≤ x0 + lb.x_pad ∧ x0 + lb.x_pad < dst.width) :
    cpu_dst_idx dst lb y0 x0 + c < cpu_dst_idx dst lb y x ∨
      cpu_dst_idx dst lb y x + 3 ≤ cpu_dst_idx dst lb y0 x0 + c := by
  unfold cpu_dst_idx
  rcases lt_or_gt_of_ne hne with h | h
  · right
    have h1 : (y + lb.y_pad + 1) * dst.width ≤ (y0 + lb.y_pad) * dst.width :=
      mul_le_mul_of_nonneg_right (by omega) (by omega)
    have h2 : (y + lb.y_pad + 1) * dst.width = (y + lb.y_pad) * dst.width + dst.width := by ring
    omega
  · left
    have h1 : (y0 + lb.y_pad + 1) * dst.width ≤ (y + lb.y_pad) * dst.width :=
      mul_le_mul_of_nonneg_right (by omega) (by omega)
    have h2 : (y0 + lb.y_pad + 1) * dst.width = (y0 + lb.y_pad) * dst.width + dst.width := by ring
    omega

theorem cpu_copy_row_written (src dst : image_buffer_t) (lb : letterbox_t) (W y : Int)
    (m : Int → Int) (x0 c : Int) (hx0 : 0 ≤ x0 ∧ x0 < W) (hc0 : 0 ≤ c) (hc3 : c < 3) :
    cpu_copy_row src dst lb W y m (cpu_dst_idx dst lb y x0 + c)
      = src.virt_addr (cpu_src_idx src (cpu_src_coord lb.scale y) (cpu_src_coord lb.scale x0) + c) := by
  unfold cpu_copy_row
  apply foldl_written _ _ _ x0.toNat
  · rw [List.mem_range]; omega
  · intro m'
    have hcast : ((x0.toNat : Nat) : Int) = x0 := Int.toNat_of_nonneg hx0.1
    simp only [hcast]
    exact cpu_copy_pixel_written src dst lb y x0 m' c hc0 hc3
  · intro a _ hne m'
    apply cpu_copy_pixel_untouched
    apply cpu_dst_idx_row_inj dst lb y a x0 c hc0 hc3
    intro h
    apply hne
    omega

theorem cpu_copy_row_untouched (src dst : image_buffer_t) (lb : letterbox_t) (W y : Int)
    (m : Int → Int) (j : Int)
    (hj : ∀ x : Int, 0 ≤ x → x < W →
      (j < cpu_dst_idx dst lb y x ∨ cpu_dst_idx dst lb y x + 3 ≤ j)) :
    cpu_copy_row src dst lb W y m j = m j := by
  unfold cpu_copy_row
  apply foldl_untouched
  intro a ha m'
  rw [List.mem_range] at ha
  exact cpu_copy_pixel_untouched src dst lb y a m' j (hj a (by omega) (by omega))

/-- After the software resize, the destination pixel written for `(x0, y0)`
holds the three bytes of source pixel `((int)(x0 / scale), (int)(y0 / scale))`,
provided the columns written stay inside the destination width. -/
theorem cpu_resize_written (src dst : image_buffer_t) (lb : letterbox_t) (W H : Int)
    (m : Int → Int) (y0 x0 c : Int) (hy0 : 0 ≤ y0 ∧ y0 < H) (hx0 : 0 ≤ x0 ∧ x0 < W)
    (hc0 : 0 ≤ c) (hc3 : c < 3) (hpad : 0 ≤ lb.x_pad) (hfit : lb.x_pad + W ≤ dst.width) :
    cpu_resize src dst lb W H m (cpu_dst_idx dst lb y0 x0 + c)
      = src.virt_addr (cpu_src_idx src (cpu_src_coord lb.scale y0) (cpu_src_coord lb.scale x0) + c) := by
  unfold cpu_resize
  apply foldl_written _ _ _ y0.toNat
  · rw [List.mem_range]; omega
  · intro m'
    have hcast : ((y0.toNat : Nat) : Int) = y0 := Int.toNat_of_nonneg hy0.1
    simp only [hcast]
    exact cpu_copy_row_written src dst lb W y0 m' x0 c hx0 hc0 hc3
  · intro a _ hne m'
    apply cpu_copy_row_untouched
    intro x hx hxW
    apply cpu_dst_idx_col_inj dst lb a y0 x x0 c hc0 hc3
    · intro h
      apply hne
      omega
    · omega
    · omega

end Loop

section LetterboxClaims

open image_format_t

/-- The geometry computed for a 1920x1080 source and a 640x640 destination. -/
theorem geometry_1080p (src dst : image_buffer_t) (hsw : src.width = 1920)
    (hsh : src.height = 1080) (hdw : dst.width = 640) (hdh : dst.height = 640) :
    letterbox_scale src dst = 1 / 3 ∧ letterbox_scaled_width src dst = 640 ∧
      letterbox_scaled_height src dst = 360 ∧
      letterbox_transform src dst = { x_pad := 0, y_pad := 140, scale := 1 / 3 } := by
  have hs : letterbox_scale src dst = 1 / 3 := by
    unfold letterbox_scale
    rw [hsw, hsh, hdw, hdh]
    norm_num
  have hw : letterbox_scaled_width src dst = 640 := by
    unfold letterbox_scaled_width float_to_int
    rw [hs, hsw]
    norm_num
  have hh : letterbox_scaled_height src dst = 360 := by
    unfold letterbox_scaled_height float_to_int
    rw [hs, hsh]
    norm_num
  refine ⟨hs, hw, hh, ?_⟩
  unfold letterbox_transform
  rw [hs, hw, hh, hdw, hdh]
  norm_num
  decide

/-- C3: with the three pointers present and positive source width and height,
the scale stored in the transform is the smaller of dst_width/src_width and
dst_height/src_height, for either build, whatever the accelerator does and
whatever value the function returns. -/
theorem letterbox_scale_is_smaller_ratio (RK3588 : Bool) (hw : im2d)
    (src dst : image_buffer_t) (lb0 : letterbox_t) (color : Int)
    (_hsw : 0 < src.width) (_hsh : 0 < src.height) :
    ∃ lb, (convert_image_with_letterbox RK3588 hw (some src) (some dst) (some lb0) color).2.2
        = some lb ∧
      lb.scale = min ((dst.width : ℚ) / (src.width : ℚ)) ((dst.height : ℚ) / (src.height : ℚ)) :=
  ⟨letterbox_transform src dst, convert_transform RK3588 hw src dst lb0 color,
    letterbox_scale_eq_min src dst⟩

theorem letterbox_scale_is_smaller_ratio_witness :
    ∃ lb, (convert_image_with_letterbox true failing_rga
          (some (convert_mat_to_image_buffer (uniform_frame 1920 1080 255)))
          (some (convert_mat_to_image_buffer (uniform_frame 640 640 0)))
          (some { x_pad := 0, y_pad := 0, scale := 0 }) 114).2.2 = some lb ∧
      lb.scale = min
        (((convert_mat_to_image_buffer (uniform_frame 640 640 0)).width : ℚ)
          / ((convert_mat_to_image_buffer (uniform_frame 1920 1080 255)).width : ℚ))
        (((convert_mat_to_image_buffer (uniform_frame 640 640 0)).height : ℚ)
          / ((convert_mat_to_image_buffer (uniform_frame 1920 1080 255)).height : ℚ)) :=
  letterbox_scale_is_smaller_ratio true failing_rga
    (convert_mat_to_image_buffer (uniform_frame 1920 1080 255))
    (convert_mat_to_image_buffer (uniform_frame 640 640 0))
    { x_pad := 0, y_pad := 0, scale := 0 } 114 (by decide) (by decide)

/-- C5: for positive source and destination dimensions the scaled image fits
inside the target: scaled_width <= dst_width, scaled_height <= dst_height, both
paddings are non-negative, and the destination rectangle
[x_pad, x_pad + scaled_width) x [y_pad, y_pad + scaled_height) passed to the
resize stays inside the destination image. -/
theorem letterbox_fits_target (RK3588 : Bool) (hw : im2d)
    (src dst : image_buffer_t) (lb0 : letterbox_t) (color : Int)
    (hsw : 0 < src.width) (hsh : 0 < src.height) (_hdw : 0 < dst.width) (_hdh : 0 < dst.height) :
    ∃ lb, (convert_image_with_letterbox RK3588 hw (some src) (some dst) (some lb0) color).2.2
        = some lb ∧
      float_to_int ((src.width : ℚ) * lb.scale) ≤ dst.width ∧
      float_to_int ((src.height : ℚ) * lb.scale) ≤ dst.height ∧
      0 ≤ lb.x_pad ∧ 0 ≤ lb.y_pad ∧
      lb.x_pad + float_to_int ((src.width : ℚ) * lb.scale) ≤ dst.width ∧
      lb.y_pad + float_to_int ((src.height : ℚ) * lb.scale) ≤ dst.height ∧
      (letterbox_dst_rect src dst).left = lb.x_pad ∧
      (letterbox_dst_rect src dst).top = lb.y_pad ∧
      (letterbox_dst_rect src dst).right = lb.x_pad + float_to_int ((src.width : ℚ) * lb.scale) ∧
      (letterbox_dst_rect src dst).bottom
        = lb.y_pad + float_to_int ((src.height : ℚ) * lb.scale) := by
  have hW := scaled_width_le src dst hsw
  have hH := scaled_height_le src dst hsh
  have hx := tdiv_two_spec (dst.width - letterbox_scaled_width src dst) (sub_nonneg.mpr hW)
  have hy := tdiv_two_spec (dst.height - letterbox_scaled_height src dst) (sub_nonneg.mpr hH)
  refine ⟨letterbox_transform src dst, convert_transform RK3588 hw src dst lb0 color,
    hW, hH, hx.1, hy.1, ?_, ?_, rfl, rfl, rfl, rfl⟩
  · show Int.tdiv (dst.width - letterbox_scaled_width src dst) 2
      + letterbox_scaled_width src dst ≤ dst.width
    omega
  · show Int.tdiv (dst.height - letterbox_scaled_height src dst) 2
      + letterbox_scaled_height src dst ≤ dst.height
    omega

theorem letterbox_fits_target_witness :
    ∃ lb, (convert_image_with_letterbox true failing_rga
          (some (convert_mat_to_image_buffer (uniform_frame 1920 1080 255)))
          (some (convert_mat_to_image_buffer (uniform_frame 640 640 0)))
          (some { x_pad := 0, y_pad := 0, scale := 0 }) 114).2.2 = some lb ∧
      0 ≤ lb.x_pad ∧ 0 ≤ lb.y_pad := by
  obtain ⟨lb, hlb, _, _, hx, hy, _⟩ := letterbox_fits_target true failing_rga
    (convert_mat_to_image_buffer (uniform_frame 1920 1080 255))
    (convert_mat_to_image_buffer (uniform_frame 640 640 0))
    { x_pad := 0, y_pad := 0, scale := 0 } 114 (by decide) (by decide) (by decide) (by decide)
  exact ⟨lb, hlb, hx, hy⟩

/-- C6: for a 1920x1080 source and a 640x640 destination the function computes
scale = min(640/1920, 640/1080) = 1/3, a scaled size of 640x360, x_pad = 0 and
y_pad = 140, and the destination is still 640x640 afterwards. -/
theorem letterbox_1080p_to_640 (RK3588 : Bool) (hw : im2d)
    (src dst : image_buffer_t) (lb0 : letterbox_t) (color : Int)
    (hsw : src.width = 1920) (hsh : src.height = 1080)
    (hdw : dst.width = 640) (hdh : dst.height = 640) :
    letterbox_scale src dst = min ((640 : ℚ) / 1920) ((640 : ℚ) / 1080) ∧
      letterbox_scale src dst = 1 / 3 ∧
      letterbox_scaled_width src dst = 640 ∧ letterbox_scaled_height src dst = 360 ∧
      (convert_image_with_letterbox RK3588 hw (some src) (some dst) (some lb0) color).2.2
        = some { x_pad := 0, y_pad := 140, scale := 1 / 3 } ∧
      ∃ dst', (convert_image_with_letterbox RK3588 hw (some src) (some dst) (some lb0) color).2.1
          = some dst' ∧ dst'.width = 640 ∧ dst'.height = 640 := by
  obtain ⟨hs, hw', hh', ht⟩ := geometry_1080p src dst hsw hsh hdw hdh
  refine ⟨?_, hs, hw', hh', ?_, ?_⟩
  · rw [letterbox_scale_eq_min, hsw, hsh, hdw, hdh]; norm_num
  · rw [convert_transform, ht]
  · obtain ⟨mem, hmem⟩ := convert_dst RK3588 hw src dst lb0 color
    exact ⟨_, hmem, hdw, hdh⟩

theorem letterbox_1080p_to_640_witness :
    (convert_image_with_letterbox true whole_buffer_rga
        (some (convert_mat_to_image_buffer (uniform_frame 1920 1080 255)))
        (some (convert_mat_to_image_buffer (uniform_frame 640 640 0)))
        (some { x_pad := 0, y_pad := 0, scale := 0 }) 114).2.2
      = some { x_pad := 0, y_pad := 140, scale := 1 / 3 } :=
  (letterbox_1080p_to_640 true whole_buffer_rga
    (convert_mat_to_image_buffer (uniform_frame 1920 1080 255))
    (convert_mat_to_image_buffer (uniform_frame 640 640 0))
    { x_pad := 0, y_pad := 0, scale := 0 } 114 rfl rfl rfl rfl).2.2.2.2.1


/-- C7: with the three pointers present, the function returns 0 if and only if
`rga_resize` returned 0 or both formats are RGB888, and returns -1 if and only
if `rga_resize` returned non-zero and one of the two formats is not RGB888; it
returns nothing else, so the status of the accelerator never reaches the
caller. -/
theorem letterbox_return_value (RK3588 : Bool) (hw : im2d)
    (src dst : image_buffer_t) (lb0 : letterbox_t) (color : Int) :
    ((convert_image_with_letterbox RK3588 hw (some src) (some dst) (some lb0) color).1 = 0 ↔
        ((rga_resize RK3588 hw (some src)
            (some { dst with virt_addr := memset dst.virt_addr color dst.size })
            (some (letterbox_src_rect src)) (some (letterbox_dst_rect src dst))).1 = 0 ∨
          (src.format = IMAGE_FORMAT_RGB888 ∧ dst.format = IMAGE_FORMAT_RGB888))) ∧
      ((convert_image_with_letterbox RK3588 hw (some src) (some dst) (some lb0) color).1 = -1 ↔
        ((rga_resize RK3588 hw (some src)
            (some { dst with virt_addr := memset dst.virt_addr color dst.size })
            (some (letterbox_src_rect src)) (some (letterbox_dst_rect src dst))).1 ≠ 0 ∧
          ¬ (src.format = IMAGE_FORMAT_RGB888 ∧ dst.format = IMAGE_FORMAT_RGB888))) ∧
      ((convert_image_with_letterbox RK3588 hw (some src) (some dst) (some lb0) color).1 = 0 ∨
        (convert_image_with_letterbox RK3588 hw (some src) (some dst) (some lb0) color).1 = -1) := by
  unfold convert_image_with_letterbox
  simp only []
  generalize rga_resize RK3588 hw (some src)
      (some { dst with virt_addr := memset dst.virt_addr color dst.size })
      (some (letterbox_src_rect src)) (some (letterbox_dst_rect src dst)) = r
  by_cases h1 : r.1 = 0
  · simp [h1]
  · by_cases h2 : src.format = IMAGE_FORMAT_RGB888 ∧ dst.format = IMAGE_FORMAT_RGB888
    · rw [if_neg h1, if_pos h2]; simp [h1, h2]
    · rw [if_neg h1, if_neg h2]; simp [h1, h2]

/-- C8: if the source, the destination or the transform pointer is null, the
function returns -1 and hands back the destination and the transform exactly
as it received them. -/
theorem letterbox_null_argument (RK3588 : Bool) (hw : im2d)
    (src_image dst_image : Option image_buffer_t) (letter_box : Option letterbox_t)
    (color : Int) (hnull : src_image = none ∨ dst_image = none ∨ letter_box = none) :
    convert_image_with_letterbox RK3588 hw src_image dst_image letter_box color
      = (-1, dst_image, letter_box) := by
  unfold convert_image_with_letterbox
  rcases hnull with h | h | h
  · subst h; rfl
  · subst h; cases src_image <;> rfl
  · subst h; cases src_image <;> cases dst_image <;> rfl

theorem letterbox_null_argument_witness :
    convert_image_with_letterbox true whole_buffer_rga none
        (some (convert_mat_to_image_buffer (uniform_frame 640 640 0)))
        (some { x_pad := 7, y_pad := 9, scale := 2 }) 114
      = (-1, some (convert_mat_to_image_buffer (uniform_frame 640 640 0)),
          some { x_pad := 7, y_pad := 9, scale := 2 }) :=
  letterbox_null_argument true whole_buffer_rga none
    (some (convert_mat_to_image_buffer (uniform_frame 640 640 0)))
    (some { x_pad := 7, y_pad := 9, scale := 2 }) 114 (Or.inl rfl)

/-- C9: the request that `rga_resize` issues to the accelerator, its return
value and the destination it leaves do not depend on the rectangles: two calls
that differ only in `src_rect` and `dst_rect` issue the same request, which
describes the whole source and the whole destination buffer. -/
theorem rga_resize_ignores_rectangles (RK3588 : Bool) (hw : im2d)
    (src_image dst_image : Option image_buffer_t)
    (src_rect dst_rect src_rect' dst_rect' : Option image_rect_t) :
    rga_request src_image dst_image src_rect dst_rect
        = rga_request src_image dst_image src_rect' dst_rect' ∧
      rga_resize RK3588 hw src_image dst_image src_rect dst_rect
        = rga_resize RK3588 hw src_image dst_image src_rect' dst_rect' ∧
      ∀ src_buf dst_buf,
        rga_request src_image dst_image src_rect dst_rect = some (src_buf, dst_buf) →
        ∃ src dst, src_image = some src ∧ dst_image = some dst ∧
          src_buf.width = src.width ∧ src_buf.height = src.height ∧
          dst_buf.width = dst.width ∧ dst_buf.height = dst.height ∧
          dst_buf.vir_addr = dst.virt_addr := by
  refine ⟨rfl, rfl, ?_⟩
  intro src_buf dst_buf h
  unfold rga_request at h
  cases src_image with
  | none => simp at h
  | some src =>
    cases dst_image with
    | none => simp at h
    | some dst =>
      refine ⟨src, dst, rfl, rfl, ?_⟩
      simp only [] at h
      split at h
      · simp only [Option.some.injEq, Prod.mk.injEq] at h
        obtain ⟨h1, h2⟩ := h
        subst h1 h2
        simp [wrapbuffer_virtualaddr]
      · simp at h


/-- On the RK3588 build, when both formats are known to the accelerator and
`imresize` reports success, the destination bytes returned are exactly those
that `imresize` produced for the whole-buffer request. -/
theorem convert_hardware_path (hw : im2d) (src dst : image_buffer_t) (lb0 : letterbox_t)
    (color : Int) (sf df : RgaSURF_FORMAT)
    (hsf : rga_format_of src.format = some sf) (hdf : rga_format_of dst.format = some df)
    (hok : (hw.imresize (wrapbuffer_virtualaddr src.virt_addr src.width src.height sf)
      (wrapbuffer_virtualaddr (memset dst.virt_addr color dst.size) dst.width dst.height df)).1
        = hw.IM_STATUS_SUCCESS) :
    convert_image_with_letterbox true hw (some src) (some dst) (some lb0) color
      = (0, some { dst with
                   virt_addr :=
                     (hw.imresize (wrapbuffer_virtualaddr src.virt_addr src.width src.height sf)
                       (wrapbuffer_virtualaddr (memset dst.virt_addr color dst.size)
                         dst.width dst.height df)).2 },
          some (letterbox_transform src dst)) := by
  unfold convert_image_with_letterbox
  simp only []
  have hr : rga_resize true hw (some src)
      (some { dst with virt_addr := memset dst.virt_addr color dst.size })
      (some (letterbox_src_rect src)) (some (letterbox_dst_rect src dst))
      = (0, some { dst with
                   virt_addr :=
                     (hw.imresize (wrapbuffer_virtualaddr src.virt_addr src.width src.height sf)
                       (wrapbuffer_virtualaddr (memset dst.virt_addr color dst.size)
                         dst.width dst.height df)).2 }) := by
    unfold rga_resize rga_request
    simp only [hsf, hdf, if_true]
    rw [if_neg (not_not.mpr hok)]
  rw [hr]
  rfl

/-- C2, evaluated on the hardware path: on the RK3588 build with an accelerator
that scales the whole source onto the whole destination, a white 1920x1080
frame letterboxed into a 640x640 buffer with fill value 114 gives return value
0 and the transform (x_pad 0, y_pad 140, scale 1/3), yet byte 0 of the
destination, which belongs to pixel (0, 0) above the centered rectangle
[0, 640) x [140, 500), holds the source value 255 and not the fill value. -/
theorem letterbox_hardware_path_overwrites_padding :
    ∃ dst', convert_image_with_letterbox true whole_buffer_rga
          (some (convert_mat_to_image_buffer (uniform_frame 1920 1080 255)))
          (some (convert_mat_to_image_buffer (uniform_frame 640 640 0)))
          (some { x_pad := 0, y_pad := 0, scale := 0 }) 114
        = (0, some dst', some { x_pad := 0, y_pad := 140, scale := 1 / 3 }) ∧
      dst'.width = 640 ∧ dst'.height = 640 ∧
      dst'.virt_addr 0 = 255 ∧ dst'.virt_addr 0 ≠ 114 % 256 := by
  have hg := geometry_1080p (convert_mat_to_image_buffer (uniform_frame 1920 1080 255))
    (convert_mat_to_image_buffer (uniform_frame 640 640 0)) rfl rfl rfl rfl
  have h := convert_hardware_path whole_buffer_rga
    (convert_mat_to_image_buffer (uniform_frame 1920 1080 255))
    (convert_mat_to_image_buffer (uniform_frame 640 640 0))
    { x_pad := 0, y_pad := 0, scale := 0 } 114
    RgaSURF_FORMAT.RK_FORMAT_RGB_888 RgaSURF_FORMAT.RK_FORMAT_RGB_888 rfl rfl rfl
  rw [hg.2.2.2] at h
  refine ⟨_, h, rfl, rfl, ?_, ?_⟩
  · simp [whole_buffer_rga, wrapbuffer_virtualaddr, convert_mat_to_image_buffer, uniform_frame]
  · simp [whole_buffer_rga, wrapbuffer_virtualaddr, convert_mat_to_image_buffer, uniform_frame]


end LetterboxClaims

section RoundTrip

open image_format_t

/-- When `rga_resize` fails and both images are RGB888, the function returns 0
and the destination bytes are those left by the software resize, run on
whatever the failed accelerator call left in the filled buffer. -/
theorem convert_software_path (RK3588 : Bool) (hw : im2d) (src dst : image_buffer_t)
    (lb0 : letterbox_t) (color : Int)
    (hsrc : src.format = IMAGE_FORMAT_RGB888) (hdst : dst.format = IMAGE_FORMAT_RGB888)
    (hfail : (rga_resize RK3588 hw (some src)
      (some { dst with virt_addr := memset dst.virt_addr color dst.size })
      (some (letterbox_src_rect src)) (some (letterbox_dst_rect src dst))).1 ≠ 0) :
    ∃ mem, (rga_resize RK3588 hw (some src)
          (some { dst with virt_addr := memset dst.virt_addr color dst.size })
          (some (letterbox_src_rect src)) (some (letterbox_dst_rect src dst))).2
        = some { dst with virt_addr := mem } ∧
      convert_image_with_letterbox RK3588 hw (some src) (some dst) (some lb0) color
        = (0, some { dst with
                     virt_addr := cpu_resize src { dst with virt_addr := mem }
                       (letterbox_transform src dst) (letterbox_scaled_width src dst)
                       (letterbox_scaled_height src dst) mem },
            some (letterbox_transform src dst)) := by
  obtain ⟨mem, hmem⟩ := rga_resize_dst RK3588 hw (some src)
    { dst with virt_addr := memset dst.virt_addr color dst.size }
    (some (letterbox_src_rect src)) (some (letterbox_dst_rect src dst))
  refine ⟨mem, hmem, ?_⟩
  unfold convert_image_with_letterbox
  simp only []
  rw [if_neg hfail, if_pos ⟨hsrc, hdst⟩, hmem]
  rfl

end RoundTrip

/-! ## The ordering queue -/

section Ordering

variable {β : Type}

open PoolRun

theorem run_append (s : PoolRun β) (es es' : List (PoolEvent β)) :
    run s (es ++ es') = run (run s es) es' := by
  unfold run
  rw [List.foldl_append]

theorem step_put_full (s : PoolRun β) (h : s.queue.depth ≤ s.queue.next_ticket - s.queue.cursor) :
    step s PoolEvent.put = s := by
  simp only [step, rknnPool.put, if_pos h]

theorem step_put_free (s : PoolRun β)
    (h : ¬ s.queue.depth ≤ s.queue.next_ticket - s.queue.cursor) :
    step s PoolEvent.put
      = { s with
          queue :=
            { s.queue with
              next_ticket := s.queue.next_ticket + 1
              pending := fun t => if t = s.queue.next_ticket then some PendingResult.in_flight
                                  else s.queue.pending t }
          issued := s.issued ++ [s.queue.next_ticket] } := by
  simp only [step, rknnPool.put, if_neg h]

theorem step_get_ready (s : PoolRun β) (frame : β)
    (h : s.queue.pending s.queue.cursor = some (PendingResult.completed frame)) :
    step s PoolEvent.get
      = { s with
          queue :=
            { s.queue with
              cursor := s.queue.cursor + 1
              pending := fun t => if t = s.queue.cursor then none else s.queue.pending t }
          delivered := s.delivered ++ [(s.queue.cursor, frame)] } := by
  simp only [step, rknnPool.get, h]

theorem step_get_not_ready (s : PoolRun β)
    (h : ∀ frame, s.queue.pending s.queue.cursor ≠ some (PendingResult.completed frame)) :
    step s PoolEvent.get = s := by
  cases hp : s.queue.pending s.queue.cursor with
  | none => simp only [step, rknnPool.get, hp]
  | some p =>
    cases p with
    | in_flight => simp only [step, rknnPool.get, hp]
    | completed frame => exact absurd hp (h frame)

theorem complete_in_flight (q : rknnPool β) (t : Nat) (r : β)
    (h : q.pending t = some PendingResult.in_flight) :
    q.complete t r
      = { q with
          pending := fun u => if u = t then some (PendingResult.completed r) else q.pending u } := by
  simp only [rknnPool.complete, h]

theorem complete_other (q : rknnPool β) (t : Nat) (r : β)
    (h : q.pending t ≠ some PendingResult.in_flight) : q.complete t r = q := by
  unfold rknnPool.complete
  split
  · rename_i h'
    exact absurd h' h
  · rfl

theorem complete_fields (q : rknnPool β) (t : Nat) (r : β) :
    (q.complete t r).cursor = q.cursor ∧ (q.complete t r).next_ticket = q.next_ticket ∧
      (q.complete t r).depth = q.depth := by
  by_cases h : q.pending t = some PendingResult.in_flight
  · rw [complete_in_flight q t r h]
    exact ⟨rfl, rfl, rfl⟩
  · rw [complete_other q t r h]
    exact ⟨rfl, rfl, rfl⟩

theorem ordered_start (depth : Nat) : (start depth : PoolRun β).ordered := by
  unfold PoolRun.ordered start rknnPool.init
  simp

theorem ordered_step (s : PoolRun β) (e : PoolEvent β) (h : s.ordered) : (step s e).ordered := by
  obtain ⟨hi, hd⟩ := h
  cases e with
  | put =>
    by_cases hfull : s.queue.depth ≤ s.queue.next_ticket - s.queue.cursor
    · rw [step_put_full s hfull]
      exact ⟨hi, hd⟩
    · rw [step_put_free s hfull]
      refine ⟨?_, hd⟩
      simp only [hi, List.range_succ]
  | complete t r =>
    obtain ⟨hc, hn, _⟩ := complete_fields s.queue t r
    refine ⟨?_, ?_⟩
    · show s.issued = List.range (s.queue.complete t r).next_ticket
      rw [hn]; exact hi
    · show s.delivered.map Prod.fst = List.range (s.queue.complete t r).cursor
      rw [hc]; exact hd
  | get =>
    by_cases hready : ∃ frame, s.queue.pending s.queue.cursor = some (PendingResult.completed frame)
    · obtain ⟨frame, hf⟩ := hready
      rw [step_get_ready s frame hf]
      refine ⟨hi, ?_⟩
      simp only [List.map_append, hd, List.map_cons, List.map_nil, List.range_succ]
    · rw [step_get_not_ready s (fun frame hf => hready ⟨frame, hf⟩)]
      exact ⟨hi, hd⟩

theorem ordered_run (s : PoolRun β) (events : List (PoolEvent β)) (h : s.ordered) :
    (run s events).ordered := by
  induction events generalizing s with
  | nil => exact h
  | cons e es ih => exact ih (step s e) (ordered_step s e h)

end Ordering

section Ordering2

variable {β : Type}

open PoolRun

/-- Once the next `n` expected tickets are completed, `n` retrievals deliver
them one after the other, starting at the cursor. -/
theorem run_get_all (n : Nat) (s : PoolRun β) (r : Nat → β)
    (h : ∀ k, k < n → s.queue.pending (s.queue.cursor + k)
      = some (PendingResult.completed (r (s.queue.cursor + k)))) :
    (run s (List.replicate n PoolEvent.get)).delivered
        = s.delivered ++ (List.range' s.queue.cursor n).map (fun t => (t, r t)) ∧
      (run s (List.replicate n PoolEvent.get)).queue.cursor = s.queue.cursor + n ∧
      (run s (List.replicate n PoolEvent.get)).queue.next_ticket = s.queue.next_ticket ∧
      (run s (List.replicate n PoolEvent.get)).issued = s.issued := by
  induction n generalizing s with
  | zero => simp [run]
  | succ n ih =>
    have h0 := h 0 (Nat.succ_pos n)
    rw [Nat.add_zero] at h0
    have hstep := step_get_ready s (r s.queue.cursor) h0
    have hrun : run s (List.replicate (n + 1) PoolEvent.get)
        = run (step s PoolEvent.get) (List.replicate n PoolEvent.get) := rfl
    rw [hrun, hstep]
    have ih' := ih
      { s with
        queue :=
          { s.queue with
            cursor := s.queue.cursor + 1
            pending := fun t => if t = s.queue.cursor then none else s.queue.pending t }
        delivered := s.delivered ++ [(s.queue.cursor, r s.queue.cursor)] }
      (by
        intro k hk
        have hk' := h (k + 1) (Nat.succ_lt_succ hk)
        have hne : s.queue.cursor + 1 + k ≠ s.queue.cursor := by omega
        have heq : s.queue.cursor + 1 + k = s.queue.cursor + (k + 1) := by omega
        show (if s.queue.cursor + 1 + k = s.queue.cursor then none
            else s.queue.pending (s.queue.cursor + 1 + k))
          = some (PendingResult.completed (r (s.queue.cursor + 1 + k)))
        rw [if_neg hne, heq]
        exact hk')
    obtain ⟨h1, h2, h3, h4⟩ := ih'
    refine ⟨?_, ?_, h3, h4⟩
    · rw [h1]
      simp [List.range'_succ]
    · rw [h2]
      simp only []
      omega

/-- A pool with room for them accepts `n` submissions in a row and hands out
the tickets 0 to n - 1, all in flight. -/
theorem run_puts (depth n : Nat) (h : n ≤ depth) :
    (run (start depth : PoolRun β) (List.replicate n PoolEvent.put)).queue.next_ticket = n ∧
      (run (start depth : PoolRun β) (List.replicate n PoolEvent.put)).queue.cursor = 0 ∧
      (run (start depth : PoolRun β) (List.replicate n PoolEvent.put)).queue.depth = depth ∧
      (run (start depth : PoolRun β) (List.replicate n PoolEvent.put)).delivered = [] ∧
      (run (start depth : PoolRun β) (List.replicate n PoolEvent.put)).issued = List.range n ∧
      ∀ t, t < n →
        (run (start depth : PoolRun β) (List.replicate n PoolEvent.put)).queue.pending t
          = some PendingResult.in_flight := by
  induction n with
  | zero =>
    refine ⟨rfl, rfl, rfl, rfl, rfl, ?_⟩
    intro t ht
    exact absurd ht (Nat.not_lt_zero t)
  | succ n ih =>
    obtain ⟨h1, h2, h3, h4, h5, h6⟩ := ih (Nat.le_of_succ_le h)
    have hrun : run (start depth : PoolRun β) (List.replicate (n + 1) PoolEvent.put)
        = step (run (start depth : PoolRun β) (List.replicate n PoolEvent.put)) PoolEvent.put := by
      rw [List.replicate_succ', run_append]
      rfl
    have hfree : ¬ (run (start depth : PoolRun β) (List.replicate n PoolEvent.put)).queue.depth
        ≤ (run (start depth : PoolRun β) (List.replicate n PoolEvent.put)).queue.next_ticket
          - (run (start depth : PoolRun β) (List.replicate n PoolEvent.put)).queue.cursor := by
      rw [h1, h2, h3]
      omega
    rw [hrun, step_put_free _ hfree]
    refine ⟨?_, h2, h3, h4, ?_, ?_⟩
    · simp only [h1]
    · simp only [h5, h1, List.range_succ]
    · intro t ht
      simp only [h1]
      by_cases htn : t = n
      · rw [if_pos htn]
      · rw [if_neg htn]
        exact h6 t (by omega)

/-- A completed entry is not changed by later completions. -/
theorem complete_keeps_completed (q : rknnPool β) (t : Nat) (r : β) (u : Nat) (x : β)
    (h : q.pending u = some (PendingResult.completed x)) :
    (q.complete t r).pending u = some (PendingResult.completed x) := by
  by_cases hf : q.pending t = some PendingResult.in_flight
  · rw [complete_in_flight q t r hf]
    have hne : u ≠ t := by
      intro hut
      rw [hut, hf] at h
      cases h
    simp only [if_neg hne]
    exact h
  · rw [complete_other q t r hf]
    exact h

theorem step_complete (s : PoolRun β) (t : Nat) (r : β) :
    step s (PoolEvent.complete t r) = { s with queue := s.queue.complete t r } := rfl

/-- Completions change neither the cursor, nor the tickets, nor what was
delivered; an entry that is completed stays as it is, and an in-flight entry
whose ticket is among the completions ends up completed with its own result. -/
theorem run_completes (results : Nat → β) (order : List Nat) (s : PoolRun β) :
    (run s (order.map (fun t => PoolEvent.complete t (results t)))).queue.cursor
        = s.queue.cursor ∧
      (run s (order.map (fun t => PoolEvent.complete t (results t)))).queue.next_ticket
        = s.queue.next_ticket ∧
      (run s (order.map (fun t => PoolEvent.complete t (results t)))).delivered = s.delivered ∧
      (run s (order.map (fun t => PoolEvent.complete t (results t)))).issued = s.issued ∧
      (∀ u x, s.queue.pending u = some (PendingResult.completed x) →
        (run s (order.map (fun t => PoolEvent.complete t (results t)))).queue.pending u
          = some (PendingResult.completed x)) ∧
      (∀ u, u ∈ order → s.queue.pending u = some PendingResult.in_flight →
        (run s (order.map (fun t => PoolEvent.complete t (results t)))).queue.pending u
          = some (PendingResult.completed (results u))) := by
  induction order generalizing s with
  | nil =>
    refine ⟨rfl, rfl, rfl, rfl, fun u x h => h, ?_⟩
    intro u hu
    cases hu
  | cons a tail ih =>
    have hrun : run s ((a :: tail).map (fun t => PoolEvent.complete t (results t)))
        = run { s with queue := s.queue.complete a (results a) }
            (tail.map (fun t => PoolEvent.complete t (results t))) := rfl
    rw [hrun]
    obtain ⟨h1, h2, h3, h4, h5, h6⟩ := ih { s with queue := s.queue.complete a (results a) }
    obtain ⟨hc, hn, _⟩ := complete_fields s.queue a (results a)
    refine ⟨h1.trans hc, h2.trans hn, h3, h4, ?_, ?_⟩
    · intro u x hu
      exact h5 u x (complete_keeps_completed s.queue a (results a) u x hu)
    · intro u hu hfl
      by_cases hua : u = a
      · subst hua
        apply h5
        show (s.queue.complete u (results u)).pending u = _
        rw [complete_in_flight s.queue u (results u) hfl]
        simp
      · have hmem : u ∈ tail := by
          rcases List.mem_cons.mp hu with h | h
          · exact absurd h hua
          · exact h
        apply h6 u hmem
        show (s.queue.complete a (results a)).pending u = _
        by_cases hf : s.queue.pending a = some PendingResult.in_flight
        · rw [complete_in_flight s.queue a (results a) hf]
          simp only [if_neg hua]
          exact hfl
        · rw [complete_other s.queue a (results a) hf]
          exact hfl

end Ordering2

section OrderingClaim

variable {β : Type}

open PoolRun

/-- C1: retrieval follows the ticket order. (1) When `n` frames are submitted
to a pool with room for them they get the tickets 0 < 1 < ... < n - 1, and
after the workers have completed them in any order (any permutation of the
tickets) `n` successive `get` calls return exactly the results of tickets
0, 1, ..., n - 1 in that order. (2) After any sequence of pool events
whatsoever, if every outstanding ticket is completed then the remaining `get`
calls return their results in increasing ticket order. (3) At every moment of
every run the tickets returned so far are 0, 1, ..., cursor - 1 in that order,
so the result of ticket k + 1 is never returned before that of ticket k. -/
theorem pool_delivers_in_ticket_order (depth : Nat) :
    (∀ (n : Nat) (results : Nat → β) (order : List Nat),
      n ≤ depth → order.Perm (List.range n) →
      (run (start depth)
          (List.replicate n PoolEvent.put
            ++ order.map (fun t => PoolEvent.complete t (results t))
            ++ List.replicate n PoolEvent.get)).issued = List.range n ∧
        (run (start depth)
          (List.replicate n PoolEvent.put
            ++ order.map (fun t => PoolEvent.complete t (results t))
            ++ List.replicate n PoolEvent.get)).delivered
          = (List.range n).map (fun t => (t, results t))) ∧
      (∀ (events : List (PoolEvent β)) (r : Nat → β),
        (∀ t, (run (start depth) events).queue.cursor ≤ t →
          t < (run (start depth) events).queue.next_ticket →
          (run (start depth) events).queue.pending t = some (PendingResult.completed (r t))) →
        (run (run (start depth) events)
            (List.replicate ((run (start depth) events).queue.next_ticket
              - (run (start depth) events).queue.cursor) PoolEvent.get)).delivered
          = (run (start depth) events).delivered
            ++ (List.range' (run (start depth) events).queue.cursor
                ((run (start depth) events).queue.next_ticket
                  - (run (start depth) events).queue.cursor)).map (fun t => (t, r t))) ∧
      (∀ events : List (PoolEvent β),
        (run (start depth) events).delivered.map Prod.fst
          = List.range (run (start depth) events).queue.cursor) := by
  refine ⟨?_, ?_, ?_⟩
  · intro n results order hn hperm
    obtain ⟨p1, p2, _, p4, p5, p6⟩ := run_puts (β := β) depth n hn
    obtain ⟨c1, c2, c3, c4, _, c6⟩ := run_completes results order
      (run (start depth : PoolRun β) (List.replicate n PoolEvent.put))
    have hall : ∀ k, k < n →
        (run (run (start depth : PoolRun β) (List.replicate n PoolEvent.put))
            (order.map (fun t => PoolEvent.complete t (results t)))).queue.pending
          ((run (run (start depth : PoolRun β) (List.replicate n PoolEvent.put))
            (order.map (fun t => PoolEvent.complete t (results t)))).queue.cursor + k)
          = some (PendingResult.completed (results
              ((run (run (start depth : PoolRun β) (List.replicate n PoolEvent.put))
                (order.map (fun t => PoolEvent.complete t (results t)))).queue.cursor + k))) := by
      intro k hk
      rw [c1, p2, Nat.zero_add]
      exact c6 k (hperm.mem_iff.mpr (List.mem_range.mpr hk)) (p6 k hk)
    obtain ⟨g1, _, _, g4⟩ := run_get_all n _ results hall
    rw [run_append, run_append]
    refine ⟨?_, ?_⟩
    · rw [g4, c4, p5]
    · rw [g1, c3, p4, c1, p2, List.nil_append, List.range_eq_range']
  · intro events r h
    have hall : ∀ k, k < (run (start depth) events).queue.next_ticket
          - (run (start depth) events).queue.cursor →
        (run (start depth) events).queue.pending ((run (start depth) events).queue.cursor + k)
          = some (PendingResult.completed (r ((run (start depth) events).queue.cursor + k))) := by
      intro k hk
      exact h _ (Nat.le_add_right _ _) (by omega)
    exact (run_get_all _ _ r hall).1
  · intro events
    exact (ordered_run (start depth) events (ordered_start depth)).2

theorem pool_delivers_in_ticket_order_witness :
    (run (start 4)
        [PoolEvent.put, PoolEvent.put, PoolEvent.put,
         PoolEvent.complete 2 (102 : Nat), PoolEvent.complete 0 100, PoolEvent.complete 1 101,
         PoolEvent.get, PoolEvent.get, PoolEvent.get]).delivered
      = [(0, 100), (1, 101), (2, 102)] :=
  ((pool_delivers_in_ticket_order 4).1 3 (fun t => 100 + t) [2, 0, 1]
    (by decide) (by decide)).2

end OrderingClaim

/-! ## The model context: construction, inference, teardown -/

section ContextLemmas

theorem query_attrs_failed_iff (query : Nat → Int × rknn_tensor_attr) (call : Nat → RknnCall)
    (l : List Nat) (ret : Int) :
    (query_attrs query call l ret).failed = true ↔ ∃ i ∈ l, (query i).1 < 0 := by
  induction l generalizing ret with
  | nil => simp [query_attrs]
  | cons i rest ih =>
    unfold query_attrs
    by_cases h : (query i).1 < 0
    · rw [if_pos h]
      simp only [true_iff]
      exact ⟨i, List.mem_cons_self i rest, h⟩
    · rw [if_neg h]
      simp only [ih, List.mem_cons]
      constructor
      · rintro ⟨j, hj, hlt⟩
        exact ⟨j, Or.inr hj, hlt⟩
      · rintro ⟨j, hj | hj, hlt⟩
        · exact absurd (hj ▸ hlt) h
        · exact ⟨j, hj, hlt⟩

/-- When no query fails the loop issues one call per index and stores every
attribute. -/
theorem query_attrs_ok (query : Nat → Int × rknn_tensor_attr) (call : Nat → RknnCall)
    (l : List Nat) (ret : Int) (h : (query_attrs query call l ret).failed = false) :
    (query_attrs query call l ret).calls = l.map call ∧
      (query_attrs query call l ret).attrs = l.map (fun i => (query i).2) := by
  induction l generalizing ret with
  | nil => exact ⟨rfl, rfl⟩
  | cons i rest ih =>
    unfold query_attrs at h ⊢
    by_cases hi : (query i).1 < 0
    · rw [if_pos hi] at h
      cases h
    · rw [if_neg hi] at h ⊢
      obtain ⟨h1, h2⟩ := ih (query i).1 h
      simp only [List.map_cons, h1, h2, and_self]

/-- When a query fails the loop stops there: the failing call is the last one
issued and every call before it succeeded. -/
theorem query_attrs_failed (query : Nat → Int × rknn_tensor_attr) (call : Nat → RknnCall)
    (l : List Nat) (ret : Int) (h : (query_attrs query call l ret).failed = true) :
    ∃ (pre : List Nat) (i : Nat),
      (query_attrs query call l ret).calls = pre.map call ++ [call i] ∧
      (query i).1 < 0 ∧ (∀ j ∈ pre, 0 ≤ (query j).1) ∧
      (query_attrs query call l ret).ret = (query i).1 := by
  induction l generalizing ret with
  | nil => simp [query_attrs] at h
  | cons i rest ih =>
    unfold query_attrs at h ⊢
    by_cases hi : (query i).1 < 0
    · rw [if_pos hi]
      exact ⟨[], i, rfl, hi, fun j hj => absurd hj (List.not_mem_nil j), rfl⟩
    · rw [if_neg hi] at h ⊢
      obtain ⟨pre, k, h1, h2, h3, h4⟩ := ih (query i).1 h
      refine ⟨i :: pre, k, ?_, h2, ?_, h4⟩
      · simp only [h1, List.map_cons, List.cons_append]
      · intro j hj
        rcases List.mem_cons.mp hj with hj | hj
        · rw [hj]; exact not_lt.mp hi
        · exact h3 j hj

end ContextLemmas

section ContextInit

/-- The five ways through the duplicate branch of `rkYolov10::init`, in terms
of what the runtime answers: `d` to the duplication, `num` to the count query,
`ins` and `outs` the outcomes of the two attribute loops. -/
theorem init_duplicate_cases (rt : rknn_runtime) (self : rkYolov10) (parent : rknn_context)
    (d : Int × rknn_context) (hd : rt.rknn_dup_context parent = d)
    (num : Int × rknn_input_output_num) (hnum : rt.rknn_query_in_out_num d.2 = num)
    (ins : QueryLoop)
    (hins : query_attrs (rt.rknn_query_input_attr d.2) (RknnCall.rknn_query_input_attr d.2)
      (List.range num.2.n_input) num.1 = ins)
    (outs : QueryLoop)
    (houts : query_attrs (rt.rknn_query_output_attr d.2) (RknnCall.rknn_query_output_attr d.2)
      (List.range num.2.n_output) ins.ret = outs) :
    (d.1 < 0 →
      rkYolov10.init rt self (some parent) true
        = { value := -1
            self := { self with ret := d.1, app_ctx := { self.app_ctx with rknn_ctx := d.2 } }
            calls := [RknnCall.rknn_dup_context parent] }) ∧
    (¬ d.1 < 0 → num.1 < 0 →
      rkYolov10.init rt self (some parent) true
        = { value := -1
            self := { self with
                      ret := num.1
                      app_ctx := { self.app_ctx with rknn_ctx := d.2, io_num := num.2 } }
            calls := [RknnCall.rknn_dup_context parent, RknnCall.rknn_query_in_out_num d.2] }) ∧
    (¬ d.1 < 0 → ¬ num.1 < 0 → ins.failed = true →
      rkYolov10.init rt self (some parent) true
        = { value := -1
            self := { self with
                      ret := ins.ret
                      app_ctx := { self.app_ctx with
                                   rknn_ctx := d.2, io_num := num.2, input_attrs := ins.attrs } }
            calls := [RknnCall.rknn_dup_context parent, RknnCall.rknn_query_in_out_num d.2]
              ++ ins.calls }) ∧
    (¬ d.1 < 0 → ¬ num.1 < 0 → ins.failed = false → outs.failed = true →
      rkYolov10.init rt self (some parent) true
        = { value := -1
            self := { self with
                      ret := outs.ret
                      app_ctx := { self.app_ctx with
                                   rknn_ctx := d.2, io_num := num.2, input_attrs := ins.attrs,
                                   output_attrs := outs.attrs } }
            calls := [RknnCall.rknn_dup_context parent, RknnCall.rknn_query_in_out_num d.2]
              ++ ins.calls ++ outs.calls }) ∧
    (¬ d.1 < 0 → ¬ num.1 < 0 → ins.failed = false → outs.failed = false →
      rkYolov10.init rt self (some parent) true
        = { value := 0
            self := { self with
                      ret := outs.ret
                      app_ctx := set_quantization_flag (set_model_dimensions
                        { self.app_ctx with
                          rknn_ctx := d.2, io_num := num.2, input_attrs := ins.attrs,
                          output_attrs := outs.attrs }) }
            calls := [RknnCall.rknn_dup_context parent, RknnCall.rknn_query_in_out_num d.2]
              ++ ins.calls ++ outs.calls ++ [RknnCall.init_post_process] }) := by
  subst hd hnum hins houts
  refine ⟨?_, ?_, ?_, ?_, ?_⟩
  · intro h1
    simp only [rkYolov10.init, if_pos h1]
  · intro h1 h2
    simp only [rkYolov10.init, if_neg h1, if_pos h2, List.singleton_append]
  · intro h1 h2 h3
    simp only [rkYolov10.init, if_neg h1, if_neg h2, h3, if_true, List.singleton_append]
  · intro h1 h2 h3 h4
    simp only [rkYolov10.init, if_neg h1, if_neg h2, h3, h4, if_true, List.singleton_append]
    rfl
  · intro h1 h2 h3 h4
    simp only [rkYolov10.init, if_neg h1, if_neg h2, h3, h4, List.singleton_append]
    rfl

end ContextInit

section ContextClaims

/-- C11: for a duplicate context (`isChild` true, parent handle present),
`init` returns -1 if and only if `rknn_dup_context`, the in/out-count query,
some input-attribute query or some output-attribute query returns a negative
status, and 0 otherwise. On failure the failing call is the last call issued,
every call before it succeeded, the post-processing is not initialised and the
model dimensions and the quantization flag are as before; on success the calls
are the duplication, the count query, every input query, every output query
and the post-processing initialisation, in this order. -/
theorem duplicate_init_fails_iff (rt : rknn_runtime) (self : rkYolov10)
    (parent : rknn_context) :
    let d := rt.rknn_dup_context parent
    let num := rt.rknn_query_in_out_num d.2
    let res := rkYolov10.init rt self (some parent) true
    let fails : Prop :=
      d.1 < 0 ∨ num.1 < 0 ∨
        (∃ i, i < num.2.n_input ∧ (rt.rknn_query_input_attr d.2 i).1 < 0) ∨
        (∃ i, i < num.2.n_output ∧ (rt.rknn_query_output_attr d.2 i).1 < 0)
    (res.value = -1 ↔ fails) ∧ (res.value = 0 ↔ ¬ fails) ∧
      (fails →
        (∃ pre c, res.calls = pre ++ [c] ∧ rt.status c < 0 ∧ ∀ c' ∈ pre, 0 ≤ rt.status c') ∧
        RknnCall.init_post_process ∉ res.calls ∧
        res.self.app_ctx.model_channel = self.app_ctx.model_channel ∧
        res.self.app_ctx.model_height = self.app_ctx.model_height ∧
        res.self.app_ctx.model_width = self.app_ctx.model_width ∧
        res.self.app_ctx.is_quant = self.app_ctx.is_quant) ∧
      (¬ fails →
        res.calls = [RknnCall.rknn_dup_context parent, RknnCall.rknn_query_in_out_num d.2]
          ++ (List.range num.2.n_input).map (RknnCall.rknn_query_input_attr d.2)
          ++ (List.range num.2.n_output).map (RknnCall.rknn_query_output_attr d.2)
          ++ [RknnCall.init_post_process]) := by
  intro d num res fails
  obtain ⟨ins, hins⟩ : ∃ ins, query_attrs (rt.rknn_query_input_attr d.2)
      (RknnCall.rknn_query_input_attr d.2) (List.range num.2.n_input) num.1 = ins := ⟨_, rfl⟩
  obtain ⟨outs, houts⟩ : ∃ outs, query_attrs (rt.rknn_query_output_attr d.2)
      (RknnCall.rknn_query_output_attr d.2) (List.range num.2.n_output) ins.ret = outs :=
    ⟨_, rfl⟩
  obtain ⟨c1, c2, c3, c4, c5⟩ :=
    init_duplicate_cases rt self parent d rfl num rfl ins hins outs houts
  have hin : ins.failed = true ↔ ∃ i, i < num.2.n_input ∧ (rt.rknn_query_input_attr d.2 i).1 < 0 := by
    rw [← hins, query_attrs_failed_iff]
    simp only [List.mem_range]
  have hout : outs.failed = true
      ↔ ∃ i, i < num.2.n_output ∧ (rt.rknn_query_output_attr d.2 i).1 < 0 := by
    rw [← houts, query_attrs_failed_iff]
    simp only [List.mem_range]
  by_cases h1 : d.1 < 0
  · have hf : fails := Or.inl h1
    have hres : res = _ := c1 h1
    refine ⟨?_, ?_, ?_, ?_⟩
    · simp only [hres, hf]
    · simp only [hres, hf]; decide
    · intro _
      refine ⟨⟨[], RknnCall.rknn_dup_context parent, ?_, h1, ?_⟩, ?_, ?_, ?_, ?_, ?_⟩
      · rw [hres]; rfl
      · intro c' hc'; cases hc'
      · rw [hres]; simp
      all_goals (rw [hres])
    · intro hnf; exact absurd hf hnf
  · by_cases h2 : num.1 < 0
    · have hf : fails := Or.inr (Or.inl h2)
      have hres : res = _ := c2 h1 h2
      refine ⟨?_, ?_, ?_, ?_⟩
      · simp only [hres, hf]
      · simp only [hres, hf]; decide
      · intro _
        refine ⟨⟨[RknnCall.rknn_dup_context parent], RknnCall.rknn_query_in_out_num d.2,
          ?_, h2, ?_⟩, ?_, ?_, ?_, ?_, ?_⟩
        · rw [hres]; rfl
        · intro c' hc'
          rw [List.mem_singleton] at hc'
          rw [hc']
          exact not_lt.mp h1
        · rw [hres]; simp
        all_goals (rw [hres])
      · intro hnf; exact absurd hf hnf
    · by_cases h3 : ins.failed = true
      · have hf : fails := Or.inr (Or.inr (Or.inl (hin.mp h3)))
        have hres : res = _ := c3 h1 h2 h3
        obtain ⟨pre, k, hcalls, hk, hpre, _⟩ := query_attrs_failed
          (rt.rknn_query_input_attr d.2) (RknnCall.rknn_query_input_attr d.2)
          (List.range num.2.n_input) num.1 (by rw [hins]; exact h3)
        rw [hins] at hcalls
        refine ⟨?_, ?_, ?_, ?_⟩
        · simp only [hres, hf]
        · simp only [hres, hf]; decide
        · intro _
          refine ⟨⟨[RknnCall.rknn_dup_context parent, RknnCall.rknn_query_in_out_num d.2]
            ++ pre.map (RknnCall.rknn_query_input_attr d.2),
            RknnCall.rknn_query_input_attr d.2 k, ?_, hk, ?_⟩, ?_, ?_, ?_, ?_, ?_⟩
          · rw [hres, hcalls]; simp
          · intro c' hc'
            simp only [List.mem_append, List.mem_cons, List.mem_singleton, List.mem_map,
              List.not_mem_nil, or_false] at hc'
            rcases hc' with (hc' | hc') | ⟨j, hj, hc'⟩
            · rw [hc']; exact not_lt.mp h1
            · rw [hc']; exact not_lt.mp h2
            · rw [← hc']; exact hpre j hj
          · rw [hres, hcalls]; simp
          all_goals (rw [hres])
        · intro hnf; exact absurd hf hnf
      · have h3' : ins.failed = false := by
          cases hb : ins.failed
          · rfl
          · exact absurd hb h3
        obtain ⟨hicalls, _⟩ := query_attrs_ok (rt.rknn_query_input_attr d.2)
          (RknnCall.rknn_query_input_attr d.2) (List.range num.2.n_input) num.1
          (by rw [hins]; exact h3')
        rw [hins] at hicalls
        by_cases h4 : outs.failed = true
        · have hf : fails := Or.inr (Or.inr (Or.inr (hout.mp h4)))
          have hres : res = _ := c4 h1 h2 h3' h4
          obtain ⟨pre, k, hcalls, hk, hpre, _⟩ := query_attrs_failed
            (rt.rknn_query_output_attr d.2) (RknnCall.rknn_query_output_attr d.2)
            (List.range num.2.n_output) ins.ret (by rw [houts]; exact h4)
          rw [houts] at hcalls
          refine ⟨?_, ?_, ?_, ?_⟩
          · simp only [hres, hf]
          · simp only [hres, hf]; decide
          · intro _
            refine ⟨⟨[RknnCall.rknn_dup_context parent, RknnCall.rknn_query_in_out_num d.2]
              ++ (List.range num.2.n_input).map (RknnCall.rknn_query_input_attr d.2)
              ++ pre.map (RknnCall.rknn_query_output_attr d.2),
              RknnCall.rknn_query_output_attr d.2 k, ?_, hk, ?_⟩, ?_, ?_, ?_, ?_, ?_⟩
            · rw [hres, hcalls, hicalls]; simp
            · intro c' hc'
              simp only [List.mem_append, List.mem_cons, List.mem_singleton, List.mem_map,
                List.not_mem_nil, or_false, List.mem_range] at hc'
              rcases hc' with ((hc' | hc') | ⟨j, hj, hc'⟩) | ⟨j, hj, hc'⟩
              · rw [hc']; exact not_lt.mp h1
              · rw [hc']; exact not_lt.mp h2
              · rw [← hc']
                exact not_lt.mp (fun hlt => h3 (hin.mpr ⟨j, hj, hlt⟩))
              · rw [← hc']; exact hpre j hj
            · rw [hres, hcalls, hicalls]; simp
            all_goals (rw [hres])
          · intro hnf; exact absurd hf hnf
        · have h4' : outs.failed = false := by
            cases hb : outs.failed
            · rfl
            · exact absurd hb h4
          obtain ⟨hocalls, _⟩ := query_attrs_ok (rt.rknn_query_output_attr d.2)
            (RknnCall.rknn_query_output_attr d.2) (List.range num.2.n_output) ins.ret
            (by rw [houts]; exact h4')
          rw [houts] at hocalls
          have hnf : ¬ fails := by
            rintro (h | h | h | h)
            · exact h1 h
            · exact h2 h
            · exact h3 (hin.mpr h)
            · exact h4 (hout.mpr h)
          have hres : res = _ := c5 h1 h2 h3' h4'
          refine ⟨?_, ?_, ?_, ?_⟩
          · simp only [hres, hnf]; decide
          · simp only [hres, hnf, not_false_eq_true]
          · intro hf; exact absurd hf hnf
          · intro _
            rw [hres, hicalls, hocalls]

end ContextClaims

section ContextClaims2

theorem duplicate_init_fails_iff_witness :
    (rkYolov10.init (scripted_runtime 0 0 2 1 (some 1) none 0) fresh_context (some 7) true).value
        = -1 ∧
      (rkYolov10.init (scripted_runtime 0 0 2 1 (some 1) none 0) fresh_context (some 7) true).calls
        = [RknnCall.rknn_dup_context 7, RknnCall.rknn_query_in_out_num 8,
           RknnCall.rknn_query_input_attr 8 0, RknnCall.rknn_query_input_attr 8 1] ∧
      RknnCall.init_post_process ∉
        (rkYolov10.init (scripted_runtime 0 0 2 1 (some 1) none 0) fresh_context
          (some 7) true).calls := by
  have h := duplicate_init_fails_iff (scripted_runtime 0 0 2 1 (some 1) none 0) fresh_context 7
  have hf : (scripted_runtime 0 0 2 1 (some 1) none 0).rknn_dup_context 7 = (0, 8) := rfl
  refine ⟨h.1.mpr (Or.inr (Or.inr (Or.inl ⟨1, by decide, by decide⟩))), by decide, ?_⟩
  exact (h.2.2.1 (Or.inr (Or.inr (Or.inl ⟨1, by decide, by decide⟩)))).2.1

/-- Every call that `init` issues is a duplication, a query, a model load or
the post-processing initialisation: it releases no handle. -/
theorem query_attrs_calls (query : Nat → Int × rknn_tensor_attr) (call : Nat → RknnCall)
    (l : List Nat) (ret : Int) :
    ∀ c ∈ (query_attrs query call l ret).calls, ∃ i, c = call i := by
  induction l generalizing ret with
  | nil => intro c hc; cases hc
  | cons i rest ih =>
    intro c hc
    unfold query_attrs at hc
    by_cases hi : (query i).1 < 0
    · rw [if_pos hi] at hc
      exact ⟨i, List.mem_singleton.mp hc⟩
    · rw [if_neg hi] at hc
      rcases List.mem_cons.mp hc with h | h
      · exact ⟨i, h⟩
      · exact ih (query i).1 c h

end ContextClaims2

section ContextClaims3

/-- The calls of a duplicate `init`: the duplication of the parent's handle
first, then only queries on the new handle and the post-processing
initialisation. -/
theorem init_child_calls (rt : rknn_runtime) (self : rkYolov10) (parent : rknn_context) :
    (rkYolov10.init rt self (some parent) true).calls.head?
        = some (RknnCall.rknn_dup_context parent) ∧
      ∀ c ∈ (rkYolov10.init rt self (some parent) true).calls,
        c = RknnCall.rknn_dup_context parent ∨
        c = RknnCall.rknn_query_in_out_num (rt.rknn_dup_context parent).2 ∨
        (∃ i, c = RknnCall.rknn_query_input_attr (rt.rknn_dup_context parent).2 i) ∨
        (∃ i, c = RknnCall.rknn_query_output_attr (rt.rknn_dup_context parent).2 i) ∨
        c = RknnCall.init_post_process := by
  obtain ⟨c1, c2, c3, c4, c5⟩ := init_duplicate_cases rt self parent _ rfl _ rfl _ rfl _ rfl
  have hins := query_attrs_calls
    (rt.rknn_query_input_attr (rt.rknn_dup_context parent).2)
    (RknnCall.rknn_query_input_attr (rt.rknn_dup_context parent).2)
    (List.range (rt.rknn_query_in_out_num (rt.rknn_dup_context parent).2).2.n_input)
    (rt.rknn_query_in_out_num (rt.rknn_dup_context parent).2).1
  have houts := query_attrs_calls
    (rt.rknn_query_output_attr (rt.rknn_dup_context parent).2)
    (RknnCall.rknn_query_output_attr (rt.rknn_dup_context parent).2)
    (List.range (rt.rknn_query_in_out_num (rt.rknn_dup_context parent).2).2.n_output)
    (query_attrs (rt.rknn_query_input_attr (rt.rknn_dup_context parent).2)
      (RknnCall.rknn_query_input_attr (rt.rknn_dup_context parent).2)
      (List.range (rt.rknn_query_in_out_num (rt.rknn_dup_context parent).2).2.n_input)
      (rt.rknn_query_in_out_num (rt.rknn_dup_context parent).2).1).ret
  by_cases h1 : (rt.rknn_dup_context parent).1 < 0
  · rw [c1 h1]
    refine ⟨rfl, ?_⟩
    intro c hc
    exact Or.inl (List.mem_singleton.mp hc)
  by_cases h2 : (rt.rknn_query_in_out_num (rt.rknn_dup_context parent).2).1 < 0
  · rw [c2 h1 h2]
    refine ⟨rfl, ?_⟩
    intro c hc
    simp only [List.mem_cons, List.mem_singleton, List.not_mem_nil, or_false] at hc
    rcases hc with hc | hc
    · exact Or.inl hc
    · exact Or.inr (Or.inl hc)
  cases h3 : (query_attrs (rt.rknn_query_input_attr (rt.rknn_dup_context parent).2)
      (RknnCall.rknn_query_input_attr (rt.rknn_dup_context parent).2)
      (List.range (rt.rknn_query_in_out_num (rt.rknn_dup_context parent).2).2.n_input)
      (rt.rknn_query_in_out_num (rt.rknn_dup_context parent).2).1).failed
  · cases h4 : (query_attrs (rt.rknn_query_output_attr (rt.rknn_dup_context parent).2)
        (RknnCall.rknn_query_output_attr (rt.rknn_dup_context parent).2)
        (List.range (rt.rknn_query_in_out_num (rt.rknn_dup_context parent).2).2.n_output)
        (query_attrs (rt.rknn_query_input_attr (rt.rknn_dup_context parent).2)
          (RknnCall.rknn_query_input_attr (rt.rknn_dup_context parent).2)
          (List.range (rt.rknn_query_in_out_num (rt.rknn_dup_context parent).2).2.n_input)
          (rt.rknn_query_in_out_num (rt.rknn_dup_context parent).2).1).ret).failed
    · rw [c5 h1 h2 h3 h4]
      refine ⟨rfl, ?_⟩
      intro c hc
      simp only [List.mem_append, List.mem_cons, List.mem_singleton, List.not_mem_nil,
        or_false] at hc
      rcases hc with (((hc | hc) | hc) | hc) | hc
      · exact Or.inl hc
      · exact Or.inr (Or.inl hc)
      · exact Or.inr (Or.inr (Or.inl (hins c hc)))
      · exact Or.inr (Or.inr (Or.inr (Or.inl (houts c hc))))
      · exact Or.inr (Or.inr (Or.inr (Or.inr hc)))
    · rw [c4 h1 h2 h3 h4]
      refine ⟨rfl, ?_⟩
      intro c hc
      simp only [List.mem_append, List.mem_cons, List.mem_singleton, List.not_mem_nil,
        or_false] at hc
      rcases hc with ((hc | hc) | hc) | hc
      · exact Or.inl hc
      · exact Or.inr (Or.inl hc)
      · exact Or.inr (Or.inr (Or.inl (hins c hc)))
      · exact Or.inr (Or.inr (Or.inr (Or.inl (houts c hc))))
  · rw [c3 h1 h2 h3]
    refine ⟨rfl, ?_⟩
    intro c hc
    simp only [List.mem_append, List.mem_cons, List.mem_singleton, List.not_mem_nil,
      or_false] at hc
    rcases hc with (hc | hc) | hc
    · exact Or.inl hc
    · exact Or.inr (Or.inl hc)
    · exact Or.inr (Or.inr (Or.inl (hins c hc)))

/-- The handle that a duplicate `init` leaves in the context is the one that
the duplication wrote, whether `init` succeeds or not. -/
theorem init_child_handle (rt : rknn_runtime) (self : rkYolov10) (parent : rknn_context) :
    (rkYolov10.init rt self (some parent) true).self.app_ctx.rknn_ctx
      = (rt.rknn_dup_context parent).2 := by
  obtain ⟨c1, c2, c3, c4, c5⟩ := init_duplicate_cases rt self parent _ rfl _ rfl _ rfl _ rfl
  by_cases h1 : (rt.rknn_dup_context parent).1 < 0
  · rw [c1 h1]
  by_cases h2 : (rt.rknn_query_in_out_num (rt.rknn_dup_context parent).2).1 < 0
  · rw [c2 h1 h2]
  cases h3 : (query_attrs (rt.rknn_query_input_attr (rt.rknn_dup_context parent).2)
      (RknnCall.rknn_query_input_attr (rt.rknn_dup_context parent).2)
      (List.range (rt.rknn_query_in_out_num (rt.rknn_dup_context parent).2).2.n_input)
      (rt.rknn_query_in_out_num (rt.rknn_dup_context parent).2).1).failed
  · cases h4 : (query_attrs (rt.rknn_query_output_attr (rt.rknn_dup_context parent).2)
        (RknnCall.rknn_query_output_attr (rt.rknn_dup_context parent).2)
        (List.range (rt.rknn_query_in_out_num (rt.rknn_dup_context parent).2).2.n_output)
        (query_attrs (rt.rknn_query_input_attr (rt.rknn_dup_context parent).2)
          (RknnCall.rknn_query_input_attr (rt.rknn_dup_context parent).2)
          (List.range (rt.rknn_query_in_out_num (rt.rknn_dup_context parent).2).2.n_input)
          (rt.rknn_query_in_out_num (rt.rknn_dup_context parent).2).1).ret).failed
    · rw [c5 h1 h2 h3 h4]
      simp only [set_quantization_flag, set_model_dimensions]
      split_ifs <;> rfl
    · rw [c4 h1 h2 h3 h4]
  · rw [c3 h1 h2 h3]

end ContextClaims3

section ContextClaims4

/-- A duplicate `init` returns -1 as soon as the duplication or one of the
queries that it would issue returns a negative status. -/
theorem init_child_value_of_failure (rt : rknn_runtime) (self : rkYolov10)
    (parent : rknn_context)
    (h : (rt.rknn_dup_context parent).1 < 0 ∨
      (rt.rknn_query_in_out_num (rt.rknn_dup_context parent).2).1 < 0 ∨
      (∃ i, i < (rt.rknn_query_in_out_num (rt.rknn_dup_context parent).2).2.n_input ∧
        (rt.rknn_query_input_attr (rt.rknn_dup_context parent).2 i).1 < 0) ∨
      (∃ i, i < (rt.rknn_query_in_out_num (rt.rknn_dup_context parent).2).2.n_output ∧
        (rt.rknn_query_output_attr (rt.rknn_dup_context parent).2 i).1 < 0)) :
    (rkYolov10.init rt self (some parent) true).value = -1 := by
  obtain ⟨ins, hins⟩ : ∃ ins, query_attrs
      (rt.rknn_query_input_attr (rt.rknn_dup_context parent).2)
      (RknnCall.rknn_query_input_attr (rt.rknn_dup_context parent).2)
      (List.range (rt.rknn_query_in_out_num (rt.rknn_dup_context parent).2).2.n_input)
      (rt.rknn_query_in_out_num (rt.rknn_dup_context parent).2).1 = ins := ⟨_, rfl⟩
  obtain ⟨outs, houts⟩ : ∃ outs, query_attrs
      (rt.rknn_query_output_attr (rt.rknn_dup_context parent).2)
      (RknnCall.rknn_query_output_attr (rt.rknn_dup_context parent).2)
      (List.range (rt.rknn_query_in_out_num (rt.rknn_dup_context parent).2).2.n_output)
      ins.ret = outs := ⟨_, rfl⟩
  obtain ⟨c1, c2, c3, c4, c5⟩ :=
    init_duplicate_cases rt self parent _ rfl _ rfl ins hins outs houts
  by_cases h1 : (rt.rknn_dup_context parent).1 < 0
  · rw [c1 h1]
  by_cases h2 : (rt.rknn_query_in_out_num (rt.rknn_dup_context parent).2).1 < 0
  · rw [c2 h1 h2]
  cases h3 : ins.failed
  · cases h4 : outs.failed
    · exfalso
      rcases h with h | h | ⟨i, hi, hlt⟩ | ⟨i, hi, hlt⟩
      · exact h1 h
      · exact h2 h
      · have hfail := (query_attrs_failed_iff
          (rt.rknn_query_input_attr (rt.rknn_dup_context parent).2)
          (RknnCall.rknn_query_input_attr (rt.rknn_dup_context parent).2)
          (List.range (rt.rknn_query_in_out_num (rt.rknn_dup_context parent).2).2.n_input)
          (rt.rknn_query_in_out_num (rt.rknn_dup_context parent).2).1).mpr
          ⟨i, List.mem_range.mpr hi, hlt⟩
        rw [hins, h3] at hfail
        cases hfail
      · have hfail := (query_attrs_failed_iff
          (rt.rknn_query_output_attr (rt.rknn_dup_context parent).2)
          (RknnCall.rknn_query_output_attr (rt.rknn_dup_context parent).2)
          (List.range (rt.rknn_query_in_out_num (rt.rknn_dup_context parent).2).2.n_output)
          ins.ret).mpr ⟨i, List.mem_range.mpr hi, hlt⟩
        rw [houts, h4] at hfail
        cases hfail
    · rw [c4 h1 h2 h3 h4]
  · rw [c3 h1 h2 h3]

/-- A duplicate `init` that returns 0 leaves the context with the attributes of
every input and output tensor, and with the dimensions and the quantization
flag derived from them. -/
theorem init_child_success (rt : rknn_runtime) (self : rkYolov10) (parent : rknn_context)
    (h : (rkYolov10.init rt self (some parent) true).value = 0) :
    (rkYolov10.init rt self (some parent) true).self.app_ctx
      = set_quantization_flag (set_model_dimensions
          { self.app_ctx with
            rknn_ctx := (rt.rknn_dup_context parent).2
            io_num := (rt.rknn_query_in_out_num (rt.rknn_dup_context parent).2).2
            input_attrs :=
              (List.range (rt.rknn_query_in_out_num (rt.rknn_dup_context parent).2).2.n_input).map
                (fun i => (rt.rknn_query_input_attr (rt.rknn_dup_context parent).2 i).2)
            output_attrs :=
              (List.range (rt.rknn_query_in_out_num (rt.rknn_dup_context parent).2).2.n_output).map
                (fun i => (rt.rknn_query_output_attr (rt.rknn_dup_context parent).2 i).2) }) := by
  obtain ⟨ins, hins⟩ : ∃ ins, query_attrs
      (rt.rknn_query_input_attr (rt.rknn_dup_context parent).2)
      (RknnCall.rknn_query_input_attr (rt.rknn_dup_context parent).2)
      (List.range (rt.rknn_query_in_out_num (rt.rknn_dup_context parent).2).2.n_input)
      (rt.rknn_query_in_out_num (rt.rknn_dup_context parent).2).1 = ins := ⟨_, rfl⟩
  obtain ⟨outs, houts⟩ : ∃ outs, query_attrs
      (rt.rknn_query_output_attr (rt.rknn_dup_context parent).2)
      (RknnCall.rknn_query_output_attr (rt.rknn_dup_context parent).2)
      (List.range (rt.rknn_query_in_out_num (rt.rknn_dup_context parent).2).2.n_output)
      ins.ret = outs := ⟨_, rfl⟩
  obtain ⟨c1, c2, c3, c4, c5⟩ :=
    init_duplicate_cases rt self parent _ rfl _ rfl ins hins outs houts
  by_cases h1 : (rt.rknn_dup_context parent).1 < 0
  · rw [c1 h1] at h; simp at h
  by_cases h2 : (rt.rknn_query_in_out_num (rt.rknn_dup_context parent).2).1 < 0
  · rw [c2 h1 h2] at h; simp at h
  cases h3 : ins.failed
  · cases h4 : outs.failed
    · rw [c5 h1 h2 h3 h4]
      have hi := (query_attrs_ok
        (rt.rknn_query_input_attr (rt.rknn_dup_context parent).2)
        (RknnCall.rknn_query_input_attr (rt.rknn_dup_context parent).2)
        (List.range (rt.rknn_query_in_out_num (rt.rknn_dup_context parent).2).2.n_input)
        (rt.rknn_query_in_out_num (rt.rknn_dup_context parent).2).1
        (by rw [hins]; exact h3)).2
      have ho := (query_attrs_ok
        (rt.rknn_query_output_attr (rt.rknn_dup_context parent).2)
        (RknnCall.rknn_query_output_attr (rt.rknn_dup_context parent).2)
        (List.range (rt.rknn_query_in_out_num (rt.rknn_dup_context parent).2).2.n_output)
        ins.ret (by rw [houts]; exact h4)).2
      rw [hins] at hi
      rw [houts] at ho
      simp only [hi, ho]
    · rw [c4 h1 h2 h3 h4] at h; simp at h
  · rw [c3 h1 h2 h3] at h; simp at h

end ContextClaims4

section ContextClaims5

/-- C12, as amended: a call of `init` with `isChild` true and a parent handle
present obtains its handle by duplicating the parent's handle, which is the
first call it issues, and never calls `init_yolov10_model`; a call with
`isChild` true and a null `ctx_in` does what a call with `isChild` false does
(it loads the model from its path). -/
theorem child_init_duplicates_parent (rt : rknn_runtime) (self : rkYolov10) :
    (∀ parent : rknn_context,
      (rkYolov10.init rt self (some parent) true).calls.head?
          = some (RknnCall.rknn_dup_context parent) ∧
        (rkYolov10.init rt self (some parent) true).self.app_ctx.rknn_ctx
          = (rt.rknn_dup_context parent).2 ∧
        ∀ path, RknnCall.init_yolov10_model path
          ∉ (rkYolov10.init rt self (some parent) true).calls) ∧
      rkYolov10.init rt self none true = rkYolov10.init rt self none false := by
  refine ⟨?_, rfl⟩
  intro parent
  obtain ⟨hhead, hall⟩ := init_child_calls rt self parent
  refine ⟨hhead, init_child_handle rt self parent, ?_⟩
  intro path hmem
  rcases hall _ hmem with h | h | ⟨i, h⟩ | ⟨i, h⟩ | h <;> cases h

/-- C12, as stated, fails: a call of `init` with `isChild` true and a null
parent pointer issues no duplication and loads the model from its path. -/
theorem child_init_null_parent_loads_model :
    (rkYolov10.init (scripted_runtime 0 0 1 1 none none 0) fresh_context none true).calls
        = [RknnCall.init_yolov10_model ['m', '.', 'r', 'k', 'n', 'n'],
           RknnCall.init_post_process] ∧
      (rkYolov10.init (scripted_runtime 0 0 1 1 none none 0) fresh_context none true).value
        = 0 := by
  decide

/-- C13: when the duplication succeeds with a valid (non-zero) handle and a
later query fails, `init` returns -1, and over the failed `init` followed by
the destructor the duplicated handle is released exactly once, by the
destructor. -/
theorem failed_child_init_releases_handle (rt : rknn_runtime) (self : rkYolov10)
    (parent : rknn_context)
    (_hdup : ¬ (rt.rknn_dup_context parent).1 < 0)
    (hvalid : (rt.rknn_dup_context parent).2 ≠ 0)
    (hquery : (rt.rknn_query_in_out_num (rt.rknn_dup_context parent).2).1 < 0 ∨
      (∃ i, i < (rt.rknn_query_in_out_num (rt.rknn_dup_context parent).2).2.n_input ∧
        (rt.rknn_query_input_attr (rt.rknn_dup_context parent).2 i).1 < 0) ∨
      (∃ i, i < (rt.rknn_query_in_out_num (rt.rknn_dup_context parent).2).2.n_output ∧
        (rt.rknn_query_output_attr (rt.rknn_dup_context parent).2 i).1 < 0)) :
    (rkYolov10.init rt self (some parent) true).value = -1 ∧
      (∀ h, RknnCall.rknn_destroy h ∉ (rkYolov10.init rt self (some parent) true).calls) ∧
      rkYolov10.destructor (rkYolov10.init rt self (some parent) true).self
        = [RknnCall.deinit_post_process,
           RknnCall.rknn_destroy (rt.rknn_dup_context parent).2] ∧
      List.count (RknnCall.rknn_destroy (rt.rknn_dup_context parent).2)
        ((rkYolov10.init rt self (some parent) true).calls
          ++ rkYolov10.destructor (rkYolov10.init rt self (some parent) true).self) = 1 := by
  have hno : ∀ h, RknnCall.rknn_destroy h ∉ (rkYolov10.init rt self (some parent) true).calls := by
    intro h hmem
    rcases (init_child_calls rt self parent).2 _ hmem with h' | h' | ⟨i, h'⟩ | ⟨i, h'⟩ | h' <;>
      cases h'
  have hdes : rkYolov10.destructor (rkYolov10.init rt self (some parent) true).self
      = [RknnCall.deinit_post_process,
         RknnCall.rknn_destroy (rt.rknn_dup_context parent).2] := by
    simp only [rkYolov10.destructor, release_yolov10_model, init_child_handle, ne_eq, hvalid,
      not_false_eq_true, if_true, List.singleton_append]
  refine ⟨init_child_value_of_failure rt self parent (Or.inr hquery), hno, hdes, ?_⟩
  rw [List.count_append, List.count_eq_zero.mpr (hno _), hdes]
  simp

theorem failed_child_init_releases_handle_witness :
    (rkYolov10.init (scripted_runtime 0 0 1 3 none (some 2) 0) fresh_context (some 7) true).value
        = -1 ∧
      List.count (RknnCall.rknn_destroy 8)
        ((rkYolov10.init (scripted_runtime 0 0 1 3 none (some 2) 0) fresh_context
            (some 7) true).calls
          ++ rkYolov10.destructor (rkYolov10.init (scripted_runtime 0 0 1 3 none (some 2) 0)
              fresh_context (some 7) true).self) = 1 := by
  have h := failed_child_init_releases_handle (scripted_runtime 0 0 1 3 none (some 2) 0)
    fresh_context 7 (by decide) (by decide)
    (Or.inr (Or.inr ⟨2, by decide, by decide⟩))
  exact ⟨h.1, h.2.2.2⟩

/-- C16: the destructor releases the postprocessing resources first, exactly
once, and then the runtime handle: exactly once when the context holds a
handle, and not at all when the handle is 0, as after a construction without
`init` or after an `init` whose duplication failed and left no handle. -/
theorem teardown_order (self : rkYolov10) :
    (rkYolov10.destructor self).head? = some RknnCall.deinit_post_process ∧
      List.count RknnCall.deinit_post_process (rkYolov10.destructor self) = 1 ∧
      (self.app_ctx.rknn_ctx ≠ 0 →
        rkYolov10.destructor self
          = [RknnCall.deinit_post_process, RknnCall.rknn_destroy self.app_ctx.rknn_ctx]) ∧
      (self.app_ctx.rknn_ctx = 0 →
        rkYolov10.destructor self = [RknnCall.deinit_post_process]) ∧
      (∀ (NMS_THRESH BOX_THRESH : ℚ) (ret : Int) (model_path : List Char),
        rkYolov10.destructor (rkYolov10.construct NMS_THRESH BOX_THRESH ret model_path)
          = [RknnCall.deinit_post_process]) ∧
      (∀ (rt : rknn_runtime) (parent : rknn_context),
        (rt.rknn_dup_context parent).1 < 0 → (rt.rknn_dup_context parent).2 = 0 →
        rkYolov10.destructor (rkYolov10.init rt self (some parent) true).self
          = [RknnCall.deinit_post_process]) := by
  have hne : self.app_ctx.rknn_ctx ≠ 0 →
      rkYolov10.destructor self
        = [RknnCall.deinit_post_process, RknnCall.rknn_destroy self.app_ctx.rknn_ctx] := by
    intro h
    simp only [rkYolov10.destructor, release_yolov10_model, ne_eq, h, not_false_eq_true,
      if_true, List.singleton_append]
  have hz : ∀ s : rkYolov10, s.app_ctx.rknn_ctx = 0 →
      rkYolov10.destructor s = [RknnCall.deinit_post_process] := by
    intro s h
    simp only [rkYolov10.destructor, release_yolov10_model, ne_eq, h, not_true_eq_false,
      if_false, List.append_nil]
  refine ⟨?_, ?_, hne, hz self, ?_, ?_⟩
  · by_cases h : self.app_ctx.rknn_ctx = 0
    · rw [hz self h]; rfl
    · rw [hne h]; rfl
  · by_cases h : self.app_ctx.rknn_ctx = 0
    · rw [hz self h]; rfl
    · rw [hne h]; simp
  · intro N B r path
    exact hz _ rfl
  · intro rt parent _ hzero
    apply hz
    rw [init_child_handle, hzero]

theorem teardown_order_witness :
    rkYolov10.destructor (rkYolov10.init (scripted_runtime 0 0 1 1 none none 0) fresh_context
        (some 7) true).self
      = [RknnCall.deinit_post_process, RknnCall.rknn_destroy 8] :=
  (teardown_order (rkYolov10.init (scripted_runtime 0 0 1 1 none none 0) fresh_context
    (some 7) true).self).2.2.1 (by decide)

/-- C17: after a duplicate `init` that returns 0, with at least one input
tensor, the input geometry is that of input tensor 0: channel = dims[1],
height = dims[2], width = dims[3] when its layout is NCHW, and height = dims[1],
width = dims[2], channel = dims[3] for any other layout. -/
theorem child_init_model_dimensions (rt : rknn_runtime) (self : rkYolov10)
    (parent : rknn_context)
    (hok : (rkYolov10.init rt self (some parent) true).value = 0)
    (hin : 0 < (rt.rknn_query_in_out_num (rt.rknn_dup_context parent).2).2.n_input) :
    ((rt.rknn_query_input_attr (rt.rknn_dup_context parent).2 0).2.fmt
        = rknn_tensor_format.RKNN_TENSOR_NCHW →
      (rkYolov10.init rt self (some parent) true).self.app_ctx.model_channel
          = (rt.rknn_query_input_attr (rt.rknn_dup_context parent).2 0).2.dims.getD 1 0 ∧
        (rkYolov10.init rt self (some parent) true).self.app_ctx.model_height
          = (rt.rknn_query_input_attr (rt.rknn_dup_context parent).2 0).2.dims.getD 2 0 ∧
        (rkYolov10.init rt self (some parent) true).self.app_ctx.model_width
          = (rt.rknn_query_input_attr (rt.rknn_dup_context parent).2 0).2.dims.getD 3 0) ∧
      ((rt.rknn_query_input_attr (rt.rknn_dup_context parent).2 0).2.fmt
          ≠ rknn_tensor_format.RKNN_TENSOR_NCHW →
        (rkYolov10.init rt self (some parent) true).self.app_ctx.model_height
            = (rt.rknn_query_input_attr (rt.rknn_dup_context parent).2 0).2.dims.getD 1 0 ∧
          (rkYolov10.init rt self (some parent) true).self.app_ctx.model_width
            = (rt.rknn_query_input_attr (rt.rknn_dup_context parent).2 0).2.dims.getD 2 0 ∧
          (rkYolov10.init rt self (some parent) true).self.app_ctx.model_channel
            = (rt.rknn_query_input_attr (rt.rknn_dup_context parent).2 0).2.dims.getD 3 0) := by
  rw [init_child_success rt self parent hok]
  obtain ⟨n, hn⟩ : ∃ n, (rt.rknn_query_in_out_num (rt.rknn_dup_context parent).2).2.n_input
      = n + 1 := ⟨_, (Nat.succ_pred_eq_of_pos hin).symm⟩
  have h0 : ((List.range (n + 1)).map
      (fun i => (rt.rknn_query_input_attr (rt.rknn_dup_context parent).2 i).2)).getD 0
        { index := 0, dims := [], fmt := rknn_tensor_format.RKNN_TENSOR_NCHW,
          type := rknn_tensor_type.RKNN_TENSOR_FLOAT32,
          qnt_type := rknn_tensor_qnt_type.RKNN_TENSOR_QNT_NONE }
      = (rt.rknn_query_input_attr (rt.rknn_dup_context parent).2 0).2 := by
    rw [List.range_succ_eq_map]
    rfl
  constructor
  · intro hfmt
    simp only [set_quantization_flag, set_model_dimensions, hn, h0, hfmt, if_true]
    split_ifs <;> exact ⟨rfl, rfl, rfl⟩
  · intro hfmt
    simp only [set_quantization_flag, set_model_dimensions, hn, h0, hfmt, if_false]
    split_ifs <;> exact ⟨rfl, rfl, rfl⟩

theorem child_init_model_dimensions_witness :
    (rkYolov10.init (scripted_runtime 0 0 1 1 none none 0) fresh_context
        (some 7) true).self.app_ctx.model_height = 640 ∧
      (rkYolov10.init (scripted_runtime 0 0 1 1 none none 0) fresh_context
        (some 7) true).self.app_ctx.model_width = 480 ∧
      (rkYolov10.init (scripted_runtime 0 0 1 1 none none 0) fresh_context
        (some 7) true).self.app_ctx.model_channel = 3 :=
  (child_init_model_dimensions (scripted_runtime 0 0 1 1 none none 0) fresh_context 7
    (by decide) (by decide)).2 (by decide)

/-- C14: when `inference_yolov10_model` reports a failure (a negative status)
for a frame, `infer` returns the caller's frame as it received it, nothing
drawn on it, it leaves the context as it was, and any later `infer` call on
the object gives exactly what it would have given without the failed call. -/
theorem infer_failure_returns_original (rt : rknn_runtime) (cv : OpenCV) (self : rkYolov10)
    (orig_img : Mat)
    (hfail : (rt.inference_yolov10_model self.app_ctx (inference_input cv orig_img)).1 < 0) :
    (rkYolov10.infer rt cv self orig_img).frame = orig_img ∧
      (rkYolov10.infer rt cv self orig_img).self.app_ctx = self.app_ctx ∧
      ∀ next : Mat,
        rkYolov10.infer rt cv (rkYolov10.infer rt cv self orig_img).self next
          = rkYolov10.infer rt cv self next := by
  refine ⟨?_, ?_, ?_⟩
  · simp only [rkYolov10.infer, if_pos hfail]
  · simp only [rkYolov10.infer, if_pos hfail]
  · intro next
    simp only [rkYolov10.infer, if_pos hfail]

theorem infer_failure_returns_original_witness :
    (rkYolov10.infer (scripted_runtime 0 0 1 1 none none (-1)) plain_opencv fresh_context
        (uniform_frame 640 480 7)).frame = uniform_frame 640 480 7 :=
  (infer_failure_returns_original (scripted_runtime 0 0 1 1 none none (-1)) plain_opencv
    fresh_context (uniform_frame 640 480 7) (by decide)).1

end ContextClaims5

/-! ## The pipeline driver `main` -/

section MainClaims

/-- The argument handling of `main`, branch by branch. -/
theorem parse_unfold (argv : List (List Char)) :
    parse_command_line argv
      = if argv.length < 3 ∨ argv.length > 4 then none
        else if argv.length = 4 ∧ (if argv.length = 4 then atoi (argv.getD 3 []) else 1) ≤ 0
        then none
        else if webcam_tag.isPrefixOf (argv.getD 2 []) = true then
          match stoi ((argv.getD 2 []).drop 7) with
          | none => none
          | some webcam_id =>
            some { model_name := argv.getD 1 [], input_source := argv.getD 2 [],
                   is_webcam := true, webcam_id := webcam_id,
                   total_instances := if argv.length = 4 then atoi (argv.getD 3 []) else 1 }
        else
          some { model_name := argv.getD 1 [], input_source := argv.getD 2 [],
                 is_webcam := false, webcam_id := 0,
                 total_instances := if argv.length = 4 then atoi (argv.getD 3 []) else 1 } :=
  rfl

/-- What the argument handling of `main` does, case by case. -/
theorem parse_command_line_cases (argv : List (List Char)) :
    (argv.length < 3 ∨ argv.length > 4 → parse_command_line argv = none) ∧
      (argv.length = 4 → atoi (argv.getD 3 []) ≤ 0 → parse_command_line argv = none) ∧
      (webcam_tag.isPrefixOf (argv.getD 2 []) = true → stoi ((argv.getD 2 []).drop 7) = none →
        parse_command_line argv = none) ∧
      (∀ cmd, parse_command_line argv = some cmd →
        cmd.model_name = argv.getD 1 [] ∧ cmd.input_source = argv.getD 2 [] ∧
        (argv.length = 3 → cmd.total_instances = 1) ∧
        (argv.length = 4 → cmd.total_instances = atoi (argv.getD 3 [])) ∧
        cmd.is_webcam = webcam_tag.isPrefixOf (argv.getD 2 []) ∧
        (cmd.is_webcam = true → stoi ((argv.getD 2 []).drop 7) = some cmd.webcam_id)) := by
  refine ⟨?_, ?_, ?_, ?_⟩
  · intro h
    rw [parse_unfold, if_pos h]
  · intro h4 hle
    rw [parse_unfold]
    generalize htI : (if argv.length = 4 then atoi (argv.getD 3 []) else 1) = ti
    rw [if_pos h4] at htI
    subst htI
    rw [if_neg (by omega), if_pos ⟨h4, hle⟩]
  · intro hweb hstoi
    rw [parse_unfold, if_pos hweb, hstoi]
    split_ifs <;> rfl
  · intro cmd hcmd
    rw [parse_unfold] at hcmd
    have ht3 : argv.length = 3 →
        (if argv.length = 4 then atoi (argv.getD 3 []) else 1) = 1 := by
      intro h; rw [if_neg (by omega)]
    have ht4 : argv.length = 4 →
        (if argv.length = 4 then atoi (argv.getD 3 []) else 1) = atoi (argv.getD 3 []) := by
      intro h; rw [if_pos h]
    generalize (if argv.length = 4 then atoi (argv.getD 3 []) else 1) = ti at hcmd ht3 ht4
    split_ifs at hcmd with h1 h2 h3
    · cases hst : stoi ((argv.getD 2 []).drop 7) with
      | none => rw [hst] at hcmd; cases hcmd
      | some id =>
        rw [hst] at hcmd
        simp only [Option.some.injEq] at hcmd
        subst hcmd
        exact ⟨rfl, rfl, ht3, ht4, h3.symm, fun _ => rfl⟩
    · simp only [Option.some.injEq] at hcmd
      subst hcmd
      refine ⟨rfl, rfl, ht3, ht4, ?_, ?_⟩
      · simp only [Bool.not_eq_true] at h3; exact h3.symm
      · intro h; cases h

/-- C18: when the command line is accepted and `testPool.init()` returns
non-zero, `main` returns -1 and all it has done is to create the pool and call
its `init`: no capture device and no window is opened, no frame is submitted
and no result is retrieved. -/
theorem main_pool_init_failure (env : MainEnv) (cv : OpenCV) (argv : List (List Char))
    (cmd : CommandLine) (hcmd : parse_command_line argv = some cmd)
    (hfail : env.pool_init ≠ 0) :
    main env cv argv
        = { value := some (-1)
            actions := [MainAction.pool_create cmd.model_name
                          (main_threadNum env cmd.total_instances),
                        MainAction.pool_init] } ∧
      ∀ a ∈ (main env cv argv).actions,
        a = MainAction.pool_create cmd.model_name (main_threadNum env cmd.total_instances) ∨
          a = MainAction.pool_init := by
  have h : main env cv argv
      = { value := some (-1)
          actions := [MainAction.pool_create cmd.model_name
                        (main_threadNum env cmd.total_instances),
                      MainAction.pool_init] } := by
    simp only [main, hcmd, if_pos hfail]
  refine ⟨h, ?_⟩
  intro a ha
  rw [h] at ha
  simp only [List.mem_cons, List.mem_singleton, List.not_mem_nil, or_false] at ha
  exact ha

end MainClaims

section MainClaims2

theorem main_pool_init_failure_witness :
    main (scripted_env 1 []) plain_opencv [['a'], ['m'], ['v']]
      = { value := some (-1)
          actions := [MainAction.pool_create ['m'] 6, MainAction.pool_init] } :=
  (main_pool_init_failure (scripted_env 1 []) plain_opencv [['a'], ['m'], ['v']]
    { model_name := ['m'], input_source := ['v'], is_webcam := false, webcam_id := 0,
      total_instances := 1 } (by decide) (by decide)).1

/-- C20, evaluated on a malformed command line: for the source `webcam:1x`,
where what follows `webcam:` is not an integer, the argument handling does not
return -1: `std::stoi` converts the leading `1` and ignores the rest, camera 1
is selected, and `main` goes on to create the pool. -/
theorem main_accepts_malformed_webcam_id :
    stoi ['1', 'x'] = some 1 ∧
      parse_command_line [['a'], ['m'], ['w', 'e', 'b', 'c', 'a', 'm', ':', '1', 'x']]
        = some { model_name := ['m']
                 input_source := ['w', 'e', 'b', 'c', 'a', 'm', ':', '1', 'x']
                 is_webcam := true, webcam_id := 1, total_instances := 1 } ∧
      main (scripted_env 1 []) plain_opencv
          [['a'], ['m'], ['w', 'e', 'b', 'c', 'a', 'm', ':', '1', 'x']]
        = { value := some (-1)
            actions := [MainAction.pool_create ['m'] 6, MainAction.pool_init] } := by
  refine ⟨by decide, by decide, ?_⟩
  have hcmd : parse_command_line [['a'], ['m'], ['w', 'e', 'b', 'c', 'a', 'm', ':', '1', 'x']]
      = some { model_name := ['m']
               input_source := ['w', 'e', 'b', 'c', 'a', 'm', ':', '1', 'x']
               is_webcam := true, webcam_id := 1, total_instances := 1 } := by decide
  simp only [main, hcmd]
  rfl

end MainClaims2

section MainClaims3

/-- C19: one bad frame does not end the main loop. With a frame read, (1) an
empty frame is skipped and the loop goes on with the next iteration; (2) a
frame whose `put` returns non-zero is neither shown nor counted, no `get` is
attempted for it, and the loop goes on with the next iteration; (3) a frame
whose `get` returns non-zero is shown as it was submitted, without detections,
the loop is left only if the user presses `q` or ESC, and otherwise the frame
is counted and the loop goes on with the next iteration. -/
theorem main_loop_survives_bad_frame (cv : OpenCV) (is_webcam : Bool) (threadNum frames : Int)
    (inp : LoopInput) (rest : List LoopInput) (img : Mat) (hread : inp.read = some img) :
    (cv.empty img = true →
      main_loop cv is_webcam threadNum (inp :: rest) frames
        = { finished := (main_loop cv is_webcam threadNum rest frames).finished
            frames := (main_loop cv is_webcam threadNum rest frames).frames
            actions := [MainAction.capture_read]
              ++ (main_loop cv is_webcam threadNum rest frames).actions }) ∧
      (cv.empty img = false → inp.put_status ≠ 0 →
        main_loop cv is_webcam threadNum (inp :: rest) frames
          = { finished := (main_loop cv is_webcam threadNum rest frames).finished
              frames := (main_loop cv is_webcam threadNum rest frames).frames
              actions := [MainAction.capture_read, MainAction.put (prepare_frame cv img),
                          MainAction.wait_key 10]
                ++ (main_loop cv is_webcam threadNum rest frames).actions }) ∧
      (cv.empty img = false → inp.put_status = 0 → frames ≥ threadNum → inp.get_status ≠ 0 →
        (main_loop_body cv is_webcam threadNum frames inp).actions
            = [MainAction.capture_read, MainAction.put (prepare_frame cv img), MainAction.get,
               MainAction.imshow (prepare_frame cv img), MainAction.wait_key 1] ∧
          ((main_loop_body cv is_webcam threadNum frames inp).leave = true
            ↔ (inp.key = 113 ∨ inp.key = 27)) ∧
          (¬ (inp.key = 113 ∨ inp.key = 27) →
            main_loop cv is_webcam threadNum (inp :: rest) frames
              = { finished := (main_loop cv is_webcam threadNum rest (frames + 1)).finished
                  frames := (main_loop cv is_webcam threadNum rest (frames + 1)).frames
                  actions := [MainAction.capture_read, MainAction.put (prepare_frame cv img),
                              MainAction.get, MainAction.imshow (prepare_frame cv img),
                              MainAction.wait_key 1]
                    ++ (main_loop cv is_webcam threadNum rest (frames + 1)).actions })) := by
  refine ⟨?_, ?_, ?_⟩
  · intro hempty
    have hbody : main_loop_body cv is_webcam threadNum frames inp
        = { leave := false, frames := frames, actions := [MainAction.capture_read] } := by
      simp only [main_loop_body, hread, hempty, if_true]
    simp only [main_loop, hbody, Bool.false_eq_true, if_false]
  · intro hempty hput
    have hbody : main_loop_body cv is_webcam threadNum frames inp
        = { leave := false, frames := frames,
            actions := [MainAction.capture_read, MainAction.put (prepare_frame cv img),
                        MainAction.wait_key 10] } := by
      simp only [main_loop_body, hread, hempty, Bool.false_eq_true, if_false, ne_eq, hput,
        not_false_eq_true, if_true]
    simp only [main_loop, hbody, Bool.false_eq_true, if_false]
  · intro hempty hput hframes hget
    have hacts : (main_loop_body cv is_webcam threadNum frames inp).actions
        = [MainAction.capture_read, MainAction.put (prepare_frame cv img), MainAction.get,
           MainAction.imshow (prepare_frame cv img), MainAction.wait_key 1] := by
      simp only [main_loop_body, hread, hempty, Bool.false_eq_true, if_false, ne_eq, hput,
        not_true_eq_false, hframes, if_true, hget, not_false_eq_true, List.cons_append,
        List.nil_append]
      split_ifs <;> rfl
    have hleave : (main_loop_body cv is_webcam threadNum frames inp).leave = true
        ↔ (inp.key = 113 ∨ inp.key = 27) := by
      simp only [main_loop_body, hread, hempty, Bool.false_eq_true, if_false, ne_eq, hput,
        not_true_eq_false]
      split_ifs with hk
      · simp only [hk]
      · simp only [hk, Bool.false_eq_true]
    refine ⟨hacts, hleave, ?_⟩
    intro hkey
    have hl : (main_loop_body cv is_webcam threadNum frames inp).leave = false := by
      cases hb : (main_loop_body cv is_webcam threadNum frames inp).leave
      · rfl
      · exact absurd (hleave.mp hb) hkey
    have hfr : (main_loop_body cv is_webcam threadNum frames inp).frames = frames + 1 := by
      simp only [main_loop_body, hread, hempty, Bool.false_eq_true, if_false, ne_eq, hput,
        not_true_eq_false, if_neg hkey]
    simp only [main_loop, hl, Bool.false_eq_true, if_false, hacts, hfr]

end MainClaims3

section MainClaims4

theorem main_loop_survives_bad_frame_witness :
    main_loop plain_opencv false 1
        [{ read := some (uniform_frame 640 480 9), put_status := 1, get_status := 0,
           get_result := uniform_frame 640 480 9, key := 0 }] 1
      = { finished := true, frames := 1
          actions := [MainAction.capture_read, MainAction.put (uniform_frame 640 480 9),
                      MainAction.wait_key 10, MainAction.capture_read] } :=
  (main_loop_survives_bad_frame plain_opencv false 1 1
    { read := some (uniform_frame 640 480 9), put_status := 1, get_status := 0,
      get_result := uniform_frame 640 480 9, key := 0 } [] (uniform_frame 640 480 9) rfl).2.1
    (by decide) (by decide)

end MainClaims4


/-! ## Image sizes, thread counts and further properties of the letterbox -/

section SizeClaims

open image_format_t

/-- C27: `get_image_size` returns width*height*3 for RGB888, width*height*4 for
RGBA8888, width*height for GRAY8, width*height*3/2 with the truncating division
of C for the two YUV420 semi-planar formats, and 0 for a null image or any
other format; and the size that `convert_mat_to_image_buffer` records for a
frame, cols*rows*3 with format RGB888, is `get_image_size` of the buffer it
returns. -/
theorem get_image_size_by_format :
    get_image_size none = 0 ∧
      (∀ img : image_buffer_t,
        (img.format = IMAGE_FORMAT_RGB888 →
          get_image_size (some img) = img.width * img.height * 3) ∧
        (img.format = IMAGE_FORMAT_RGBA8888 →
          get_image_size (some img) = img.width * img.height * 4) ∧
        (img.format = IMAGE_FORMAT_GRAY8 →
          get_image_size (some img) = img.width * img.height) ∧
        (img.format = IMAGE_FORMAT_YUV420SP_NV12 ∨ img.format = IMAGE_FORMAT_YUV420SP_NV21 →
          get_image_size (some img) = Int.tdiv (img.width * img.height * 3) 2) ∧
        (∀ code, img.format = IMAGE_FORMAT_UNKNOWN code → get_image_size (some img) = 0)) ∧
      (∀ frame : Mat,
        (convert_mat_to_image_buffer frame).format = IMAGE_FORMAT_RGB888 ∧
        (convert_mat_to_image_buffer frame).size = frame.cols * frame.rows * 3 ∧
        get_image_size (some (convert_mat_to_image_buffer frame))
          = (convert_mat_to_image_buffer frame).size) := by
  refine ⟨rfl, ?_, ?_⟩
  · intro img
    refine ⟨?_, ?_, ?_, ?_, ?_⟩
    · intro h; simp only [get_image_size, h]
    · intro h; simp only [get_image_size, h]
    · intro h; simp only [get_image_size, h]
    · rintro (h | h) <;> simp only [get_image_size, h]
    · intro code h; simp only [get_image_size, h]
  · intro frame
    exact ⟨rfl, rfl, rfl⟩

theorem get_image_size_by_format_witness :
    get_image_size (some (convert_mat_to_image_buffer (uniform_frame 1920 1080 0)))
      = 1920 * 1080 * 3 :=
  (get_image_size_by_format.2.1
    (convert_mat_to_image_buffer (uniform_frame 1920 1080 0))).1 rfl

end SizeClaims

section ThreadClaims

/-- Truncating division of a negative number by a positive one is not
positive. -/
theorem tdiv_nonpos_of_neg (a b : Int) (ha : a ≤ 0) (hb : 0 ≤ b) : Int.tdiv a b ≤ 0 := by
  have h1 : Int.tdiv (-a) b = -(Int.tdiv a b) := Int.neg_tdiv a b
  have h2 : 0 ≤ Int.tdiv (-a) b := Int.tdiv_nonneg (by omega) hb
  omega

/-- The threads per instance before the cap, `max(1, available / instances)`,
do not grow with the number of instances. -/
theorem threads_per_instance_antitone (a t t' : Int) (ht : 1 ≤ t) (htt : t ≤ t') :
    max 1 (Int.tdiv a t') ≤ max 1 (Int.tdiv a t) := by
  by_cases ha : 0 ≤ a
  · rw [Int.tdiv_eq_ediv ha (by omega), Int.tdiv_eq_ediv ha (by omega)]
    have h0 : 0 ≤ a / t' := Int.ediv_nonneg ha (by omega)
    have h1 : a / t' * t' ≤ a := Int.ediv_mul_le a (by omega)
    have h2 : a / t' * t ≤ a / t' * t' := mul_le_mul_of_nonneg_left htt h0
    have h3 : a / t' ≤ a / t := Int.le_ediv_of_mul_le (by omega) (le_trans h2 h1)
    exact max_le_max (le_refl 1) h3
  · have h1 := tdiv_nonpos_of_neg a t' (by omega) (by omega)
    have h2 := tdiv_nonpos_of_neg a t (by omega) (by omega)
    rw [max_eq_left (by omega), max_eq_left (by omega)]

/-- C26: for a core count c >= 0 and total_instances >= 1,
`calculateOptimalThreads` returns min(6, max(1, (c - max(2, c / 4)) / total_instances)),
with the truncating division of C and equally with the flooring one; the
result lies between 1 and 6, it does not increase when total_instances
increases, and 8 cores give 6 threads for one instance and 1 thread for four
instances. -/
theorem calculateOptimalThreads_formula (c total_instances : Int) (hc : 0 ≤ c)
    (hti : 1 ≤ total_instances) :
    calculateOptimalThreads c total_instances
        = min 6 (max 1 (Int.tdiv (c - max 2 (Int.tdiv c 4)) total_instances)) ∧
      calculateOptimalThreads c total_instances
        = min 6 (max 1 ((c - max 2 (c / 4)) / total_instances)) ∧
      1 ≤ calculateOptimalThreads c total_instances ∧
      calculateOptimalThreads c total_instances ≤ 6 ∧
      (∀ more : Int, total_instances ≤ more →
        calculateOptimalThreads c more ≤ calculateOptimalThreads c total_instances) ∧
      calculateOptimalThreads 8 1 = 6 ∧ calculateOptimalThreads 8 4 = 1 := by
  have hform : ∀ t : Int, calculateOptimalThreads c t
      = min 6 (max 1 (Int.tdiv (c - max 2 (Int.tdiv c 4)) t)) := by
    intro t
    simp only [calculateOptimalThreads]
    exact min_comm _ _
  refine ⟨hform _, ?_, ?_, ?_, ?_, by decide, by decide⟩
  · rw [hform, Int.tdiv_eq_ediv hc (by norm_num : (0 : Int) ≤ 4)]
    by_cases ha : 0 ≤ c - max 2 (c / 4)
    · rw [Int.tdiv_eq_ediv ha (by omega)]
    · have h1 := tdiv_nonpos_of_neg (c - max 2 (c / 4)) total_instances (by omega) (by omega)
      have h2 : (c - max 2 (c / 4)) / total_instances < 0 :=
        Int.ediv_neg' (by omega) (by omega)
      rw [max_eq_left (by omega), max_eq_left (by omega)]
  · rw [hform]
    exact le_min (by norm_num) (le_max_left _ _)
  · rw [hform]
    exact min_le_left _ _
  · intro more hmore
    rw [hform, hform]
    exact min_le_min (le_refl 6)
      (threads_per_instance_antitone _ total_instances more hti hmore)

theorem calculateOptimalThreads_formula_witness :
    calculateOptimalThreads 8 4 ≤ calculateOptimalThreads 8 1 ∧
      1 ≤ calculateOptimalThreads 8 1 ∧ calculateOptimalThreads 8 1 ≤ 6 :=
  ⟨(calculateOptimalThreads_formula 8 1 (by decide) (by decide)).2.2.2.2.1 4 (by decide),
   (calculateOptimalThreads_formula 8 1 (by decide) (by decide)).2.2.1,
   (calculateOptimalThreads_formula 8 1 (by decide) (by decide)).2.2.2.1⟩

end ThreadClaims

section FillClaims

open image_format_t

/-- The scaled size equals the destination size on the axis whose ratio was
chosen as the scale: the width when the width ratio is the smaller one, the
height otherwise. -/
theorem scaled_fills_one_axis (src dst : image_buffer_t) (hsw : 0 < src.width)
    (hsh : 0 < src.height) :
    ((dst.width : ℚ) / (src.width : ℚ) < (dst.height : ℚ) / (src.height : ℚ) →
        letterbox_scaled_width src dst = dst.width) ∧
      (¬ (dst.width : ℚ) / (src.width : ℚ) < (dst.height : ℚ) / (src.height : ℚ) →
        letterbox_scaled_height src dst = dst.height) := by
  have hw : (src.width : ℚ) ≠ 0 := by exact_mod_cast hsw.ne'
  have hh : (src.height : ℚ) ≠ 0 := by exact_mod_cast hsh.ne'
  constructor
  · intro h
    have hs : letterbox_scale src dst = (dst.width : ℚ) / (src.width : ℚ) := by
      simp only [letterbox_scale, if_pos h]
    have hmul : (src.width : ℚ) * ((dst.width : ℚ) / (src.width : ℚ)) = (dst.width : ℚ) := by
      field_simp
    rw [letterbox_scaled_width, hs, hmul, float_to_int_intCast]
  · intro h
    have hs : letterbox_scale src dst = (dst.height : ℚ) / (src.height : ℚ) := by
      simp only [letterbox_scale, if_neg h]
    have hmul : (src.height : ℚ) * ((dst.height : ℚ) / (src.height : ℚ)) = (dst.height : ℚ) := by
      field_simp
    rw [letterbox_scaled_height, hs, hmul, float_to_int_intCast]

/-- C24: for positive source and destination dimensions the scaled image fills
the target on the axis with the smaller ratio: when dst_width / src_width is
below dst_height / src_height, scaled_width = dst_width and x_pad = 0;
otherwise scaled_height = dst_height and y_pad = 0. So scaled_width = dst_width
or scaled_height = dst_height, and at least one of x_pad and y_pad is 0. -/
theorem letterbox_fills_one_axis (RK3588 : Bool) (hw : im2d)
    (src dst : image_buffer_t) (lb0 : letterbox_t) (color : Int)
    (hsw : 0 < src.width) (hsh : 0 < src.height) (_hdw : 0 < dst.width) (_hdh : 0 < dst.height) :
    ∃ lb, (convert_image_with_letterbox RK3588 hw (some src) (some dst) (some lb0) color).2.2
        = some lb ∧
      ((dst.width : ℚ) / (src.width : ℚ) < (dst.height : ℚ) / (src.height : ℚ) →
        float_to_int ((src.width : ℚ) * lb.scale) = dst.width ∧ lb.x_pad = 0) ∧
      (¬ (dst.width : ℚ) / (src.width : ℚ) < (dst.height : ℚ) / (src.height : ℚ) →
        float_to_int ((src.height : ℚ) * lb.scale) = dst.height ∧ lb.y_pad = 0) ∧
      ((float_to_int ((src.width : ℚ) * lb.scale) = dst.width ∧ lb.x_pad = 0) ∨
        (float_to_int ((src.height : ℚ) * lb.scale) = dst.height ∧ lb.y_pad = 0)) ∧
      (lb.x_pad = 0 ∨ lb.y_pad = 0) := by
  obtain ⟨hwide, htall⟩ := scaled_fills_one_axis src dst hsw hsh
  have hx : letterbox_scaled_width src dst = dst.width →
      float_to_int ((src.width : ℚ) * (letterbox_transform src dst).scale) = dst.width ∧
        (letterbox_transform src dst).x_pad = 0 := by
    intro h
    refine ⟨h, ?_⟩
    show Int.tdiv (dst.width - letterbox_scaled_width src dst) 2 = 0
    rw [h, sub_self]
    rfl
  have hy : letterbox_scaled_height src dst = dst.height →
      float_to_int ((src.height : ℚ) * (letterbox_transform src dst).scale) = dst.height ∧
        (letterbox_transform src dst).y_pad = 0 := by
    intro h
    refine ⟨h, ?_⟩
    show Int.tdiv (dst.height - letterbox_scaled_height src dst) 2 = 0
    rw [h, sub_self]
    rfl
  refine ⟨letterbox_transform src dst, convert_transform RK3588 hw src dst lb0 color,
    fun h => hx (hwide h), fun h => hy (htall h), ?_, ?_⟩
  · by_cases h : (dst.width : ℚ) / (src.width : ℚ) < (dst.height : ℚ) / (src.height : ℚ)
    · exact Or.inl (hx (hwide h))
    · exact Or.inr (hy (htall h))
  · by_cases h : (dst.width : ℚ) / (src.width : ℚ) < (dst.height : ℚ) / (src.height : ℚ)
    · exact Or.inl (hx (hwide h)).2
    · exact Or.inr (hy (htall h)).2

theorem letterbox_fills_one_axis_witness :
    ∃ lb, (convert_image_with_letterbox true failing_rga
          (some (convert_mat_to_image_buffer (uniform_frame 1920 1080 255)))
          (some (convert_mat_to_image_buffer (uniform_frame 640 640 0)))
          (some { x_pad := 0, y_pad := 0, scale := 0 }) 114).2.2 = some lb ∧
      float_to_int ((1920 : ℚ) * lb.scale) = 640 ∧ lb.x_pad = 0 := by
  obtain ⟨lb, h1, h2, _⟩ := letterbox_fills_one_axis true failing_rga
    (convert_mat_to_image_buffer (uniform_frame 1920 1080 255))
    (convert_mat_to_image_buffer (uniform_frame 640 640 0))
    { x_pad := 0, y_pad := 0, scale := 0 } 114 (by decide) (by decide) (by decide) (by decide)
  have hlt : (((convert_mat_to_image_buffer (uniform_frame 640 640 0)).width : Int) : ℚ)
        / (((convert_mat_to_image_buffer (uniform_frame 1920 1080 255)).width : Int) : ℚ)
      < (((convert_mat_to_image_buffer (uniform_frame 640 640 0)).height : Int) : ℚ)
        / (((convert_mat_to_image_buffer (uniform_frame 1920 1080 255)).height : Int) : ℚ) := by
    show ((640 : Int) : ℚ) / ((1920 : Int) : ℚ) < ((640 : Int) : ℚ) / ((1080 : Int) : ℚ)
    norm_num
  obtain ⟨h3, h4⟩ := h2 hlt
  exact ⟨lb, h1, h3, h4⟩

/-- C22: after a duplicate `init` that returns 0, with at least one output
tensor, the quantization flag is true if and only if output tensor 0 has the
quantization type affine-asymmetric and the element type UINT8, and false for
every other combination. -/
theorem child_init_quantization_flag (rt : rknn_runtime) (self : rkYolov10)
    (parent : rknn_context)
    (hok : (rkYolov10.init rt self (some parent) true).value = 0)
    (hout : 0 < (rt.rknn_query_in_out_num (rt.rknn_dup_context parent).2).2.n_output) :
    ((rkYolov10.init rt self (some parent) true).self.app_ctx.is_quant = true ↔
        ((rt.rknn_query_output_attr (rt.rknn_dup_context parent).2 0).2.qnt_type
            = rknn_tensor_qnt_type.RKNN_TENSOR_QNT_AFFINE_ASYMMETRIC ∧
          (rt.rknn_query_output_attr (rt.rknn_dup_context parent).2 0).2.type
            = rknn_tensor_type.RKNN_TENSOR_UINT8)) ∧
      ((rkYolov10.init rt self (some parent) true).self.app_ctx.is_quant = false ↔
        ¬ ((rt.rknn_query_output_attr (rt.rknn_dup_context parent).2 0).2.qnt_type
            = rknn_tensor_qnt_type.RKNN_TENSOR_QNT_AFFINE_ASYMMETRIC ∧
          (rt.rknn_query_output_attr (rt.rknn_dup_context parent).2 0).2.type
            = rknn_tensor_type.RKNN_TENSOR_UINT8)) := by
  rw [init_child_success rt self parent hok]
  obtain ⟨n, hn⟩ : ∃ n, (rt.rknn_query_in_out_num (rt.rknn_dup_context parent).2).2.n_output
      = n + 1 := ⟨_, (Nat.succ_pred_eq_of_pos hout).symm⟩
  have h0 : ((List.range (n + 1)).map
      (fun i => (rt.rknn_query_output_attr (rt.rknn_dup_context parent).2 i).2)).getD 0
        { index := 0, dims := [], fmt := rknn_tensor_format.RKNN_TENSOR_NCHW,
          type := rknn_tensor_type.RKNN_TENSOR_FLOAT32,
          qnt_type := rknn_tensor_qnt_type.RKNN_TENSOR_QNT_NONE }
      = (rt.rknn_query_output_attr (rt.rknn_dup_context parent).2 0).2 := by
    rw [List.range_succ_eq_map]
    rfl
  have hkeep : ∀ ctx : rknn_app_context_t,
      (set_model_dimensions ctx).output_attrs = ctx.output_attrs := by
    intro ctx
    simp only [set_model_dimensions]
    split_ifs <;> rfl
  by_cases hq : (rt.rknn_query_output_attr (rt.rknn_dup_context parent).2 0).2.qnt_type
        = rknn_tensor_qnt_type.RKNN_TENSOR_QNT_AFFINE_ASYMMETRIC ∧
      (rt.rknn_query_output_attr (rt.rknn_dup_context parent).2 0).2.type
        = rknn_tensor_type.RKNN_TENSOR_UINT8
  · have hflag : (set_quantization_flag (set_model_dimensions
        { self.app_ctx with
          rknn_ctx := (rt.rknn_dup_context parent).2
          io_num := (rt.rknn_query_in_out_num (rt.rknn_dup_context parent).2).2
          input_attrs :=
            (List.range (rt.rknn_query_in_out_num (rt.rknn_dup_context parent).2).2.n_input).map
              (fun i => (rt.rknn_query_input_attr (rt.rknn_dup_context parent).2 i).2)
          output_attrs :=
            (List.range (rt.rknn_query_in_out_num (rt.rknn_dup_context parent).2).2.n_output).map
              (fun i => (rt.rknn_query_output_attr (rt.rknn_dup_context parent).2 i).2) })).is_quant
        = true := by
      simp only [set_quantization_flag, hkeep, hn, h0]
      rw [if_pos hq]
    rw [hflag]
    exact ⟨⟨fun _ => hq, fun _ => rfl⟩, ⟨fun h => absurd h (by decide), fun h => absurd hq h⟩⟩
  · have hflag : (set_quantization_flag (set_model_dimensions
        { self.app_ctx with
          rknn_ctx := (rt.rknn_dup_context parent).2
          io_num := (rt.rknn_query_in_out_num (rt.rknn_dup_context parent).2).2
          input_attrs :=
            (List.range (rt.rknn_query_in_out_num (rt.rknn_dup_context parent).2).2.n_input).map
              (fun i => (rt.rknn_query_input_attr (rt.rknn_dup_context parent).2 i).2)
          output_attrs :=
            (List.range (rt.rknn_query_in_out_num (rt.rknn_dup_context parent).2).2.n_output).map
              (fun i => (rt.rknn_query_output_attr (rt.rknn_dup_context parent).2 i).2) })).is_quant
        = false := by
      simp only [set_quantization_flag, hkeep, hn, h0]
      rw [if_neg hq]
    rw [hflag]
    exact ⟨⟨fun h => absurd h (by decide), fun h => absurd h hq⟩, ⟨fun _ => hq, fun _ => rfl⟩⟩

theorem child_init_quantization_flag_witness :
    (rkYolov10.init (scripted_runtime 0 0 1 1 none none 0) fresh_context
        (some 7) true).self.app_ctx.is_quant = false :=
  (child_init_quantization_flag (scripted_runtime 0 0 1 1 none none 0) fresh_context 7
    (by decide) (by decide)).2.mpr (by decide)

end FillClaims

/-! ## The software resize: bounds and the destination it leaves -/

section SoftwareResize

open image_format_t

theorem cpu_resize_untouched (src dst : image_buffer_t) (lb : letterbox_t) (W H : Int)
    (m : Int → Int) (j : Int)
    (hj : ∀ y x : Int, 0 ≤ y → y < H → 0 ≤ x → x < W →
      (j < cpu_dst_idx dst lb y x ∨ cpu_dst_idx dst lb y x + 3 ≤ j)) :
    cpu_resize src dst lb W H m j = m j := by
  unfold cpu_resize
  apply foldl_untouched
  intro a ha m'
  rw [List.mem_range] at ha
  exact cpu_copy_row_untouched src dst lb W a m' j
    (fun x hx hxW => hj a x (by omega) (by omega) hx hxW)

theorem letterbox_scale_pos (src dst : image_buffer_t) (hsw : 0 < src.width)
    (hsh : 0 < src.height) (hdw : 0 < dst.width) (hdh : 0 < dst.height) :
    0 < letterbox_scale src dst := by
  rw [letterbox_scale_eq_min]
  have h1 : (0 : ℚ) < (src.width : ℚ) := by exact_mod_cast hsw
  have h2 : (0 : ℚ) < (src.height : ℚ) := by exact_mod_cast hsh
  have h3 : (0 : ℚ) < (dst.width : ℚ) := by exact_mod_cast hdw
  have h4 : (0 : ℚ) < (dst.height : ℚ) := by exact_mod_cast hdh
  exact lt_min (div_pos h3 h1) (div_pos h4 h2)

/-- For a positive scale and a column (or row) `x >= 0` the truncation
`(int)(x / scale)` is the floor of `x / scale`. -/
theorem cpu_src_coord_eq_floor (scale : ℚ) (x : Int) (hs : 0 < scale) (hx : 0 ≤ x) :
    cpu_src_coord scale x = ⌊(x : ℚ) / scale⌋ := by
  unfold cpu_src_coord float_to_int
  have h : (0 : ℚ) ≤ (x : ℚ) / scale := div_nonneg (by exact_mod_cast hx) hs.le
  rw [if_pos h]

/-- A destination column (or row) below the scaled size is read from a source
column (or row) inside the source: `0 <= (int)(x / scale) < n` when
`0 <= x < (int)(n * scale)`. -/
theorem cpu_src_coord_bounds (scale : ℚ) (n x : Int) (hs : 0 < scale) (hx : 0 ≤ x)
    (hlt : x < float_to_int ((n : ℚ) * scale)) :
    0 ≤ cpu_src_coord scale x ∧ cpu_src_coord scale x < n := by
  rw [cpu_src_coord_eq_floor scale x hs hx]
  have hxq : (0 : ℚ) ≤ (x : ℚ) := by exact_mod_cast hx
  constructor
  · exact Int.floor_nonneg.mpr (div_nonneg hxq hs.le)
  · rw [Int.floor_lt]
    have hpos : (0 : ℚ) ≤ (n : ℚ) * scale := by
      by_contra hneg
      unfold float_to_int at hlt
      rw [if_neg hneg] at hlt
      have hc : ⌈(n : ℚ) * scale⌉ ≤ 0 := Int.ceil_le.mpr (by push_cast; exact (not_le.mp hneg).le)
      omega
    unfold float_to_int at hlt
    rw [if_pos hpos] at hlt
    have h1 : x + 1 ≤ ⌊(n : ℚ) * scale⌋ := hlt
    have h2 : ((x + 1 : Int) : ℚ) ≤ (n : ℚ) * scale := Int.le_floor.mp h1
    have h3 : (x : ℚ) < (n : ℚ) * scale := by
      have : ((x + 1 : Int) : ℚ) = (x : ℚ) + 1 := by push_cast; ring
      rw [this] at h2
      linarith
    exact (div_lt_iff₀ hs).mpr h3

/-- The three bytes of pixel `(col, row)` of an image of `W` by `H` pixels lie
in its buffer of `W * H * 3` bytes. -/
theorem pixel_index_bounds (W H row col c : Int) (hrow : 0 ≤ row ∧ row < H)
    (hcol : 0 ≤ col ∧ col < W) (hc : 0 ≤ c ∧ c < 3) :
    0 ≤ (row * W + col) * 3 + c ∧ (row * W + col) * 3 + c < W * H * 3 := by
  have hW : 0 ≤ W := by omega
  have h1 : 0 ≤ row * W := mul_nonneg hrow.1 hW
  have h2 : (row + 1) * W ≤ H * W := mul_le_mul_of_nonneg_right (by omega) hW
  have h3 : (row + 1) * W = row * W + W := by ring
  have h4 : W * H = H * W := mul_comm W H
  constructor
  · omega
  · rw [h4]; omega

end SoftwareResize

section SoftwareResizeClaims

open image_format_t

/-- C23: for positive source and destination dimensions and RGB888 buffers of
width*height*3 bytes, every index that the software path uses stays inside
its buffer: for 0 <= x < scaled_width, 0 <= y < scaled_height and c in
{0, 1, 2}, the source index (src_y*src_width + src_x)*3 + c that is read and
the destination index ((y + y_pad)*dst_width + (x + x_pad))*3 + c that is
written are non-negative and below the respective buffer size. -/
theorem software_resize_in_bounds (src dst : image_buffer_t)
    (hsw : 0 < src.width) (hsh : 0 < src.height) (hdw : 0 < dst.width) (hdh : 0 < dst.height)
    (hssize : src.size = src.width * src.height * 3)
    (hdsize : dst.size = dst.width * dst.height * 3)
    (x y c : Int) (hx : 0 ≤ x ∧ x < letterbox_scaled_width src dst)
    (hy : 0 ≤ y ∧ y < letterbox_scaled_height src dst) (hc : 0 ≤ c ∧ c < 3) :
    cpu_src_idx src (cpu_src_coord (letterbox_transform src dst).scale y)
          (cpu_src_coord (letterbox_transform src dst).scale x)
        = (cpu_src_coord (letterbox_scale src dst) y * src.width
            + cpu_src_coord (letterbox_scale src dst) x) * 3 ∧
      cpu_dst_idx dst (letterbox_transform src dst) y x
        = ((y + (letterbox_transform src dst).y_pad) * dst.width
            + (x + (letterbox_transform src dst).x_pad)) * 3 ∧
      0 ≤ cpu_src_idx src (cpu_src_coord (letterbox_transform src dst).scale y)
          (cpu_src_coord (letterbox_transform src dst).scale x) + c ∧
      cpu_src_idx src (cpu_src_coord (letterbox_transform src dst).scale y)
          (cpu_src_coord (letterbox_transform src dst).scale x) + c < src.size ∧
      0 ≤ cpu_dst_idx dst (letterbox_transform src dst) y x + c ∧
      cpu_dst_idx dst (letterbox_transform src dst) y x + c < dst.size := by
  have hs := letterbox_scale_pos src dst hsw hsh hdw hdh
  have hsx := cpu_src_coord_bounds (letterbox_scale src dst) src.width x hs hx.1 hx.2
  have hsy := cpu_src_coord_bounds (letterbox_scale src dst) src.height y hs hy.1 hy.2
  have hW := scaled_width_le src dst hsw
  have hH := scaled_height_le src dst hsh
  have hpx := tdiv_two_spec (dst.width - letterbox_scaled_width src dst) (sub_nonneg.mpr hW)
  have hpy := tdiv_two_spec (dst.height - letterbox_scaled_height src dst) (sub_nonneg.mpr hH)
  have hsrc := pixel_index_bounds src.width src.height
    (cpu_src_coord (letterbox_scale src dst) y) (cpu_src_coord (letterbox_scale src dst) x) c
    hsy hsx hc
  have hdst := pixel_index_bounds dst.width dst.height
    (y + Int.tdiv (dst.height - letterbox_scaled_height src dst) 2)
    (x + Int.tdiv (dst.width - letterbox_scaled_width src dst) 2) c
    (by omega) (by omega) hc
  rw [hssize, hdsize]
  exact ⟨rfl, rfl, hsrc.1, hsrc.2, hdst.1, hdst.2⟩

theorem software_resize_in_bounds_witness :
    0 ≤ cpu_dst_idx (convert_mat_to_image_buffer (uniform_frame 640 640 0))
        (letterbox_transform (convert_mat_to_image_buffer (uniform_frame 1920 1080 255))
          (convert_mat_to_image_buffer (uniform_frame 640 640 0))) 359 639 + 2 ∧
      cpu_dst_idx (convert_mat_to_image_buffer (uniform_frame 640 640 0))
        (letterbox_transform (convert_mat_to_image_buffer (uniform_frame 1920 1080 255))
          (convert_mat_to_image_buffer (uniform_frame 640 640 0))) 359 639 + 2
        < (convert_mat_to_image_buffer (uniform_frame 640 640 0)).size := by
  have hg := geometry_1080p (convert_mat_to_image_buffer (uniform_frame 1920 1080 255))
    (convert_mat_to_image_buffer (uniform_frame 640 640 0)) rfl rfl rfl rfl
  have h := software_resize_in_bounds
    (convert_mat_to_image_buffer (uniform_frame 1920 1080 255))
    (convert_mat_to_image_buffer (uniform_frame 640 640 0))
    (by decide) (by decide) (by decide) (by decide) rfl rfl 639 359 2
    (by rw [hg.2.1]; decide) (by rw [hg.2.2.1]; decide) (by decide)
  exact ⟨h.2.2.2.2.1, h.2.2.2.2.2⟩

end SoftwareResizeClaims

/-! ## The pipeline of `main`: how often `get` is called -/

section PipelineLemmas

theorem count_gets_append (a b : List MainAction) :
    count_gets (a ++ b) = count_gets a + count_gets b := by
  unfold count_gets
  exact List.countP_append _ _ _

/-- One iteration of the main loop over a video file in which the user does
not quit: a failing read leaves the loop; a frame that is empty or whose `put`
fails is not counted and no `get` is made; a frame submitted with success is
counted, and `get` is called for it exactly when `frames >= threadNum`. -/
theorem main_loop_body_video (cv : OpenCV) (threadNum frames : Int) (inp : LoopInput)
    (hkey : ¬ (inp.key = 113 ∨ inp.key = 27)) :
    (inp.read = none →
      (main_loop_body cv false threadNum frames inp).leave = true ∧
        (main_loop_body cv false threadNum frames inp).frames = frames ∧
        count_gets (main_loop_body cv false threadNum frames inp).actions = 0) ∧
      (∀ img, inp.read = some img → ¬ (cv.empty img = false ∧ inp.put_status = 0) →
        (main_loop_body cv false threadNum frames inp).leave = false ∧
          (main_loop_body cv false threadNum frames inp).frames = frames ∧
          count_gets (main_loop_body cv false threadNum frames inp).actions = 0) ∧
      (∀ img, inp.read = some img → cv.empty img = false ∧ inp.put_status = 0 →
        (main_loop_body cv false threadNum frames inp).leave = false ∧
          (main_loop_body cv false threadNum frames inp).frames = frames + 1 ∧
          count_gets (main_loop_body cv false threadNum frames inp).actions
            = if frames ≥ threadNum then 1 else 0) := by
  refine ⟨?_, ?_, ?_⟩
  · intro hread
    have hbody : main_loop_body cv false threadNum frames inp
        = { leave := true, frames := frames, actions := [MainAction.capture_read] } := by
      simp only [main_loop_body, hread, Bool.false_eq_true, if_false]
    rw [hbody]
    exact ⟨rfl, rfl, rfl⟩
  · intro img hread hnot
    by_cases hempty : cv.empty img = true
    · have hbody : main_loop_body cv false threadNum frames inp
          = { leave := false, frames := frames, actions := [MainAction.capture_read] } := by
        simp only [main_loop_body, hread, hempty, if_true]
      rw [hbody]
      exact ⟨rfl, rfl, rfl⟩
    · have hempty2 : cv.empty img = false := by
        cases h : cv.empty img
        · rfl
        · exact absurd h hempty
      have hput : inp.put_status ≠ 0 := fun h => hnot ⟨hempty2, h⟩
      have hbody : main_loop_body cv false threadNum frames inp
          = { leave := false, frames := frames,
              actions := [MainAction.capture_read, MainAction.put (prepare_frame cv img),
                          MainAction.wait_key 10] } := by
        simp only [main_loop_body, hread, hempty2, Bool.false_eq_true, if_false, ne_eq, hput,
          not_false_eq_true, if_true]
      rw [hbody]
      exact ⟨rfl, rfl, rfl⟩
  · intro img hread hok
    obtain ⟨hempty, hput⟩ := hok
    have hl : (main_loop_body cv false threadNum frames inp).leave = false := by
      simp only [main_loop_body, hread, hempty, Bool.false_eq_true, if_false, ne_eq, hput,
        not_true_eq_false, if_neg hkey]
    have hfr : (main_loop_body cv false threadNum frames inp).frames = frames + 1 := by
      simp only [main_loop_body, hread, hempty, Bool.false_eq_true, if_false, ne_eq, hput,
        not_true_eq_false, if_neg hkey]
    have hacts : count_gets (main_loop_body cv false threadNum frames inp).actions
        = if frames ≥ threadNum then 1 else 0 := by
      simp only [main_loop_body, hread, hempty, Bool.false_eq_true, if_false, ne_eq, hput,
        not_true_eq_false, if_neg hkey]
      by_cases hf : frames ≥ threadNum
      · simp only [if_pos hf]
        rfl
      · simp only [if_neg hf]
        rfl
    exact ⟨hl, hfr, hacts⟩

/-- The main loop over a video file in which the user does not quit, started
with the counter `frames` at `f >= 0`: it ends, it counts the frames submitted
with success, and it calls `get` once for each of them that is submitted when
the counter has reached `threadNum`. -/
theorem main_loop_video_gets (cv : OpenCV) (threadNum : Int) (loop : List LoopInput)
    (hkeys : ∀ inp ∈ loop, ¬ (inp.key = 113 ∨ inp.key = 27)) (f : Int) :
    (main_loop cv false threadNum loop f).finished = true ∧
      (main_loop cv false threadNum loop f).frames = f + (successful_puts cv loop : Int) ∧
      (count_gets (main_loop cv false threadNum loop f).actions : Int)
        = max (f + (successful_puts cv loop : Int)) threadNum - max f threadNum := by
  induction loop generalizing f with
  | nil =>
    have h : main_loop cv false threadNum [] f
        = { finished := true, frames := f, actions := [MainAction.capture_read] } := by
      simp only [main_loop, Bool.false_eq_true, if_false]
    rw [h]
    refine ⟨rfl, ?_, ?_⟩
    · simp [successful_puts]
    · have hc : count_gets [MainAction.capture_read] = 0 := rfl
      simp [successful_puts, hc]
  | cons inp rest ih =>
    have hkey := hkeys inp (List.mem_cons_self inp rest)
    have hrest : ∀ i ∈ rest, ¬ (i.key = 113 ∨ i.key = 27) :=
      fun i hi => hkeys i (List.mem_cons_of_mem inp hi)
    obtain ⟨hnone, hskip, hok⟩ := main_loop_body_video cv threadNum f inp hkey
    cases hread : inp.read with
    | none =>
      obtain ⟨hl, hfr, hc⟩ := hnone hread
      have hP : successful_puts cv (inp :: rest) = 0 := by
        simp only [successful_puts, hread]
      have h : main_loop cv false threadNum (inp :: rest) f
          = { finished := true, frames := (main_loop_body cv false threadNum f inp).frames,
              actions := (main_loop_body cv false threadNum f inp).actions } := by
        simp only [main_loop, hl, if_true]
      rw [h, hP]
      refine ⟨rfl, ?_, ?_⟩
      · simp [hfr]
      · simp [hc]
    | some img =>
      by_cases hq : cv.empty img = false ∧ inp.put_status = 0
      · obtain ⟨hl, hfr, hc⟩ := hok img hread hq
        obtain ⟨ih1, ih2, ih3⟩ := ih hrest (f + 1)
        have hP : successful_puts cv (inp :: rest) = successful_puts cv rest + 1 := by
          simp only [successful_puts, hread]
          rw [if_pos hq]
        have h : main_loop cv false threadNum (inp :: rest) f
            = { finished := (main_loop cv false threadNum rest (f + 1)).finished,
                frames := (main_loop cv false threadNum rest (f + 1)).frames,
                actions := (main_loop_body cv false threadNum f inp).actions
                  ++ (main_loop cv false threadNum rest (f + 1)).actions } := by
          simp only [main_loop, hl, Bool.false_eq_true, if_false, hfr]
        rw [h, hP]
        refine ⟨ih1, ?_, ?_⟩
        · show (main_loop cv false threadNum rest (f + 1)).frames = _
          rw [ih2]
          push_cast
          ring
        · show (count_gets ((main_loop_body cv false threadNum f inp).actions
              ++ (main_loop cv false threadNum rest (f + 1)).actions) : Int) = _
          rw [count_gets_append, hc]
          push_cast
          rw [ih3]
          by_cases hf : f ≥ threadNum
          · rw [if_pos hf]
            simp only [max_def]
            split_ifs <;> omega
          · rw [if_neg hf]
            simp only [max_def]
            split_ifs <;> omega
      · obtain ⟨hl, hfr, hc⟩ := hskip img hread hq
        obtain ⟨ih1, ih2, ih3⟩ := ih hrest f
        have hP : successful_puts cv (inp :: rest) = successful_puts cv rest := by
          simp only [successful_puts, hread]
          rw [if_neg hq]
        have h : main_loop cv false threadNum (inp :: rest) f
            = { finished := (main_loop cv false threadNum rest f).finished,
                frames := (main_loop cv false threadNum rest f).frames,
                actions := (main_loop_body cv false threadNum f inp).actions
                  ++ (main_loop cv false threadNum rest f).actions } := by
          simp only [main_loop, hl, Bool.false_eq_true, if_false, hfr]
        rw [h, hP]
        refine ⟨ih1, ih2, ?_⟩
        show (count_gets ((main_loop_body cv false threadNum f inp).actions
            ++ (main_loop cv false threadNum rest f).actions) : Int) = _
        rw [count_gets_append, hc, ih3.symm]
        simp

/-- The drain loop in which the user does not quit calls `get` once in each of
its iterations, whatever `get` returns. -/
theorem drain_loop_gets (cv : OpenCV) (drain : Nat → DrainInput)
    (hkeys : ∀ i, (drain i).key ≠ 113) (fuel remaining_frames : Nat) (frames : Int) :
    count_gets (drain_loop cv drain fuel remaining_frames frames).actions = fuel := by
  induction fuel generalizing remaining_frames frames with
  | zero => rfl
  | succ n ih =>
    by_cases hget : (drain remaining_frames).get_status ≠ 0
    · have h : (drain_loop cv drain (n + 1) remaining_frames frames).actions
          = MainAction.get :: (drain_loop cv drain n (remaining_frames + 1) frames).actions := by
        simp only [drain_loop, if_pos hget]
      rw [h]
      have hc : ∀ l, count_gets (MainAction.get :: l) = count_gets l + 1 := fun l => by
        unfold count_gets
        rw [List.countP_cons_of_pos]
        rfl
      rw [hc, ih]
    · by_cases hempty : cv.empty (drain remaining_frames).get_result = false
      · have h : (drain_loop cv drain (n + 1) remaining_frames frames).actions
            = [MainAction.get, MainAction.imshow (drain remaining_frames).get_result,
                MainAction.wait_key 1]
              ++ (drain_loop cv drain n (remaining_frames + 1) (frames + 1)).actions := by
          simp only [drain_loop, if_neg hget, if_pos hempty, if_neg (hkeys remaining_frames)]
        rw [h, count_gets_append, ih]
        have hc : count_gets [MainAction.get, MainAction.imshow (drain remaining_frames).get_result,
            MainAction.wait_key 1] = 1 := rfl
        rw [hc]
        omega
      · have h : (drain_loop cv drain (n + 1) remaining_frames frames).actions
            = MainAction.get :: (drain_loop cv drain n (remaining_frames + 1) frames).actions := by
          simp only [drain_loop, if_neg hget, if_neg hempty]
        rw [h]
        have hc : ∀ l, count_gets (MainAction.get :: l) = count_gets l + 1 := fun l => by
          unfold count_gets
          rw [List.countP_cons_of_pos]
          rfl
        rw [hc, ih]

end PipelineLemmas

section PipelineClaims

/-- C25, as amended: for every run of `main` over a video file with
threadNum >= 1 in which the source ends after P frames were put with success
and the user does not quit, `main` returns 0, the main loop calls `get` P minus
threadNum times (none while P <= threadNum), the drain loop calls `get`
threadNum times, and the total number of `get` calls is the larger of P and
threadNum: it equals P when P >= threadNum and exceeds P when P < threadNum. -/
theorem main_get_calls (env : MainEnv) (cv : OpenCV) (argv : List (List Char))
    (cmd : CommandLine) (test_frame : Mat)
    (hcmd : parse_command_line argv = some cmd) (hvideo : cmd.is_webcam = false)
    (hpool : env.pool_init = 0) (hopen : env.capture_open = true)
    (hopened : env.capture_isOpened = true)
    (hfirst : env.first_frame = some test_frame) (hframe : cv.empty test_frame = false)
    (hthreads : 1 ≤ main_threadNum env cmd.total_instances)
    (hloop : ∀ inp ∈ env.loop, ¬ (inp.key = 113 ∨ inp.key = 27))
    (hdrain : ∀ i, (env.drain i).key ≠ 113) :
    (main env cv argv).value = some 0 ∧
      count_gets (main_loop cv false (main_threadNum env cmd.total_instances) env.loop 0).actions
        = successful_puts cv env.loop - (main_threadNum env cmd.total_instances).toNat ∧
      count_gets (drain_loop cv env.drain (main_threadNum env cmd.total_instances).toNat 0
          (main_loop cv false (main_threadNum env cmd.total_instances) env.loop 0).frames).actions
        = (main_threadNum env cmd.total_instances).toNat ∧
      count_gets (main env cv argv).actions
        = max (successful_puts cv env.loop) (main_threadNum env cmd.total_instances).toNat ∧
      (main_threadNum env cmd.total_instances ≤ (successful_puts cv env.loop : Int) →
        count_gets (main env cv argv).actions = successful_puts cv env.loop) ∧
      ((successful_puts cv env.loop : Int) < main_threadNum env cmd.total_instances →
        successful_puts cv env.loop < count_gets (main env cv argv).actions) := by
  obtain ⟨hfin, _, hgets⟩ :=
    main_loop_video_gets cv (main_threadNum env cmd.total_instances) env.loop hloop 0
  have hd := drain_loop_gets cv env.drain hdrain (main_threadNum env cmd.total_instances).toNat 0
    (main_loop cv false (main_threadNum env cmd.total_instances) env.loop 0).frames
  have hmain : main env cv argv
      = { value := some 0
          actions := [MainAction.pool_create cmd.model_name
                        (main_threadNum env cmd.total_instances), MainAction.pool_init]
            ++ [MainAction.capture_open_file cmd.input_source]
            ++ [MainAction.named_window, MainAction.capture_read]
            ++ (main_loop cv false (main_threadNum env cmd.total_instances) env.loop 0).actions
            ++ (drain_loop cv env.drain (main_threadNum env cmd.total_instances).toNat 0
                (main_loop cv false (main_threadNum env cmd.total_instances) env.loop
                  0).frames).actions
            ++ [MainAction.capture_release, MainAction.destroy_all_windows] } := by
    simp only [main, hcmd, ne_eq, hpool, not_true_eq_false, if_false, hopen, hopened,
      Bool.true_eq_false, hfirst, hframe, Bool.false_eq_true, hvideo, hfin]
  have hsetup : count_gets ([MainAction.pool_create cmd.model_name
        (main_threadNum env cmd.total_instances), MainAction.pool_init]
      ++ [MainAction.capture_open_file cmd.input_source]
      ++ [MainAction.named_window, MainAction.capture_read]) = 0 := rfl
  have hclose : count_gets [MainAction.capture_release, MainAction.destroy_all_windows] = 0 :=
    rfl
  have htotal : count_gets (main env cv argv).actions
      = count_gets (main_loop cv false (main_threadNum env cmd.total_instances)
          env.loop 0).actions + (main_threadNum env cmd.total_instances).toNat := by
    rw [hmain]
    simp only [count_gets_append, hsetup, hclose, hd]
    omega
  have hT : ((main_threadNum env cmd.total_instances).toNat : Int)
      = main_threadNum env cmd.total_instances := Int.toNat_of_nonneg (by omega)
  have hloopgets : count_gets (main_loop cv false (main_threadNum env cmd.total_instances)
        env.loop 0).actions
      = successful_puts cv env.loop - (main_threadNum env cmd.total_instances).toNat := by
    simp only [max_def] at hgets
    split_ifs at hgets <;> omega
  refine ⟨by rw [hmain], hloopgets, hd, ?_, ?_, ?_⟩
  · rw [htotal, hloopgets]
    simp only [max_def]
    split_ifs <;> omega
  · intro h
    rw [htotal, hloopgets]
    omega
  · intro h
    rw [htotal, hloopgets]
    omega

theorem main_get_calls_witness :
    count_gets (main (scripted_env 0
        [{ read := some (uniform_frame 640 480 9), put_status := 0, get_status := 0,
           get_result := uniform_frame 640 480 9, key := 0 },
         { read := some (uniform_frame 640 480 8), put_status := 0, get_status := 0,
           get_result := uniform_frame 640 480 9, key := 0 }])
        plain_opencv [['a'], ['m'], ['v'], ['4']]).actions = 2 :=
  (main_get_calls (scripted_env 0
      [{ read := some (uniform_frame 640 480 9), put_status := 0, get_status := 0,
         get_result := uniform_frame 640 480 9, key := 0 },
       { read := some (uniform_frame 640 480 8), put_status := 0, get_status := 0,
         get_result := uniform_frame 640 480 9, key := 0 }])
    plain_opencv [['a'], ['m'], ['v'], ['4']]
    { model_name := ['m'], input_source := ['v'], is_webcam := false, webcam_id := 0,
      total_instances := 4 } (uniform_frame 640 480 0)
    (by decide) rfl rfl rfl rfl rfl (by decide) (by decide)
    (by
      intro inp hinp
      simp only [scripted_env, List.mem_cons, List.mem_singleton, List.not_mem_nil,
        or_false] at hinp
      rcases hinp with h | h <;> subst h <;> decide)
    (fun _ => by
      show (0 : Int) ≠ 113
      decide)).2.2.2.2.1 (by decide)

/-- C25, as stated, fails: a video file of one frame played with 6 threads, the
user not quitting. One frame is put with success, so P = 1; the main loop calls
`get` for no frame, since `frames` is 0 and below threadNum when the frame is
submitted, and the drain loop calls `get` 6 times. The total number of `get`
calls is 6, not P = 1. -/
theorem main_short_video_surplus_gets :
    main_threadNum (scripted_env 0
        [{ read := some (uniform_frame 640 480 9), put_status := 0, get_status := 0,
           get_result := uniform_frame 640 480 9, key := 0 }]) 1 = 6 ∧
      successful_puts plain_opencv
        [{ read := some (uniform_frame 640 480 9), put_status := 0, get_status := 0,
           get_result := uniform_frame 640 480 9, key := 0 }] = 1 ∧
      main (scripted_env 0
          [{ read := some (uniform_frame 640 480 9), put_status := 0, get_status := 0,
             get_result := uniform_frame 640 480 9, key := 0 }])
          plain_opencv [['a'], ['m'], ['v']]
        = { value := some 0
            actions := [MainAction.pool_create ['m'] 6, MainAction.pool_init,
              MainAction.capture_open_file ['v'], MainAction.named_window,
              MainAction.capture_read,
              MainAction.capture_read, MainAction.put (uniform_frame 640 480 9),
              MainAction.imshow (uniform_frame 640 480 9), MainAction.wait_key 1,
              MainAction.capture_read,
              MainAction.get, MainAction.get, MainAction.get, MainAction.get, MainAction.get,
              MainAction.get,
              MainAction.capture_release, MainAction.destroy_all_windows] } ∧
      count_gets (main (scripted_env 0
          [{ read := some (uniform_frame 640 480 9), put_status := 0, get_status := 0,
             get_result := uniform_frame 640 480 9, key := 0 }])
          plain_opencv [['a'], ['m'], ['v']]).actions = 6 ∧
      count_gets (main (scripted_env 0
          [{ read := some (uniform_frame 640 480 9), put_status := 0, get_status := 0,
             get_result := uniform_frame 640 480 9, key := 0 }])
          plain_opencv [['a'], ['m'], ['v']]).actions
        ≠ successful_puts plain_opencv
            [{ read := some (uniform_frame 640 480 9), put_status := 0, get_status := 0,
               get_result := uniform_frame 640 480 9, key := 0 }] := by
  have hmain : main (scripted_env 0
        [{ read := some (uniform_frame 640 480 9), put_status := 0, get_status := 0,
           get_result := uniform_frame 640 480 9, key := 0 }])
        plain_opencv [['a'], ['m'], ['v']]
      = { value := some 0
          actions := [MainAction.pool_create ['m'] 6, MainAction.pool_init,
            MainAction.capture_open_file ['v'], MainAction.named_window,
            MainAction.capture_read,
            MainAction.capture_read, MainAction.put (uniform_frame 640 480 9),
            MainAction.imshow (uniform_frame 640 480 9), MainAction.wait_key 1,
            MainAction.capture_read,
            MainAction.get, MainAction.get, MainAction.get, MainAction.get, MainAction.get,
            MainAction.get,
            MainAction.capture_release, MainAction.destroy_all_windows] } := by
    have hcmd : parse_command_line [['a'], ['m'], ['v']]
        = some { model_name := ['m'], input_source := ['v'], is_webcam := false,
                 webcam_id := 0, total_instances := 1 } := by decide
    simp only [main, hcmd]
    rfl
  refine ⟨by decide, by decide, hmain, ?_, ?_⟩
  · rw [hmain]
    rfl
  · rw [hmain]
    decide

end PipelineClaims

/-! ## The software resize in single precision -/

section SinglePrecision

open image_format_t

/-- A rational less than one half away from an integer rounds to it. -/
theorem round_half_even_eq (q : ℚ) (m : Int) (h : |q - (m : ℚ)| < 1 / 2) :
    round_half_even q = m := by
  rw [abs_lt] at h
  obtain ⟨h1, h2⟩ := h
  unfold round_half_even
  by_cases hq : (m : ℚ) ≤ q
  · have hf : ⌊q⌋ = m := by
      rw [Int.floor_eq_iff]
      constructor
      · exact hq
      · linarith
    rw [hf, if_pos (by linarith)]
  · have hf : ⌊q⌋ = m - 1 := by
      rw [Int.floor_eq_iff]
      push_cast
      constructor
      · linarith
      · linarith
    have hq2 : q < (m : ℚ) := not_le.mp hq
    rw [hf]
    push_cast
    rw [if_neg (by linarith), if_pos (by linarith)]
    ring

theorem float_exponent_eq (q : ℚ) (e : Int) (he : -126 ≤ e) (hlo : (2 : ℚ) ^ e ≤ |q|)
    (hhi : |q| < (2 : ℚ) ^ (e + 1)) : float_exponent q = e := by
  have hpos : 0 < |q| := lt_of_lt_of_le (zpow_pos (by norm_num) e) hlo
  have hlo2 : ((2 : ℕ) : ℚ) ^ e ≤ |q| := by exact_mod_cast hlo
  have hhi2 : |q| < ((2 : ℕ) : ℚ) ^ (e + 1) := by exact_mod_cast hhi
  have h1 : e ≤ Int.log 2 |q| := (Int.zpow_le_iff_le_log (by norm_num) hpos).mp hlo2
  have h2 : Int.log 2 |q| < e + 1 := (Int.lt_zpow_iff_log_lt (by norm_num) hpos).mp hhi2
  unfold float_exponent
  rw [max_eq_left (by omega)]
  omega

/-- The float nearest to `q` is `m * 2^(e-23)` when `2^e <= |q| < 2^(e+1)` and
`q / 2^(e-23)` is less than one half away from the integer `m`. -/
theorem float_round_eq (q : ℚ) (e m : Int) (he : -126 ≤ e) (hlo : (2 : ℚ) ^ e ≤ |q|)
    (hhi : |q| < (2 : ℚ) ^ (e + 1))
    (hm : |q / (2 : ℚ) ^ (e - 23) - (m : ℚ)| < 1 / 2) :
    float_round q = (m : ℚ) * (2 : ℚ) ^ (e - 23) := by
  unfold float_round
  rw [float_exponent_eq q e he hlo hhi, round_half_even_eq _ m hm]

theorem float_round_zero : float_round 0 = 0 := by
  unfold float_round
  rw [zero_div, round_half_even_eq 0 0 (by norm_num)]
  norm_num

theorem cpu_copy_pixel_float_written (src dst : image_buffer_t) (lb : letterbox_t) (y x : Int)
    (m : Int → Int) (c : Int) (hc0 : 0 ≤ c) (hc3 : c < 3) :
    cpu_copy_pixel_float src dst lb y x m (cpu_dst_idx dst lb y x + c)
      = src.virt_addr (cpu_src_idx src (cpu_src_coord_float lb.scale y)
          (cpu_src_coord_float lb.scale x) + c) := by
  unfold cpu_copy_pixel_float store
  have hc : c = 0 ∨ c = 1 ∨ c = 2 := by omega
  rcases hc with h | h | h <;> subst h <;> simp

theorem cpu_copy_pixel_float_untouched (src dst : image_buffer_t) (lb : letterbox_t)
    (y x : Int) (m : Int → Int) (j : Int)
    (hj : j < cpu_dst_idx dst lb y x ∨ cpu_dst_idx dst lb y x + 3 ≤ j) :
    cpu_copy_pixel_float src dst lb y x m j = m j := by
  unfold cpu_copy_pixel_float store
  have h0 : j ≠ cpu_dst_idx dst lb y x := by omega
  have h1 : j ≠ cpu_dst_idx dst lb y x + 1 := by omega
  have h2 : j ≠ cpu_dst_idx dst lb y x + 2 := by omega
  simp [h0, h1, h2]

theorem cpu_copy_row_float_written (src dst : image_buffer_t) (lb : letterbox_t) (W y : Int)
    (m : Int → Int) (x0 c : Int) (hx0 : 0 ≤ x0 ∧ x0 < W) (hc0 : 0 ≤ c) (hc3 : c < 3) :
    cpu_copy_row_float src dst lb W y m (cpu_dst_idx dst lb y x0 + c)
      = src.virt_addr (cpu_src_idx src (cpu_src_coord_float lb.scale y)
          (cpu_src_coord_float lb.scale x0) + c) := by
  unfold cpu_copy_row_float
  apply foldl_written _ _ _ x0.toNat
  · rw [List.mem_range]; omega
  · intro m'
    have hcast : ((x0.toNat : Nat) : Int) = x0 := Int.toNat_of_nonneg hx0.1
    simp only [hcast]
    exact cpu_copy_pixel_float_written src dst lb y x0 m' c hc0 hc3
  · intro a _ hne m'
    apply cpu_copy_pixel_float_untouched
    apply cpu_dst_idx_row_inj dst lb y a x0 c hc0 hc3
    intro h
    apply hne
    omega

theorem cpu_copy_row_float_untouched (src dst : image_buffer_t) (lb : letterbox_t)
    (W y : Int) (m : Int → Int) (j : Int)
    (hj : ∀ x : Int, 0 ≤ x → x < W →
      (j < cpu_dst_idx dst lb y x ∨ cpu_dst_idx dst lb y x + 3 ≤ j)) :
    cpu_copy_row_float src dst lb W y m j = m j := by
  unfold cpu_copy_row_float
  apply foldl_untouched
  intro a ha m'
  rw [List.mem_range] at ha
  exact cpu_copy_pixel_float_untouched src dst lb y a m' j (hj a (by omega) (by omega))

/-- After the software resize in single precision, the destination pixel
written for `(x0, y0)` holds the three bytes of the source pixel whose column
and row are the truncated single-precision quotients of `x0` and `y0` by the
scale, provided the columns written stay inside the destination width. -/
theorem cpu_resize_float_written (src dst : image_buffer_t) (lb : letterbox_t) (W H : Int)
    (m : Int → Int) (y0 x0 c : Int) (hy0 : 0 ≤ y0 ∧ y0 < H) (hx0 : 0 ≤ x0 ∧ x0 < W)
    (hc0 : 0 ≤ c) (hc3 : c < 3) (hpad : 0 ≤ lb.x_pad) (hfit : lb.x_pad + W ≤ dst.width) :
    cpu_resize_float src dst lb W H m (cpu_dst_idx dst lb y0 x0 + c)
      = src.virt_addr (cpu_src_idx src (cpu_src_coord_float lb.scale y0)
          (cpu_src_coord_float lb.scale x0) + c) := by
  unfold cpu_resize_float
  apply foldl_written _ _ _ y0.toNat
  · rw [List.mem_range]; omega
  · intro m'
    have hcast : ((y0.toNat : Nat) : Int) = y0 := Int.toNat_of_nonneg hy0.1
    simp only [hcast]
    exact cpu_copy_row_float_written src dst lb W y0 m' x0 c hx0 hc0 hc3
  · intro a _ hne m'
    apply cpu_copy_row_float_untouched
    intro x hx hxW
    apply cpu_dst_idx_col_inj dst lb a y0 x x0 c hc0 hc3
    · intro h
      apply hne
      omega
    · omega
    · omega

/-- In single precision too, when `rga_resize` fails and both images are
RGB888, the function returns 0 and the destination bytes are those left by the
software resize. -/
theorem convert_float_software_path (RK3588 : Bool) (hw : im2d) (src dst : image_buffer_t)
    (lb0 : letterbox_t) (color : Int)
    (hsrc : src.format = IMAGE_FORMAT_RGB888) (hdst : dst.format = IMAGE_FORMAT_RGB888)
    (hfail : (rga_resize RK3588 hw (some src)
      (some { dst with virt_addr := memset dst.virt_addr color dst.size })
      (some (letterbox_src_rect src)) (some (letterbox_dst_rect_float src dst))).1 ≠ 0) :
    ∃ mem, (rga_resize RK3588 hw (some src)
          (some { dst with virt_addr := memset dst.virt_addr color dst.size })
          (some (letterbox_src_rect src)) (some (letterbox_dst_rect_float src dst))).2
        = some { dst with virt_addr := mem } ∧
      convert_image_with_letterbox_float RK3588 hw (some src) (some dst) (some lb0) color
        = (0, some { dst with
                     virt_addr := cpu_resize_float src { dst with virt_addr := mem }
                       (letterbox_transform_float src dst)
                       (letterbox_scaled_width_float src dst)
                       (letterbox_scaled_height_float src dst) mem },
            some (letterbox_transform_float src dst)) := by
  obtain ⟨mem, hmem⟩ := rga_resize_dst RK3588 hw (some src)
    { dst with virt_addr := memset dst.virt_addr color dst.size }
    (some (letterbox_src_rect src)) (some (letterbox_dst_rect_float src dst))
  refine ⟨mem, hmem, ?_⟩
  unfold convert_image_with_letterbox_float
  simp only []
  rw [if_neg hfail, if_pos ⟨hsrc, hdst⟩, hmem]
  rfl

theorem int_to_float_values :
    int_to_float 0 = 0 ∧ int_to_float 1 = 1 ∧ int_to_float 4 = 4 ∧ int_to_float 512 = 512 ∧
      int_to_float 640 = 640 ∧ int_to_float 1080 = 1080 ∧ int_to_float 1920 = 1920 := by
  unfold int_to_float
  refine ⟨?_, ?_, ?_, ?_, ?_, ?_, ?_⟩
  · exact_mod_cast float_round_zero
  · rw [float_round_eq _ 0 8388608 (by norm_num) (by norm_num) (by norm_num)
      (by norm_num [abs_lt])]
    norm_num
  · rw [float_round_eq _ 2 8388608 (by norm_num) (by norm_num) (by norm_num)
      (by norm_num [abs_lt])]
    norm_num
  · rw [float_round_eq _ 9 8388608 (by norm_num) (by norm_num) (by norm_num)
      (by norm_num [abs_lt])]
    norm_num
  · rw [float_round_eq _ 9 10485760 (by norm_num) (by norm_num) (by norm_num)
      (by norm_num [abs_lt])]
    norm_num
  · rw [float_round_eq _ 10 8847360 (by norm_num) (by norm_num) (by norm_num)
      (by norm_num [abs_lt])]
    norm_num
  · rw [float_round_eq _ 10 15728640 (by norm_num) (by norm_num) (by norm_num)
      (by norm_num [abs_lt])]
    norm_num

/-- The geometry that the code computes in single precision for a 1920x1080
source and a 512x512 target: the float nearest to 512/1920 lies above 4/15. -/
theorem geometry_float_512 (src dst : image_buffer_t) (hsw : src.width = 1920)
    (hsh : src.height = 1080) (hdw : dst.width = 512) (hdh : dst.height = 512) :
    letterbox_scale_float src dst = 8947849 / 33554432 ∧
      letterbox_scaled_width_float src dst = 512 ∧
      letterbox_scaled_height_float src dst = 288 ∧
      letterbox_transform_float src dst
        = { x_pad := 0, y_pad := 112, scale := 8947849 / 33554432 } := by
  obtain ⟨_, _, _, h512, _, h1080, h1920⟩ := int_to_float_values
  have hqw : float_div 512 1920 = 8947849 / 33554432 := by
    unfold float_div
    rw [float_round_eq _ (-2) 8947849 (by norm_num) (by norm_num [abs_of_pos])
      (by norm_num [abs_of_pos]) (by norm_num [abs_lt])]
    norm_num
  have hqh : float_div 512 1080 = 15907286 / 33554432 := by
    unfold float_div
    rw [float_round_eq _ (-2) 15907286 (by norm_num) (by norm_num [abs_of_pos])
      (by norm_num [abs_of_pos]) (by norm_num [abs_lt])]
    norm_num
  have hs : letterbox_scale_float src dst = 8947849 / 33554432 := by
    unfold letterbox_scale_float
    rw [hsw, hsh, hdw, hdh, h512, h1080, h1920, hqw, hqh]
    norm_num
  have hw : letterbox_scaled_width_float src dst = 512 := by
    unfold letterbox_scaled_width_float float_mul
    rw [hs, hsw, h1920, float_round_eq _ 9 8388608 (by norm_num) (by norm_num [abs_of_pos])
      (by norm_num [abs_of_pos]) (by norm_num [abs_lt])]
    unfold float_to_int
    norm_num
  have hh : letterbox_scaled_height_float src dst = 288 := by
    unfold letterbox_scaled_height_float float_mul
    rw [hs, hsh, h1080, float_round_eq _ 8 9437184 (by norm_num) (by norm_num [abs_of_pos])
      (by norm_num [abs_of_pos]) (by norm_num [abs_lt])]
    unfold float_to_int
    norm_num
  refine ⟨hs, hw, hh, ?_⟩
  unfold letterbox_transform_float
  rw [hs, hw, hh, hdw, hdh]
  norm_num
  decide

/-- The geometry that the code computes in single precision for a 1920x1080
source and a 640x640 target: the float nearest to 1/3 lies above 1/3. -/
theorem geometry_float_640 (src dst : image_buffer_t) (hsw : src.width = 1920)
    (hsh : src.height = 1080) (hdw : dst.width = 640) (hdh : dst.height = 640) :
    letterbox_scale_float src dst = 11184811 / 33554432 ∧
      letterbox_scaled_width_float src dst = 640 ∧
      letterbox_scaled_height_float src dst = 360 ∧
      letterbox_transform_float src dst
        = { x_pad := 0, y_pad := 140, scale := 11184811 / 33554432 } := by
  obtain ⟨_, _, _, _, h640, h1080, h1920⟩ := int_to_float_values
  have hqw : float_div 640 1920 = 11184811 / 33554432 := by
    unfold float_div
    rw [float_round_eq _ (-2) 11184811 (by norm_num) (by norm_num [abs_of_pos])
      (by norm_num [abs_of_pos]) (by norm_num [abs_lt])]
    norm_num
  have hqh : float_div 640 1080 = 9942054 / 16777216 := by
    unfold float_div
    rw [float_round_eq _ (-1) 9942054 (by norm_num) (by norm_num [abs_of_pos])
      (by norm_num [abs_of_pos]) (by norm_num [abs_lt])]
    norm_num
  have hs : letterbox_scale_float src dst = 11184811 / 33554432 := by
    unfold letterbox_scale_float
    rw [hsw, hsh, hdw, hdh, h640, h1080, h1920, hqw, hqh]
    norm_num
  have hw : letterbox_scaled_width_float src dst = 640 := by
    unfold letterbox_scaled_width_float float_mul
    rw [hs, hsw, h1920, float_round_eq _ 9 10485760 (by norm_num) (by norm_num [abs_of_pos])
      (by norm_num [abs_of_pos]) (by norm_num [abs_lt])]
    unfold float_to_int
    norm_num
  have hh : letterbox_scaled_height_float src dst = 360 := by
    unfold letterbox_scaled_height_float float_mul
    rw [hs, hsh, h1080, float_round_eq _ 8 11796480 (by norm_num) (by norm_num [abs_of_pos])
      (by norm_num [abs_of_pos]) (by norm_num [abs_lt])]
    unfold float_to_int
    norm_num
  refine ⟨hs, hw, hh, ?_⟩
  unfold letterbox_transform_float
  rw [hs, hw, hh, hdw, hdh]
  norm_num
  decide

/-- Source coordinates that the code computes in single precision: column 4 at
the scale stored for 512/1920 is read from column 14, and column 1 at the scale
stored for 1/3 from column 3. -/
theorem cpu_src_coord_float_values :
    cpu_src_coord_float (8947849 / 33554432) 0 = 0 ∧
      cpu_src_coord_float (8947849 / 33554432) 4 = 14 ∧
      cpu_src_coord_float (11184811 / 33554432) 0 = 0 ∧
      cpu_src_coord_float (11184811 / 33554432) 1 = 3 := by
  obtain ⟨h0, h1, h4, _⟩ := int_to_float_values
  unfold cpu_src_coord_float float_div
  rw [h0, h1, h4]
  refine ⟨?_, ?_, ?_, ?_⟩
  · rw [zero_div, float_round_zero]
    rfl
  · rw [float_round_eq _ 3 15728639 (by norm_num) (by norm_num [abs_of_pos])
      (by norm_num [abs_of_pos]) (by norm_num [abs_lt])]
    unfold float_to_int
    norm_num
  · rw [zero_div, float_round_zero]
    rfl
  · rw [float_round_eq _ 1 12582912 (by norm_num) (by norm_num [abs_of_pos])
      (by norm_num [abs_of_pos]) (by norm_num [abs_lt])]
    unfold float_to_int
    norm_num

/-- Rounding to the nearest integer moves a rational by at most one half. -/
theorem round_half_even_bounds (t : ℚ) :
    (round_half_even t : ℚ) ≤ t + 1 / 2 ∧ t - 1 / 2 ≤ (round_half_even t : ℚ) := by
  have h1 := Int.floor_le t
  have h2 := Int.lt_floor_add_one t
  unfold round_half_even
  split_ifs <;> push_cast <;> constructor <;> linarith

/-- Rounding to the nearest integer does not pass an integer that lies above. -/
theorem round_half_even_le_int (t : ℚ) (n : Int) (h : t ≤ (n : ℚ)) :
    round_half_even t ≤ n := by
  have h1 := Int.floor_le t
  have hf : ⌊t⌋ ≤ n := by
    have : ((⌊t⌋ : Int) : ℚ) ≤ (n : ℚ) := le_trans h1 h
    exact_mod_cast this
  unfold round_half_even
  by_cases hlt : t - (⌊t⌋ : ℚ) < 1 / 2
  · rw [if_pos hlt]
    exact hf
  · have hn : ⌊t⌋ < n := by
      have : ((⌊t⌋ : Int) : ℚ) < (n : ℚ) := by linarith
      exact_mod_cast this
    rw [if_neg hlt]
    split_ifs <;> omega

/-- The float nearest to `q` does not pass a multiple of the spacing at `q`
that lies above `q`. -/
theorem float_round_le_of_multiple (q r : ℚ) (n : Int) (hqr : q ≤ r)
    (hr : r = (n : ℚ) * (2 : ℚ) ^ (float_exponent q - 23)) : float_round q ≤ r := by
  have hu : (0 : ℚ) < (2 : ℚ) ^ (float_exponent q - 23) := zpow_pos (by norm_num) _
  have hle : q / (2 : ℚ) ^ (float_exponent q - 23) ≤ (n : ℚ) := by
    rw [div_le_iff₀ hu, ← hr]
    exact hqr
  have hn : ((round_half_even (q / (2 : ℚ) ^ (float_exponent q - 23)) : Int) : ℚ) ≤ (n : ℚ) := by
    exact_mod_cast round_half_even_le_int _ n hle
  unfold float_round
  rw [hr]
  exact mul_le_mul_of_nonneg_right hn hu.le

/-- In the normal range the float nearest to `q > 0` is within `q / 2^24` of
`q`. -/
theorem float_round_near (q : ℚ) (hq : (2 : ℚ) ^ (-126 : Int) ≤ q) :
    float_round q ≤ q + q / 16777216 ∧ q - q / 16777216 ≤ float_round q := by
  have hpos : 0 < q := lt_of_lt_of_le (zpow_pos (by norm_num) _) hq
  have hq2 : ((2 : ℕ) : ℚ) ^ (-126 : Int) ≤ q := by exact_mod_cast hq
  have he : -126 ≤ Int.log 2 q := (Int.zpow_le_iff_le_log (by norm_num) hpos).mp hq2
  have hexp : float_exponent q = Int.log 2 q := by
    unfold float_exponent
    rw [abs_of_pos hpos, max_eq_left he]
  have hlo : (2 : ℚ) ^ (Int.log 2 q) ≤ q := by
    have := Int.zpow_log_le_self (by norm_num : 1 < 2) hpos
    exact_mod_cast this
  have hu : (2 : ℚ) ^ (Int.log 2 q - 23) = (2 : ℚ) ^ (Int.log 2 q) / 8388608 := by
    rw [zpow_sub₀ (by norm_num : (2 : ℚ) ≠ 0)]
    norm_num
  have hupos : (0 : ℚ) < (2 : ℚ) ^ (Int.log 2 q - 23) := zpow_pos (by norm_num) _
  obtain ⟨hb1, hb2⟩ := round_half_even_bounds (q / (2 : ℚ) ^ (Int.log 2 q - 23))
  have hA := mul_le_mul_of_nonneg_right hb1 hupos.le
  have hB := mul_le_mul_of_nonneg_right hb2 hupos.le
  have hcancel : q / (2 : ℚ) ^ (Int.log 2 q - 23) * (2 : ℚ) ^ (Int.log 2 q - 23) = q :=
    div_mul_cancel₀ q hupos.ne'
  unfold float_round
  rw [hexp]
  rw [add_mul, hcancel] at hA
  rw [sub_mul, hcancel] at hB
  rw [hu] at hA hB ⊢
  constructor <;> linarith

/-- An `int` of magnitude below 2^24 is converted to `float` without change. -/
theorem int_to_float_exact (n : Int) (h0 : 0 < n) (h : n < 16777216) :
    int_to_float n = (n : ℚ) := by
  have hq : (0 : ℚ) < (n : ℚ) := by exact_mod_cast h0
  have habs : |(n : ℚ)| = (n : ℚ) := abs_of_pos hq
  have hlo : (2 : ℚ) ^ (Int.log 2 (n : ℚ)) ≤ (n : ℚ) := by
    have := Int.zpow_log_le_self (by norm_num : 1 < 2) hq
    exact_mod_cast this
  have hhi : (n : ℚ) < (2 : ℚ) ^ (Int.log 2 (n : ℚ) + 1) := by
    have := Int.lt_zpow_succ_log_self (by norm_num : 1 < 2) (n : ℚ)
    exact_mod_cast this
  have h1 : ((2 : ℕ) : ℚ) ^ (0 : Int) ≤ (n : ℚ) := by
    have : (1 : ℚ) ≤ (n : ℚ) := by exact_mod_cast h0
    simpa using this
  have he0 : 0 ≤ Int.log 2 (n : ℚ) := (Int.zpow_le_iff_le_log (by norm_num) hq).mp h1
  have h2 : (n : ℚ) < ((2 : ℕ) : ℚ) ^ (24 : Int) := by
    have : (n : ℚ) < 16777216 := by exact_mod_cast h
    norm_num
    exact this
  have he24 : Int.log 2 (n : ℚ) < 24 := (Int.lt_zpow_iff_log_lt (by norm_num) hq).mp h2
  have hk : ((23 - Int.log 2 (n : ℚ)).toNat : Int) = 23 - Int.log 2 (n : ℚ) :=
    Int.toNat_of_nonneg (by omega)
  have hu : (2 : ℚ) ^ (Int.log 2 (n : ℚ) - 23)
      = ((2 : ℚ) ^ (23 - Int.log 2 (n : ℚ)).toNat)⁻¹ := by
    rw [← zpow_natCast, hk, ← zpow_neg]
    congr 1
    ring
  have hpow : (0 : ℚ) < (2 : ℚ) ^ (23 - Int.log 2 (n : ℚ)).toNat := pow_pos (by norm_num) _
  unfold int_to_float
  rw [float_round_eq (n : ℚ) (Int.log 2 (n : ℚ)) (n * 2 ^ (23 - Int.log 2 (n : ℚ)).toNat)
    (by omega) (by rw [habs]; exact hlo) (by rw [habs]; exact hhi)
    (by
      rw [hu]
      push_cast
      rw [div_inv_eq_mul, sub_self, abs_zero]
      norm_num)]
  rw [hu]
  push_cast
  field_simp

/-- A scale that does not exceed the single-precision quotient `D / S` gives a
scaled size `(int)(S * scale)` that does not exceed `D`, for positive `int`s
below 2^23. -/
theorem scaled_float_le (S D : Int) (s : ℚ) (hS : 0 < S) (hS2 : S < 8388608) (hD : 0 < D)
    (hD2 : D < 8388608) (hs0 : 0 < s)
    (hs : s ≤ float_div (int_to_float D) (int_to_float S)) :
    float_to_int (float_mul (int_to_float S) s) ≤ D := by
  have hSq : (0 : ℚ) < (S : ℚ) := by exact_mod_cast hS
  have hDq : (0 : ℚ) < (D : ℚ) := by exact_mod_cast hD
  have hS2q : (S : ℚ) < 8388608 := by exact_mod_cast hS2
  have hD2q : (D : ℚ) < 8388608 := by exact_mod_cast hD2
  have hD1 : (1 : ℚ) ≤ (D : ℚ) := by exact_mod_cast hD
  have hD3 : (D : ℚ) ≤ 8388607 := by exact_mod_cast (show D ≤ 8388607 by omega)
  rw [int_to_float_exact D hD (by omega), int_to_float_exact S hS (by omega)] at hs
  rw [int_to_float_exact S hS (by omega)]
  have hratio : (2 : ℚ) ^ (-126 : Int) ≤ (D : ℚ) / (S : ℚ) := by
    rw [le_div_iff₀ hSq]
    have h126 : (2 : ℚ) ^ (-126 : Int) ≤ 1 / 8388608 := by norm_num
    have hmul : (2 : ℚ) ^ (-126 : Int) * (S : ℚ) ≤ 1 / 8388608 * (S : ℚ) :=
      mul_le_mul_of_nonneg_right h126 hSq.le
    have hS1 : 1 / 8388608 * (S : ℚ) ≤ 1 := by linarith
    exact le_trans hmul (le_trans hS1 hD1)
  obtain ⟨hup, _⟩ := float_round_near ((D : ℚ) / (S : ℚ)) hratio
  have hs2 : s ≤ (D : ℚ) / (S : ℚ) + (D : ℚ) / (S : ℚ) / 16777216 := le_trans hs hup
  have hprod : (S : ℚ) * s ≤ (D : ℚ) + (D : ℚ) / 16777216 := by
    have := mul_le_mul_of_nonneg_left hs2 hSq.le
    have he : (S : ℚ) * ((D : ℚ) / (S : ℚ) + (D : ℚ) / (S : ℚ) / 16777216)
        = (D : ℚ) + (D : ℚ) / 16777216 := by
      field_simp
      ring
    rw [he] at this
    exact this
  have hprod2 : (S : ℚ) * s ≤ (D : ℚ) + 1 / 2 := by linarith
  have hppos : (0 : ℚ) < (S : ℚ) * s := mul_pos hSq hs0
  have hexp : float_exponent ((S : ℚ) * s) ≤ 22 := by
    have hlt : |(S : ℚ) * s| < ((2 : ℕ) : ℚ) ^ (23 : Int) := by
      rw [abs_of_pos hppos]
      norm_num
      linarith
    have := (Int.lt_zpow_iff_log_lt (by norm_num) (abs_pos.mpr hppos.ne')).mp hlt
    unfold float_exponent
    exact max_le (by omega) (by norm_num)
  have hk : ((22 - float_exponent ((S : ℚ) * s)).toNat : Int)
      = 22 - float_exponent ((S : ℚ) * s) := Int.toNat_of_nonneg (by omega)
  have hmult : (D : ℚ) + 1 / 2
      = (((2 * D + 1) * 2 ^ (22 - float_exponent ((S : ℚ) * s)).toNat : Int) : ℚ)
          * (2 : ℚ) ^ (float_exponent ((S : ℚ) * s) - 23) := by
    push_cast
    rw [← zpow_natCast, hk, mul_assoc, ← zpow_add₀ (by norm_num : (2 : ℚ) ≠ 0)]
    have : 22 - float_exponent ((S : ℚ) * s) + (float_exponent ((S : ℚ) * s) - 23) = -1 := by
      ring
    rw [this]
    norm_num
    ring
  have hfl := float_round_le_of_multiple ((S : ℚ) * s) ((D : ℚ) + 1 / 2) _ hprod2 hmult
  unfold float_mul float_to_int
  split_ifs with hnn
  · have : ⌊float_round ((S : ℚ) * s)⌋ < D + 1 := by
      rw [Int.floor_lt]
      push_cast
      linarith
    omega
  · have : ⌈float_round ((S : ℚ) * s)⌉ ≤ D := by
      rw [Int.ceil_le]
      linarith [not_le.mp hnn]
    exact this

/-- The single-precision quotient of two positive `int`s below 2^23 is
positive. -/
theorem float_div_pos (S D : Int) (hS : 0 < S) (hS2 : S < 8388608) (hD : 0 < D)
    (hD2 : D < 8388608) : 0 < float_div (int_to_float D) (int_to_float S) := by
  have hSq : (0 : ℚ) < (S : ℚ) := by exact_mod_cast hS
  have hDq : (0 : ℚ) < (D : ℚ) := by exact_mod_cast hD
  have hS2q : (S : ℚ) < 8388608 := by exact_mod_cast hS2
  have hD1 : (1 : ℚ) ≤ (D : ℚ) := by exact_mod_cast hD
  rw [int_to_float_exact D hD (by omega), int_to_float_exact S hS (by omega)]
  have hratio : (2 : ℚ) ^ (-126 : Int) ≤ (D : ℚ) / (S : ℚ) := by
    rw [le_div_iff₀ hSq]
    have h126 : (2 : ℚ) ^ (-126 : Int) ≤ 1 / 8388608 := by norm_num
    have hmul : (2 : ℚ) ^ (-126 : Int) * (S : ℚ) ≤ 1 / 8388608 * (S : ℚ) :=
      mul_le_mul_of_nonneg_right h126 hSq.le
    have hS1 : 1 / 8388608 * (S : ℚ) ≤ 1 := by linarith
    exact le_trans hmul (le_trans hS1 hD1)
  obtain ⟨_, hlow⟩ := float_round_near ((D : ℚ) / (S : ℚ)) hratio
  have hqpos : (0 : ℚ) < (D : ℚ) / (S : ℚ) := div_pos hDq hSq
  unfold float_div
  linarith

/-- The scale stored in single precision is positive and is at most each of the
two single-precision ratios. -/
theorem letterbox_scale_float_bounds (src dst : image_buffer_t)
    (hsw : 0 < src.width) (hsh : 0 < src.height) (hdw : 0 < dst.width) (hdh : 0 < dst.height)
    (hsw2 : src.width < 8388608) (hsh2 : src.height < 8388608)
    (hdw2 : dst.width < 8388608) (hdh2 : dst.height < 8388608) :
    0 < letterbox_scale_float src dst ∧
      letterbox_scale_float src dst
        ≤ float_div (int_to_float dst.width) (int_to_float src.width) ∧
      letterbox_scale_float src dst
        ≤ float_div (int_to_float dst.height) (int_to_float src.height) := by
  have hpw := float_div_pos src.width dst.width hsw hsw2 hdw hdw2
  have hph := float_div_pos src.height dst.height hsh hsh2 hdh hdh2
  unfold letterbox_scale_float
  simp only []
  split_ifs with h
  · exact ⟨hpw, le_refl _, h.le⟩
  · exact ⟨hph, not_lt.mp h, le_refl _⟩

/-- In single precision too the scaled width does not exceed the target width,
for positive dimensions below 2^23. -/
theorem scaled_width_float_le (src dst : image_buffer_t)
    (hsw : 0 < src.width) (hsh : 0 < src.height) (hdw : 0 < dst.width) (hdh : 0 < dst.height)
    (hsw2 : src.width < 8388608) (hsh2 : src.height < 8388608)
    (hdw2 : dst.width < 8388608) (hdh2 : dst.height < 8388608) :
    letterbox_scaled_width_float src dst ≤ dst.width := by
  obtain ⟨h0, h1, _⟩ := letterbox_scale_float_bounds src dst hsw hsh hdw hdh hsw2 hsh2 hdw2 hdh2
  exact scaled_float_le src.width dst.width _ hsw hsw2 hdw hdw2 h0 h1

/-- In single precision too the scaled height does not exceed the target
height, for positive dimensions below 2^23. -/
theorem scaled_height_float_le (src dst : image_buffer_t)
    (hsw : 0 < src.width) (hsh : 0 < src.height) (hdw : 0 < dst.width) (hdh : 0 < dst.height)
    (hsw2 : src.width < 8388608) (hsh2 : src.height < 8388608)
    (hdw2 : dst.width < 8388608) (hdh2 : dst.height < 8388608) :
    letterbox_scaled_height_float src dst ≤ dst.height := by
  obtain ⟨h0, _, h2⟩ := letterbox_scale_float_bounds src dst hsw hsh hdw hdh hsw2 hsh2 hdw2 hdh2
  exact scaled_float_le src.height dst.height _ hsh hsh2 hdh hdh2 h0 h2

theorem cpu_resize_float_untouched (src dst : image_buffer_t) (lb : letterbox_t) (W H : Int)
    (m : Int → Int) (j : Int)
    (hj : ∀ y x : Int, 0 ≤ y → y < H → 0 ≤ x → x < W →
      (j < cpu_dst_idx dst lb y x ∨ cpu_dst_idx dst lb y x + 3 ≤ j)) :
    cpu_resize_float src dst lb W H m j = m j := by
  unfold cpu_resize_float
  apply foldl_untouched
  intro a ha m'
  rw [List.mem_range] at ha
  exact cpu_copy_row_float_untouched src dst lb W a m' j
    (fun x hx hxW => hj a x (by omega) (by omega) hx hxW)

end SinglePrecision

/-! ## The destination that the software path leaves -/

section SoftwarePathClaim

open image_format_t

/-- With exact arithmetic: when `rga_resize` fails, leaving the filled
destination as it was, and both images are RGB888, the function returns 0, every
byte outside the centered rectangle holds the fill value, and destination pixel
`(x + x_pad, y + y_pad)` holds the bytes of source pixel
`(floor(x / scale), floor(y / scale))`. -/
theorem software_path_exact_destination (RK3588 : Bool) (hw : im2d) (src dst : image_buffer_t)
    (lb0 : letterbox_t) (color : Int)
    (hsw : 0 < src.width) (hsh : 0 < src.height) (hdw : 0 < dst.width) (hdh : 0 < dst.height)
    (hdsize : dst.size = dst.width * dst.height * 3)
    (hsrc : src.format = IMAGE_FORMAT_RGB888) (hdst : dst.format = IMAGE_FORMAT_RGB888)
    (hfail : (rga_resize RK3588 hw (some src)
      (some { dst with virt_addr := memset dst.virt_addr color dst.size })
      (some (letterbox_src_rect src)) (some (letterbox_dst_rect src dst))).1 ≠ 0)
    (hkeep : (rga_resize RK3588 hw (some src)
      (some { dst with virt_addr := memset dst.virt_addr color dst.size })
      (some (letterbox_src_rect src)) (some (letterbox_dst_rect src dst))).2
        = some { dst with virt_addr := memset dst.virt_addr color dst.size }) :
    ∃ dst_after : image_buffer_t,
      convert_image_with_letterbox RK3588 hw (some src) (some dst) (some lb0) color
        = (0, some dst_after, some (letterbox_transform src dst)) ∧
      dst_after.width = dst.width ∧ dst_after.height = dst.height ∧
      dst_after.size = dst.size ∧
      (∀ px py c : Int, 0 ≤ px → px < dst.width → 0 ≤ py → py < dst.height → 0 ≤ c → c < 3 →
        ¬ ((letterbox_dst_rect src dst).left ≤ px ∧ px < (letterbox_dst_rect src dst).right ∧
            (letterbox_dst_rect src dst).top ≤ py ∧ py < (letterbox_dst_rect src dst).bottom) →
        dst_after.virt_addr ((py * dst.width + px) * 3 + c) = color % 256) ∧
      (∀ i : Int, 0 ≤ i → i < dst.size →
        (∀ x y c : Int, 0 ≤ x → x < letterbox_scaled_width src dst →
          0 ≤ y → y < letterbox_scaled_height src dst → 0 ≤ c → c < 3 →
          i ≠ ((y + (letterbox_transform src dst).y_pad) * dst.width
                + (x + (letterbox_transform src dst).x_pad)) * 3 + c) →
        dst_after.virt_addr i = color % 256) ∧
      (∀ x y c : Int, 0 ≤ x → x < letterbox_scaled_width src dst →
        0 ≤ y → y < letterbox_scaled_height src dst → 0 ≤ c → c < 3 →
        dst_after.virt_addr (((y + (letterbox_transform src dst).y_pad) * dst.width
              + (x + (letterbox_transform src dst).x_pad)) * 3 + c)
          = src.virt_addr ((⌊(y : ℚ) / (letterbox_transform src dst).scale⌋ * src.width
              + ⌊(x : ℚ) / (letterbox_transform src dst).scale⌋) * 3 + c)) := by
  obtain ⟨mem, hmem, hconv⟩ := convert_software_path RK3588 hw src dst lb0 color hsrc hdst hfail
  rw [hkeep] at hmem
  have hm : memset dst.virt_addr color dst.size = mem :=
    congrArg image_buffer_t.virt_addr (Option.some.inj hmem)
  subst hm
  have hs := letterbox_scale_pos src dst hsw hsh hdw hdh
  have hW := scaled_width_le src dst hsw
  have hH := scaled_height_le src dst hsh
  have hpx := tdiv_two_spec (dst.width - letterbox_scaled_width src dst) (sub_nonneg.mpr hW)
  have hpy := tdiv_two_spec (dst.height - letterbox_scaled_height src dst) (sub_nonneg.mpr hH)
  have hbyte : ∀ i : Int, 0 ≤ i → i < dst.size →
      (∀ x y : Int, 0 ≤ x → x < letterbox_scaled_width src dst →
        0 ≤ y → y < letterbox_scaled_height src dst →
        (i < cpu_dst_idx { dst with virt_addr := memset dst.virt_addr color dst.size }
              (letterbox_transform src dst) y x ∨
          cpu_dst_idx { dst with virt_addr := memset dst.virt_addr color dst.size }
              (letterbox_transform src dst) y x + 3 ≤ i)) →
      cpu_resize src { dst with virt_addr := memset dst.virt_addr color dst.size }
          (letterbox_transform src dst) (letterbox_scaled_width src dst)
          (letterbox_scaled_height src dst) (memset dst.virt_addr color dst.size) i
        = color % 256 := by
    intro i hi0 hi1 hout
    rw [cpu_resize_untouched src _ (letterbox_transform src dst) _ _ _ i
      (fun y x hy0 hy1 hx0 hx1 => hout x y hx0 hx1 hy0 hy1)]
    unfold memset
    rw [if_pos ⟨hi0, hi1⟩]
  refine ⟨_, hconv, rfl, rfl, rfl, ?_, ?_, ?_⟩
  · intro px py c hpx0 hpx1 hpy0 hpy1 hc0 hc3 hrect
    have hb := pixel_index_bounds dst.width dst.height py px c ⟨hpy0, hpy1⟩ ⟨hpx0, hpx1⟩
      ⟨hc0, hc3⟩
    have hrect2 : ¬ (Int.tdiv (dst.width - letterbox_scaled_width src dst) 2 ≤ px ∧
        px < Int.tdiv (dst.width - letterbox_scaled_width src dst) 2
              + letterbox_scaled_width src dst ∧
        Int.tdiv (dst.height - letterbox_scaled_height src dst) 2 ≤ py ∧
        py < Int.tdiv (dst.height - letterbox_scaled_height src dst) 2
              + letterbox_scaled_height src dst) := hrect
    dsimp only
    apply hbyte _ hb.1 (by rw [hdsize]; exact hb.2)
    intro x y hx0 hx1 hy0 hy1
    have hidx : (py * dst.width + px) * 3 + c
        = cpu_dst_idx { dst with virt_addr := memset dst.virt_addr color dst.size }
            (letterbox_transform src dst) (py - (letterbox_transform src dst).y_pad)
            (px - (letterbox_transform src dst).x_pad) + c := by
      unfold cpu_dst_idx
      simp only []
      ring
    rw [hidx]
    by_cases hrow : y = py - (letterbox_transform src dst).y_pad
    · subst hrow
      apply cpu_dst_idx_row_inj _ _ _ _ _ c hc0 hc3
      intro hcol
      apply hrect2
      have h1 : (letterbox_transform src dst).x_pad
          = Int.tdiv (dst.width - letterbox_scaled_width src dst) 2 := rfl
      have h2 : (letterbox_transform src dst).y_pad
          = Int.tdiv (dst.height - letterbox_scaled_height src dst) 2 := rfl
      omega
    · apply cpu_dst_idx_col_inj _ _ _ _ _ _ c hc0 hc3 hrow
      · have h1 : (letterbox_transform src dst).x_pad
            = Int.tdiv (dst.width - letterbox_scaled_width src dst) 2 := rfl
        show 0 ≤ x + (letterbox_transform src dst).x_pad ∧
          x + (letterbox_transform src dst).x_pad < dst.width
        omega
      · show 0 ≤ px - (letterbox_transform src dst).x_pad + (letterbox_transform src dst).x_pad ∧
          px - (letterbox_transform src dst).x_pad + (letterbox_transform src dst).x_pad
            < dst.width
        omega
  · intro i hi0 hi1 hne
    dsimp only
    apply hbyte i hi0 hi1
    intro x y hx0 hx1 hy0 hy1
    have h0 := hne x y 0 hx0 hx1 hy0 hy1 (le_refl 0) (by decide)
    have h1 := hne x y 1 hx0 hx1 hy0 hy1 (by decide) (by decide)
    have h2 := hne x y 2 hx0 hx1 hy0 hy1 (by decide) (by decide)
    unfold cpu_dst_idx
    simp only []
    omega
  · intro x y c hx0 hx1 hy0 hy1 hc0 hc3
    have hidx : ((y + (letterbox_transform src dst).y_pad) * dst.width
          + (x + (letterbox_transform src dst).x_pad)) * 3 + c
        = cpu_dst_idx { dst with virt_addr := memset dst.virt_addr color dst.size }
            (letterbox_transform src dst) y x + c := rfl
    dsimp only
    rw [hidx, cpu_resize_written src _ (letterbox_transform src dst) _ _ _ y x c
      ⟨hy0, hy1⟩ ⟨hx0, hx1⟩ hc0 hc3
      (by show 0 ≤ Int.tdiv (dst.width - letterbox_scaled_width src dst) 2; omega)
      (by show Int.tdiv (dst.width - letterbox_scaled_width src dst) 2
            + letterbox_scaled_width src dst ≤ dst.width; omega)]
    rw [cpu_src_coord_eq_floor (letterbox_transform src dst).scale y hs hy0,
      cpu_src_coord_eq_floor (letterbox_transform src dst).scale x hs hx0]
    rfl

/-- In single precision, for positive dimensions below 2^23: when `rga_resize`
fails, leaving the filled destination as it was, and both images are RGB888,
the function returns 0, every byte outside the centered rectangle holds the
fill value, and destination pixel `(x + x_pad, y + y_pad)` holds the bytes of
source pixel `((int)(x / scale), (int)(y / scale))`, the quotients rounded to
`float` before they are truncated. -/
theorem software_path_float_destination (RK3588 : Bool) (hw : im2d) (src dst : image_buffer_t)
    (lb0 : letterbox_t) (color : Int)
    (hsw : 0 < src.width) (hsh : 0 < src.height) (hdw : 0 < dst.width) (hdh : 0 < dst.height)
    (hsw2 : src.width < 8388608) (hsh2 : src.height < 8388608)
    (hdw2 : dst.width < 8388608) (hdh2 : dst.height < 8388608)
    (hdsize : dst.size = dst.width * dst.height * 3)
    (hsrc : src.format = IMAGE_FORMAT_RGB888) (hdst : dst.format = IMAGE_FORMAT_RGB888)
    (hfail : (rga_resize RK3588 hw (some src)
      (some { dst with virt_addr := memset dst.virt_addr color dst.size })
      (some (letterbox_src_rect src)) (some (letterbox_dst_rect_float src dst))).1 ≠ 0)
    (hkeep : (rga_resize RK3588 hw (some src)
      (some { dst with virt_addr := memset dst.virt_addr color dst.size })
      (some (letterbox_src_rect src)) (some (letterbox_dst_rect_float src dst))).2
        = some { dst with virt_addr := memset dst.virt_addr color dst.size }) :
    ∃ dst_after : image_buffer_t,
      convert_image_with_letterbox_float RK3588 hw (some src) (some dst) (some lb0) color
        = (0, some dst_after, some (letterbox_transform_float src dst)) ∧
      dst_after.width = dst.width ∧ dst_after.height = dst.height ∧
      dst_after.size = dst.size ∧
      (∀ px py c : Int, 0 ≤ px → px < dst.width → 0 ≤ py → py < dst.height → 0 ≤ c → c < 3 →
        ¬ ((letterbox_dst_rect_float src dst).left ≤ px ∧ px < (letterbox_dst_rect_float src dst).right ∧
            (letterbox_dst_rect_float src dst).top ≤ py ∧ py < (letterbox_dst_rect_float src dst).bottom) →
        dst_after.virt_addr ((py * dst.width + px) * 3 + c) = color % 256) ∧
      (∀ i : Int, 0 ≤ i → i < dst.size →
        (∀ x y c : Int, 0 ≤ x → x < letterbox_scaled_width_float src dst →
          0 ≤ y → y < letterbox_scaled_height_float src dst → 0 ≤ c → c < 3 →
          i ≠ ((y + (letterbox_transform_float src dst).y_pad) * dst.width
                + (x + (letterbox_transform_float src dst).x_pad)) * 3 + c) →
        dst_after.virt_addr i = color % 256) ∧
      (∀ x y c : Int, 0 ≤ x → x < letterbox_scaled_width_float src dst →
        0 ≤ y → y < letterbox_scaled_height_float src dst → 0 ≤ c → c < 3 →
        dst_after.virt_addr (((y + (letterbox_transform_float src dst).y_pad) * dst.width
              + (x + (letterbox_transform_float src dst).x_pad)) * 3 + c)
          = src.virt_addr ((cpu_src_coord_float (letterbox_transform_float src dst).scale y
                * src.width
              + cpu_src_coord_float (letterbox_transform_float src dst).scale x) * 3 + c)) := by
  obtain ⟨mem, hmem, hconv⟩ := convert_float_software_path RK3588 hw src dst lb0 color hsrc hdst hfail
  rw [hkeep] at hmem
  have hm : memset dst.virt_addr color dst.size = mem :=
    congrArg image_buffer_t.virt_addr (Option.some.inj hmem)
  subst hm
  have hW := scaled_width_float_le src dst hsw hsh hdw hdh hsw2 hsh2 hdw2 hdh2
  have hH := scaled_height_float_le src dst hsw hsh hdw hdh hsw2 hsh2 hdw2 hdh2
  have hpx := tdiv_two_spec (dst.width - letterbox_scaled_width_float src dst) (sub_nonneg.mpr hW)
  have hpy := tdiv_two_spec (dst.height - letterbox_scaled_height_float src dst) (sub_nonneg.mpr hH)
  have hbyte : ∀ i : Int, 0 ≤ i → i < dst.size →
      (∀ x y : Int, 0 ≤ x → x < letterbox_scaled_width_float src dst →
        0 ≤ y → y < letterbox_scaled_height_float src dst →
        (i < cpu_dst_idx { dst with virt_addr := memset dst.virt_addr color dst.size }
              (letterbox_transform_float src dst) y x ∨
          cpu_dst_idx { dst with virt_addr := memset dst.virt_addr color dst.size }
              (letterbox_transform_float src dst) y x + 3 ≤ i)) →
      cpu_resize_float src { dst with virt_addr := memset dst.virt_addr color dst.size }
          (letterbox_transform_float src dst) (letterbox_scaled_width_float src dst)
          (letterbox_scaled_height_float src dst) (memset dst.virt_addr color dst.size) i
        = color % 256 := by
    intro i hi0 hi1 hout
    rw [cpu_resize_float_untouched src _ (letterbox_transform_float src dst) _ _ _ i
      (fun y x hy0 hy1 hx0 hx1 => hout x y hx0 hx1 hy0 hy1)]
    unfold memset
    rw [if_pos ⟨hi0, hi1⟩]
  refine ⟨_, hconv, rfl, rfl, rfl, ?_, ?_, ?_⟩
  · intro px py c hpx0 hpx1 hpy0 hpy1 hc0 hc3 hrect
    have hb := pixel_index_bounds dst.width dst.height py px c ⟨hpy0, hpy1⟩ ⟨hpx0, hpx1⟩
      ⟨hc0, hc3⟩
    have hrect2 : ¬ (Int.tdiv (dst.width - letterbox_scaled_width_float src dst) 2 ≤ px ∧
        px < Int.tdiv (dst.width - letterbox_scaled_width_float src dst) 2
              + letterbox_scaled_width_float src dst ∧
        Int.tdiv (dst.height - letterbox_scaled_height_float src dst) 2 ≤ py ∧
        py < Int.tdiv (dst.height - letterbox_scaled_height_float src dst) 2
              + letterbox_scaled_height_float src dst) := hrect
    dsimp only
    apply hbyte _ hb.1 (by rw [hdsize]; exact hb.2)
    intro x y hx0 hx1 hy0 hy1
    have hidx : (py * dst.width + px) * 3 + c
        = cpu_dst_idx { dst with virt_addr := memset dst.virt_addr color dst.size }
            (letterbox_transform_float src dst) (py - (letterbox_transform_float src dst).y_pad)
            (px - (letterbox_transform_float src dst).x_pad) + c := by
      unfold cpu_dst_idx
      simp only []
      ring
    rw [hidx]
    by_cases hrow : y = py - (letterbox_transform_float src dst).y_pad
    · subst hrow
      apply cpu_dst_idx_row_inj _ _ _ _ _ c hc0 hc3
      intro hcol
      apply hrect2
      have h1 : (letterbox_transform_float src dst).x_pad
          = Int.tdiv (dst.width - letterbox_scaled_width_float src dst) 2 := rfl
      have h2 : (letterbox_transform_float src dst).y_pad
          = Int.tdiv (dst.height - letterbox_scaled_height_float src dst) 2 := rfl
      omega
    · apply cpu_dst_idx_col_inj _ _ _ _ _ _ c hc0 hc3 hrow
      · have h1 : (letterbox_transform_float src dst).x_pad
            = Int.tdiv (dst.width - letterbox_scaled_width_float src dst) 2 := rfl
        show 0 ≤ x + (letterbox_transform_float src dst).x_pad ∧
          x + (letterbox_transform_float src dst).x_pad < dst.width
        omega
      · show 0 ≤ px - (letterbox_transform_float src dst).x_pad + (letterbox_transform_float src dst).x_pad ∧
          px - (letterbox_transform_float src dst).x_pad + (letterbox_transform_float src dst).x_pad
            < dst.width
        omega
  · intro i hi0 hi1 hne
    dsimp only
    apply hbyte i hi0 hi1
    intro x y hx0 hx1 hy0 hy1
    have h0 := hne x y 0 hx0 hx1 hy0 hy1 (le_refl 0) (by decide)
    have h1 := hne x y 1 hx0 hx1 hy0 hy1 (by decide) (by decide)
    have h2 := hne x y 2 hx0 hx1 hy0 hy1 (by decide) (by decide)
    unfold cpu_dst_idx
    simp only []
    omega
  · intro x y c hx0 hx1 hy0 hy1 hc0 hc3
    have hidx : ((y + (letterbox_transform_float src dst).y_pad) * dst.width
          + (x + (letterbox_transform_float src dst).x_pad)) * 3 + c
        = cpu_dst_idx { dst with virt_addr := memset dst.virt_addr color dst.size }
            (letterbox_transform_float src dst) y x + c := rfl
    dsimp only
    rw [hidx, cpu_resize_float_written src _ (letterbox_transform_float src dst) _ _ _ y x c
      ⟨hy0, hy1⟩ ⟨hx0, hx1⟩ hc0 hc3
      (by show 0 ≤ Int.tdiv (dst.width - letterbox_scaled_width_float src dst) 2; omega)
      (by show Int.tdiv (dst.width - letterbox_scaled_width_float src dst) 2
            + letterbox_scaled_width_float src dst ≤ dst.width; omega)]
    rfl


/-- C21, as amended: when the hardware resize fails, leaving the destination as
the fill left it, and both images are RGB888, with positive dimensions and a
destination buffer of width*height*3 bytes, convert_image_with_letterbox
returns 0 and leaves the destination as follows. In the single-precision
arithmetic of the code, for dimensions below 2^23: every byte outside the
centered rectangle [x_pad, x_pad + scaled_width) x [y_pad, y_pad + scaled_height)
equals the fill value (the colour as a byte), and for every
0 <= x < scaled_width and 0 <= y < scaled_height the three bytes of destination
pixel (x + x_pad, y + y_pad) equal those of source pixel
((int)(x / scale), (int)(y / scale)), where scale is the float that is stored
and each quotient is rounded to float before it is truncated. With scale,
scaled sizes and quotients computed exactly, the same holds and the source
pixel is (floor(x / scale), floor(y / scale)). -/
theorem software_path_destination (RK3588 : Bool) (hw : im2d) (src dst : image_buffer_t)
    (lb0 : letterbox_t) (color : Int)
    (hsw : 0 < src.width) (hsh : 0 < src.height) (hdw : 0 < dst.width) (hdh : 0 < dst.height)
    (hdsize : dst.size = dst.width * dst.height * 3)
    (hsrc : src.format = IMAGE_FORMAT_RGB888) (hdst : dst.format = IMAGE_FORMAT_RGB888)
    (hfail : ∀ src_rect dst_rect : Option image_rect_t,
      (rga_resize RK3588 hw (some src)
        (some { dst with virt_addr := memset dst.virt_addr color dst.size })
        src_rect dst_rect).1 ≠ 0)
    (hkeep : ∀ src_rect dst_rect : Option image_rect_t,
      (rga_resize RK3588 hw (some src)
        (some { dst with virt_addr := memset dst.virt_addr color dst.size })
        src_rect dst_rect).2
          = some { dst with virt_addr := memset dst.virt_addr color dst.size }) :
    (src.width < 8388608 → src.height < 8388608 → dst.width < 8388608 →
      dst.height < 8388608 →
      ∃ dst_after : image_buffer_t,
        convert_image_with_letterbox_float RK3588 hw (some src) (some dst) (some lb0) color
          = (0, some dst_after, some (letterbox_transform_float src dst)) ∧
        dst_after.width = dst.width ∧ dst_after.height = dst.height ∧
        dst_after.size = dst.size ∧
        (∀ px py c : Int, 0 ≤ px → px < dst.width → 0 ≤ py → py < dst.height → 0 ≤ c → c < 3 →
          ¬ ((letterbox_dst_rect_float src dst).left ≤ px ∧ px < (letterbox_dst_rect_float src dst).right ∧
              (letterbox_dst_rect_float src dst).top ≤ py ∧ py < (letterbox_dst_rect_float src dst).bottom) →
          dst_after.virt_addr ((py * dst.width + px) * 3 + c) = color % 256) ∧
        (∀ i : Int, 0 ≤ i → i < dst.size →
          (∀ x y c : Int, 0 ≤ x → x < letterbox_scaled_width_float src dst →
            0 ≤ y → y < letterbox_scaled_height_float src dst → 0 ≤ c → c < 3 →
            i ≠ ((y + (letterbox_transform_float src dst).y_pad) * dst.width
                  + (x + (letterbox_transform_float src dst).x_pad)) * 3 + c) →
          dst_after.virt_addr i = color % 256) ∧
        (∀ x y c : Int, 0 ≤ x → x < letterbox_scaled_width_float src dst →
          0 ≤ y → y < letterbox_scaled_height_float src dst → 0 ≤ c → c < 3 →
          dst_after.virt_addr (((y + (letterbox_transform_float src dst).y_pad) * dst.width
                + (x + (letterbox_transform_float src dst).x_pad)) * 3 + c)
            = src.virt_addr ((cpu_src_coord_float (letterbox_transform_float src dst).scale y
                  * src.width
                + cpu_src_coord_float (letterbox_transform_float src dst).scale x) * 3 + c))) ∧
    (∃ dst_after : image_buffer_t,
      convert_image_with_letterbox RK3588 hw (some src) (some dst) (some lb0) color
        = (0, some dst_after, some (letterbox_transform src dst)) ∧
      dst_after.width = dst.width ∧ dst_after.height = dst.height ∧
      dst_after.size = dst.size ∧
      (∀ px py c : Int, 0 ≤ px → px < dst.width → 0 ≤ py → py < dst.height → 0 ≤ c → c < 3 →
        ¬ ((letterbox_dst_rect src dst).left ≤ px ∧ px < (letterbox_dst_rect src dst).right ∧
            (letterbox_dst_rect src dst).top ≤ py ∧ py < (letterbox_dst_rect src dst).bottom) →
        dst_after.virt_addr ((py * dst.width + px) * 3 + c) = color % 256) ∧
      (∀ i : Int, 0 ≤ i → i < dst.size →
        (∀ x y c : Int, 0 ≤ x → x < letterbox_scaled_width src dst →
          0 ≤ y → y < letterbox_scaled_height src dst → 0 ≤ c → c < 3 →
          i ≠ ((y + (letterbox_transform src dst).y_pad) * dst.width
                + (x + (letterbox_transform src dst).x_pad)) * 3 + c) →
        dst_after.virt_addr i = color % 256) ∧
      (∀ x y c : Int, 0 ≤ x → x < letterbox_scaled_width src dst →
        0 ≤ y → y < letterbox_scaled_height src dst → 0 ≤ c → c < 3 →
        dst_after.virt_addr (((y + (letterbox_transform src dst).y_pad) * dst.width
              + (x + (letterbox_transform src dst).x_pad)) * 3 + c)
          = src.virt_addr ((⌊(y : ℚ) / (letterbox_transform src dst).scale⌋ * src.width
              + ⌊(x : ℚ) / (letterbox_transform src dst).scale⌋) * 3 + c))) := by
  constructor
  · intro hsw2 hsh2 hdw2 hdh2
    exact software_path_float_destination RK3588 hw src dst lb0 color hsw hsh hdw hdh
      hsw2 hsh2 hdw2 hdh2 hdsize hsrc hdst (hfail _ _) (hkeep _ _)
  · exact software_path_exact_destination RK3588 hw src dst lb0 color hsw hsh hdw hdh
      hdsize hsrc hdst (hfail _ _) (hkeep _ _)

theorem software_path_destination_witness :
    (∃ dst_after : image_buffer_t,
      convert_image_with_letterbox_float true failing_rga
          (some (convert_mat_to_image_buffer (uniform_frame 1920 1080 255)))
          (some (convert_mat_to_image_buffer (uniform_frame 640 640 0)))
          (some { x_pad := 0, y_pad := 0, scale := 0 }) 114
        = (0, some dst_after,
            some (letterbox_transform_float
              (convert_mat_to_image_buffer (uniform_frame 1920 1080 255))
              (convert_mat_to_image_buffer (uniform_frame 640 640 0)))) ∧
      dst_after.virt_addr ((139 * 640 + 5) * 3 + 1) = 114 ∧
      dst_after.virt_addr ((140 * 640 + 5) * 3 + 1) = 255) ∧
      (∃ dst_after : image_buffer_t,
        convert_image_with_letterbox true failing_rga
            (some (convert_mat_to_image_buffer (uniform_frame 1920 1080 255)))
            (some (convert_mat_to_image_buffer (uniform_frame 640 640 0)))
            (some { x_pad := 0, y_pad := 0, scale := 0 }) 114
          = (0, some dst_after,
              some (letterbox_transform
                (convert_mat_to_image_buffer (uniform_frame 1920 1080 255))
                (convert_mat_to_image_buffer (uniform_frame 640 640 0)))) ∧
        dst_after.virt_addr ((139 * 640 + 5) * 3 + 1) = 114 ∧
        dst_after.virt_addr ((140 * 640 + 5) * 3 + 1) = 255) := by
  have hg := geometry_1080p (convert_mat_to_image_buffer (uniform_frame 1920 1080 255))
    (convert_mat_to_image_buffer (uniform_frame 640 640 0)) rfl rfl rfl rfl
  have hgf := geometry_float_640 (convert_mat_to_image_buffer (uniform_frame 1920 1080 255))
    (convert_mat_to_image_buffer (uniform_frame 640 640 0)) rfl rfl rfl rfl
  have hrect : letterbox_dst_rect (convert_mat_to_image_buffer (uniform_frame 1920 1080 255))
      (convert_mat_to_image_buffer (uniform_frame 640 640 0))
      = { left := 0, top := 140, right := 640, bottom := 500 } := by
    unfold letterbox_dst_rect
    simp only [hg.2.2.2, hg.2.1, hg.2.2.1]
    rfl
  have hrectf : letterbox_dst_rect_float
      (convert_mat_to_image_buffer (uniform_frame 1920 1080 255))
      (convert_mat_to_image_buffer (uniform_frame 640 640 0))
      = { left := 0, top := 140, right := 640, bottom := 500 } := by
    unfold letterbox_dst_rect_float
    simp only [hgf.2.2.2, hgf.2.1, hgf.2.2.1]
    rfl
  obtain ⟨hF, hE⟩ := software_path_destination true failing_rga
    (convert_mat_to_image_buffer (uniform_frame 1920 1080 255))
    (convert_mat_to_image_buffer (uniform_frame 640 640 0))
    { x_pad := 0, y_pad := 0, scale := 0 } 114
    (by decide) (by decide) (by decide) (by decide) rfl rfl rfl
    (fun _ _ => by
      simp [rga_resize, rga_request, rga_format_of, convert_mat_to_image_buffer, failing_rga,
        wrapbuffer_virtualaddr])
    (fun _ _ => rfl)
  constructor
  · obtain ⟨d, h1, _, _, _, h2, _, h3⟩ := hF (by decide) (by decide) (by decide) (by decide)
    refine ⟨d, h1, ?_, ?_⟩
    · exact h2 5 139 1 (by decide) (by decide) (by decide) (by decide) (by decide) (by decide)
        (by rw [hrectf]; decide)
    · have h := h3 5 0 1 (by decide) (by rw [hgf.2.1]; decide) (le_refl 0)
        (by rw [hgf.2.2.1]; decide) (by decide) (by decide)
      rw [hgf.2.2.2] at h
      exact h
  · obtain ⟨d, h1, _, _, _, h2, _, h3⟩ := hE
    refine ⟨d, h1, ?_, ?_⟩
    · exact h2 5 139 1 (by decide) (by decide) (by decide) (by decide) (by decide) (by decide)
        (by rw [hrect]; decide)
    · have h := h3 5 0 1 (by decide) (by rw [hg.2.1]; decide) (le_refl 0)
        (by rw [hg.2.2.1]; decide) (by decide) (by decide)
      rw [hg.2.2.2] at h
      exact h

/-- C21, as stated, fails. (1) On the build without RK3588, where the resize
stub always fails, a 1920x1080 RGB888 source whose pixels hold their column is
converted to a 512x512 RGB888 target with fill 114. The code stores the float
nearest to 512/1920, which lies above 4/15, and computes (int)(4 / scale) = 14
in single precision: destination pixel (4 + x_pad, 0 + y_pad) = (4, 112)
receives the bytes of source pixel (14, 0), which are 14, whereas the claim
names source pixel (floor(4 / (4/15)), 0) = (15, 0), whose bytes are 15.
(2) Reading `scale` as the float that is stored does not save the claim: for a
640x640 target the stored scale lies above 1/3, floor(1 / scale) = 2, and the
code rounds the quotient to 3 and copies source pixel (3, 0) into destination
pixel (1, 140). (3) On the RK3588 build the bytes outside the rectangle are
what the failed accelerator call left: an accelerator that writes the
destination before it reports failure leaves destination byte 0, outside the
rectangle, different from the fill. -/
theorem software_path_single_precision_sampling :
    (∃ dst_after : image_buffer_t,
      convert_image_with_letterbox_float false failing_rga
          (some (convert_mat_to_image_buffer (column_frame 1920 1080)))
          (some (convert_mat_to_image_buffer (uniform_frame 512 512 0)))
          (some { x_pad := 0, y_pad := 0, scale := 0 }) 114
        = (0, some dst_after,
            some { x_pad := 0, y_pad := 112, scale := 8947849 / 33554432 }) ∧
      letterbox_scaled_width_float (convert_mat_to_image_buffer (column_frame 1920 1080))
          (convert_mat_to_image_buffer (uniform_frame 512 512 0)) = 512 ∧
      letterbox_scaled_height_float (convert_mat_to_image_buffer (column_frame 1920 1080))
          (convert_mat_to_image_buffer (uniform_frame 512 512 0)) = 288 ∧
      letterbox_scale (convert_mat_to_image_buffer (column_frame 1920 1080))
          (convert_mat_to_image_buffer (uniform_frame 512 512 0)) = 4 / 15 ∧
      ⌊(4 : ℚ) / (4 / 15)⌋ = 15 ∧ ⌊(0 : ℚ) / (4 / 15)⌋ = 0 ∧
      cpu_src_coord_float (8947849 / 33554432) 4 = 14 ∧
      cpu_src_coord_float (8947849 / 33554432) 0 = 0 ∧
      ∀ c : Int, 0 ≤ c → c < 3 →
        dst_after.virt_addr (((0 + 112) * 512 + (4 + 0)) * 3 + c) = 14 ∧
          (convert_mat_to_image_buffer (column_frame 1920 1080)).virt_addr
              ((0 * 1920 + 14) * 3 + c) = 14 ∧
          (convert_mat_to_image_buffer (column_frame 1920 1080)).virt_addr
              ((0 * 1920 + 15) * 3 + c) = 15) ∧
      (∃ dst_after : image_buffer_t,
        convert_image_with_letterbox_float false failing_rga
            (some (convert_mat_to_image_buffer (column_frame 1920 1080)))
            (some (convert_mat_to_image_buffer (uniform_frame 640 640 0)))
            (some { x_pad := 0, y_pad := 0, scale := 0 }) 114
          = (0, some dst_after,
              some { x_pad := 0, y_pad := 140, scale := 11184811 / 33554432 }) ∧
        letterbox_scaled_width_float (convert_mat_to_image_buffer (column_frame 1920 1080))
            (convert_mat_to_image_buffer (uniform_frame 640 640 0)) = 640 ∧
        letterbox_scaled_height_float (convert_mat_to_image_buffer (column_frame 1920 1080))
            (convert_mat_to_image_buffer (uniform_frame 640 640 0)) = 360 ∧
        ⌊(1 : ℚ) / (11184811 / 33554432)⌋ = 2 ∧
        cpu_src_coord_float (11184811 / 33554432) 1 = 3 ∧
        ∀ c : Int, 0 ≤ c → c < 3 →
          dst_after.virt_addr (((0 + 140) * 640 + (1 + 0)) * 3 + c) = 3 ∧
            (convert_mat_to_image_buffer (column_frame 1920 1080)).virt_addr
                ((0 * 1920 + 2) * 3 + c) = 2) ∧
      (∃ dst_after : image_buffer_t,
        convert_image_with_letterbox true scribbling_rga
            (some (convert_mat_to_image_buffer (uniform_frame 1920 1080 255)))
            (some (convert_mat_to_image_buffer (uniform_frame 640 640 0)))
            (some { x_pad := 0, y_pad := 0, scale := 0 }) 114
          = (0, some dst_after, some { x_pad := 0, y_pad := 140, scale := 1 / 3 }) ∧
        dst_after.virt_addr ((0 * 640 + 0) * 3 + 0) = 7 ∧ (114 : Int) % 256 = 114) := by
  obtain ⟨hc0, hc4, hd0, hd1⟩ := cpu_src_coord_float_values
  refine ⟨?_, ?_, ?_⟩
  · obtain ⟨hs, hW, hH, ht⟩ := geometry_float_512
      (convert_mat_to_image_buffer (column_frame 1920 1080))
      (convert_mat_to_image_buffer (uniform_frame 512 512 0)) rfl rfl rfl rfl
    obtain ⟨mem, _, hconv⟩ := convert_float_software_path false failing_rga
      (convert_mat_to_image_buffer (column_frame 1920 1080))
      (convert_mat_to_image_buffer (uniform_frame 512 512 0))
      { x_pad := 0, y_pad := 0, scale := 0 } 114 rfl rfl
      (by simp [rga_resize])
    rw [ht, hW, hH] at hconv
    refine ⟨_, hconv, hW, hH, ?_, ?_, ?_, hc4, hc0, ?_⟩
    · unfold letterbox_scale
      show (if ((512 : Int) : ℚ) / ((1920 : Int) : ℚ) < ((512 : Int) : ℚ) / ((1080 : Int) : ℚ)
        then ((512 : Int) : ℚ) / ((1920 : Int) : ℚ) else ((512 : Int) : ℚ) / ((1080 : Int) : ℚ))
        = 4 / 15
      norm_num
    · norm_num
    · norm_num
    · intro c h0 h3
      have hidx : ((0 + 112) * 512 + (4 + 0)) * 3 + c
          = cpu_dst_idx { convert_mat_to_image_buffer (uniform_frame 512 512 0) with
                virt_addr := mem }
              { x_pad := 0, y_pad := 112, scale := 8947849 / 33554432 } 0 4 + c := rfl
      refine ⟨?_, ?_, ?_⟩
      · dsimp only
        rw [hidx, cpu_resize_float_written _ _ _ 512 288 mem 0 4 c (by decide) (by decide)
          h0 h3 (le_refl 0) (by show (0 : Int) + 512 ≤ 512; decide)]
        simp only [hc0, hc4]
        show ((0 * 1920 + 14) * 3 + c) / 3 % 1920 % 256 = 14
        omega
      · show ((0 * 1920 + 14) * 3 + c) / 3 % 1920 % 256 = 14
        omega
      · show ((0 * 1920 + 15) * 3 + c) / 3 % 1920 % 256 = 15
        omega
  · obtain ⟨hs, hW, hH, ht⟩ := geometry_float_640
      (convert_mat_to_image_buffer (column_frame 1920 1080))
      (convert_mat_to_image_buffer (uniform_frame 640 640 0)) rfl rfl rfl rfl
    obtain ⟨mem, _, hconv⟩ := convert_float_software_path false failing_rga
      (convert_mat_to_image_buffer (column_frame 1920 1080))
      (convert_mat_to_image_buffer (uniform_frame 640 640 0))
      { x_pad := 0, y_pad := 0, scale := 0 } 114 rfl rfl
      (by simp [rga_resize])
    rw [ht, hW, hH] at hconv
    refine ⟨_, hconv, hW, hH, ?_, hd1, ?_⟩
    · rw [Int.floor_eq_iff]
      norm_num
    · intro c h0 h3
      have hidx : ((0 + 140) * 640 + (1 + 0)) * 3 + c
          = cpu_dst_idx { convert_mat_to_image_buffer (uniform_frame 640 640 0) with
                virt_addr := mem }
              { x_pad := 0, y_pad := 140, scale := 11184811 / 33554432 } 0 1 + c := rfl
      refine ⟨?_, ?_⟩
      · dsimp only
        rw [hidx, cpu_resize_float_written _ _ _ 640 360 mem 0 1 c (by decide) (by decide)
          h0 h3 (le_refl 0) (by show (0 : Int) + 640 ≤ 640; decide)]
        simp only [hd0, hd1]
        show ((0 * 1920 + 3) * 3 + c) / 3 % 1920 % 256 = 3
        omega
      · show ((0 * 1920 + 2) * 3 + c) / 3 % 1920 % 256 = 2
        omega
  · obtain ⟨hs, hW, hH, ht⟩ := geometry_1080p
      (convert_mat_to_image_buffer (uniform_frame 1920 1080 255))
      (convert_mat_to_image_buffer (uniform_frame 640 640 0)) rfl rfl rfl rfl
    obtain ⟨mem, hmem, hconv⟩ := convert_software_path true scribbling_rga
      (convert_mat_to_image_buffer (uniform_frame 1920 1080 255))
      (convert_mat_to_image_buffer (uniform_frame 640 640 0))
      { x_pad := 0, y_pad := 0, scale := 0 } 114 rfl rfl
      (by simp [rga_resize, rga_request, rga_format_of, convert_mat_to_image_buffer,
            scribbling_rga, wrapbuffer_virtualaddr])
    have hrga : (rga_resize true scribbling_rga
          (some (convert_mat_to_image_buffer (uniform_frame 1920 1080 255)))
          (some { convert_mat_to_image_buffer (uniform_frame 640 640 0) with
                  virt_addr := memset (convert_mat_to_image_buffer
                    (uniform_frame 640 640 0)).virt_addr 114
                    (convert_mat_to_image_buffer (uniform_frame 640 640 0)).size })
          (some (letterbox_src_rect (convert_mat_to_image_buffer (uniform_frame 1920 1080 255))))
          (some (letterbox_dst_rect (convert_mat_to_image_buffer (uniform_frame 1920 1080 255))
            (convert_mat_to_image_buffer (uniform_frame 640 640 0))))).2
        = some { convert_mat_to_image_buffer (uniform_frame 640 640 0) with
                 virt_addr := fun _ => 7 } := rfl
    rw [hrga] at hmem
    have hm : (fun _ => (7 : Int)) = mem :=
      congrArg image_buffer_t.virt_addr (Option.some.inj hmem)
    subst hm
    rw [ht, hW, hH] at hconv
    refine ⟨_, hconv, ?_, by decide⟩
    dsimp only
    rw [cpu_resize_untouched]
    intro y x hy0 _ hx0 _
    left
    show (0 * 640 + 0) * 3 + 0 < ((y + 140) * 640 + (x + 0)) * 3
    omega

end SoftwarePathClaim

end Yolov10
